import Mathlib

/-!
# ServiceDeployment controller: change filter, reconciler and status projection

A shallow embedding of the `08-hello-crd-scaling` controller
(`cmd/controller/predicate.go`, `cmd/controller/reconciler.go`) together with the API types of
`api/v1/servicedeployment.go` and the group/version/kind constants of `api/v1/register.go`.
The reconcile pass of the earlier `04-hello-controller-runtime` variant is embedded in the
namespace `HelloControllerRuntime`.

Conventions of the embedding

* A Go slice is `Option (List α)`: `none` is the nil slice, `some []` the empty non-nil slice.
* A Go `map[string]string` is `Option (List (String × String))`: `none` is the nil map and the
  binding of a key is the first pair that carries it.
* A Go pointer field is an `Option`.
* `int32` fields are `Int`; the code only copies and prints them.
* Kubernetes library records (`ObjectMeta`, `Container`, `ServicePort`, `Deployment`, `Service`)
  are abridged to the fields the controller reads or writes plus a few it must leave alone.
-/

namespace ServiceDeploymentController

/-! ## Go values -/

/-- Go slice: `none` is nil. -/
abbrev GoSlice (α : Type) := Option (List α)

/-- Go `map[string]string`: `none` is nil. -/
abbrev GoMap := Option (List (String × String))

/-- Distinct keys of a map, in first-occurrence order. -/
def mapKeys (l : List (String × String)) : List String :=
  (l.map Prod.fst).eraseDups

/-- Go `m[k] = v` on a non-nil map: overwrite the binding of `k` or add one. -/
def mapSet (k v : String) : List (String × String) → List (String × String)
  | [] => [(k, v)]
  | (k1, v1) :: rest => if k1 = k then (k, v) :: rest else (k1, v1) :: mapSet k v rest

/-- Go `reflect.DeepEqual` on two `map[string]string` values: same nil-ness, same number of keys,
and every key of the first is bound to the same value in the second. -/
def reflectDeepEqualMap : GoMap → GoMap → Bool
  | none, none => true
  | some a, some b =>
      (mapKeys a).length == (mapKeys b).length &&
        (mapKeys a).all (fun k => a.lookup k == b.lookup k)
  | _, _ => false

/-- Go `v, ok := m[k]`: the value the map binds to `k`, if any; a nil map binds nothing. -/
def mapBinding (m : GoMap) (k : String) : Option String :=
  (m.getD []).lookup k

/-- Two maps differ as Go values: one is nil and the other is not, or some key is bound in one
of them to a value it is not bound to in the other. -/
def mapsDiffer (a b : GoMap) : Prop :=
  a.isSome ≠ b.isSome ∨ ∃ k, mapBinding a k ≠ mapBinding b k

/-- Go `reflect.DeepEqual` on two slices whose elements are compared structurally: a nil slice
and an empty non-nil slice are different. -/
def reflectDeepEqualSlice {α : Type} [DecidableEq α] (a b : GoSlice α) : Bool :=
  decide (a = b)

/-! ## API machinery records (abridged) -/

/-- Go `schema.GroupVersion`. -/
structure GroupVersion where
  Group : String := ""
  Version : String := ""
  deriving DecidableEq

/-- Go `metav1.OwnerReference`; `APIVersion` is kept in its parsed group/version form. -/
structure OwnerReference where
  APIVersion : GroupVersion := {}
  Kind : String := ""
  Name : String := ""
  UID : String := ""
  Controller : Option Bool := none
  BlockOwnerDeletion : Option Bool := none
  deriving DecidableEq

/-- Go `metav1.ObjectMeta`. `ResourceVersion` is the store's version token (0 when unset) and
`DeletionTimestamp` a pointer to a time. -/
structure ObjectMeta where
  Name : String := ""
  Namespace : String := ""
  UID : String := ""
  ResourceVersion : Nat := 0
  Labels : GoMap := none
  Annotations : GoMap := none
  Finalizers : GoSlice String := none
  DeletionTimestamp : Option Int := none
  OwnerReferences : GoSlice OwnerReference := none
  deriving DecidableEq

/-- Go `metav1.TypeMeta`. -/
structure TypeMeta where
  Kind : String := ""
  APIVersion : String := ""
  deriving DecidableEq

/-- Go `types.NamespacedName`. -/
structure NamespacedName where
  Namespace : String := ""
  Name : String := ""
  deriving DecidableEq

/-- Go `corev1.Container`. -/
structure Container where
  Name : String := ""
  Image : String := ""
  Args : GoSlice String := none
  deriving DecidableEq

/-- Go `corev1.ServicePort`. -/
structure ServicePort where
  Name : String := ""
  Protocol : String := ""
  Port : Int := 0
  NodePort : Int := 0
  deriving DecidableEq

/-! ## `api/v1`: the ServiceDeployment descriptor -/

/-- Source constant `GroupName` of `api/v1/register.go`. -/
def GroupName : String := "k8s.example.com"

/-- Source constant `GroupVersion` of `api/v1/register.go`. -/
def GroupVersionName : String := "v1"

/-- Source constant `Kind` of `api/v1/register.go`. -/
def Kind : String := "ServiceDeployment"

/-- Source variable `SchemeGroupVersion` of `api/v1/register.go`. -/
def SchemeGroupVersion : GroupVersion := { Group := GroupName, Version := GroupVersionName }

/-- Modelled from the spec: the status record of the `hello-crd-scaling` API package, whose
declaration is not among the sources. It is the `ServiceDeploymentStatus` of
`07-hello-printer-columns/api/v1` extended with the label-selector string `Selector` that
`fillFromDeploymentStatus` assigns. -/
structure ServiceDeploymentStatus where
  DesiredReplicas : Int := 0
  ReadyReplicas : Int := 0
  UpdatedReplicas : Int := 0
  AvailableReplicas : Int := 0
  Ready : String := ""
  ServiceType : String := ""
  ClusterIP : String := ""
  ExternalIPs : String := ""
  Ports : String := ""
  Selector : String := ""
  deriving DecidableEq

/-- Source type `ServiceDeploymentSpecService`. -/
structure ServiceDeploymentSpecService where
  Name : String := ""
  Type_ : String := ""
  Ports : GoSlice ServicePort := none
  deriving DecidableEq

/-- Source type `ServiceDeploymentSpec`. -/
structure ServiceDeploymentSpec where
  Replicas : Int := 0
  Containers : GoSlice Container := none
  Service : ServiceDeploymentSpecService := {}
  deriving DecidableEq

/-- Source type `ServiceDeployment`. -/
structure ServiceDeployment where
  TypeMeta : TypeMeta := {}
  ObjectMeta : ObjectMeta := {}
  Spec : ServiceDeploymentSpec := {}
  Status : ServiceDeploymentStatus := {}
  deriving DecidableEq

/-! ## Children -/

/-- Go `metav1.LabelSelector` (match-labels part). -/
structure LabelSelector where
  MatchLabels : GoMap := none
  deriving DecidableEq

/-- Go `corev1.PodSpec`. -/
structure PodSpec where
  Containers : GoSlice Container := none
  RestartPolicy : String := ""
  deriving DecidableEq

/-- Go `corev1.PodTemplateSpec`. -/
structure PodTemplateSpec where
  ObjectMeta : ObjectMeta := {}
  Spec : PodSpec := {}
  deriving DecidableEq

/-- Go `appsv1.DeploymentSpec`. -/
structure DeploymentSpec where
  Replicas : Option Int := none
  Selector : Option LabelSelector := none
  Template : PodTemplateSpec := {}
  deriving DecidableEq

/-- Go `appsv1.DeploymentStatus`. -/
structure DeploymentStatus where
  Replicas : Int := 0
  UpdatedReplicas : Int := 0
  ReadyReplicas : Int := 0
  AvailableReplicas : Int := 0
  deriving DecidableEq

/-- Go `appsv1.Deployment`. -/
structure Deployment where
  ObjectMeta : ObjectMeta := {}
  Spec : DeploymentSpec := {}
  Status : DeploymentStatus := {}
  deriving DecidableEq

/-- Go `corev1.ServiceSpec`. -/
structure ServiceSpec where
  Ports : GoSlice ServicePort := none
  Selector : GoMap := none
  ClusterIP : String := ""
  Type_ : String := ""
  ExternalIPs : GoSlice String := none
  deriving DecidableEq

/-- Go `corev1.Service`. -/
structure Service where
  ObjectMeta : ObjectMeta := {}
  Spec : ServiceSpec := {}
  deriving DecidableEq

/-! ## `cmd/controller/predicate.go` -/

/-- Go `client.Object` as delivered in an event: the dynamic type of the interface value. -/
inductive Object where
  | serviceDeployment (sd : ServiceDeployment)
  | deployment (d : Deployment)
  | service (s : Service)
  | nil
  deriving DecidableEq

/-- Go `event.CreateEvent`. -/
structure CreateEvent where
  Object : Object

/-- Go `event.DeleteEvent`. -/
structure DeleteEvent where
  Object : Object
  DeleteStateUnknown : Bool := false

/-- Go `event.GenericEvent`. -/
structure GenericEvent where
  Object : Object

/-- Go `event.UpdateEvent`. -/
structure UpdateEvent where
  ObjectOld : Object
  ObjectNew : Object

/-- Go `predicate.Funcs`. -/
structure Funcs where
  CreateFunc : CreateEvent → Bool
  DeleteFunc : DeleteEvent → Bool
  UpdateFunc : UpdateEvent → Bool
  GenericFunc : GenericEvent → Bool

/-- Go type assertion `obj.(*apiv1.ServiceDeployment)`; `none` is `ok == false`. -/
def asServiceDeployment : Object → Option ServiceDeployment
  | .serviceDeployment sd => some sd
  | _ => none

/-- Go `reflect.DeepEqual` on two `ServiceDeploymentSpec` values: field by field, the slices with
the nil/empty distinction. -/
def reflectDeepEqualSpec (a b : ServiceDeploymentSpec) : Bool :=
  decide (a.Replicas = b.Replicas) &&
    reflectDeepEqualSlice a.Containers b.Containers &&
    decide (a.Service.Name = b.Service.Name) &&
    decide (a.Service.Type_ = b.Service.Type_) &&
    reflectDeepEqualSlice a.Service.Ports b.Service.Ports

/-- Source variable `serviceDeploymentPredicate`: accept spec or metadata changes, ignore
status-only updates. -/
def serviceDeploymentPredicate : Funcs where
  CreateFunc := fun _ => true
  DeleteFunc := fun _ => true
  GenericFunc := fun _ => true
  UpdateFunc := fun e =>
    match asServiceDeployment e.ObjectOld, asServiceDeployment e.ObjectNew with
    | some oldObj, some newObj =>
        -- 1) Spec changed?
        if !reflectDeepEqualSpec oldObj.Spec newObj.Spec then true
        -- 2) Metadata changes we care about
        else if !reflectDeepEqualMap oldObj.ObjectMeta.Labels newObj.ObjectMeta.Labels then true
        else if !reflectDeepEqualMap oldObj.ObjectMeta.Annotations
            newObj.ObjectMeta.Annotations then true
        else if !reflectDeepEqualSlice oldObj.ObjectMeta.Finalizers
            newObj.ObjectMeta.Finalizers then true
        -- 3) Deletion timestamp toggled?
        else if (oldObj.ObjectMeta.DeletionTimestamp == none) !=
            (newObj.ObjectMeta.DeletionTimestamp == none) then true
        -- Otherwise: treat as status-only (or other noise) -> ignore
        else false
    | _, _ => true

/-! ## Errors, results and the observable trace of a reconcile -/

/-- Go `metav1.StatusReason` values the controller distinguishes, and two it does not. -/
inductive StatusReason where
  | NotFound
  | AlreadyExists
  | Conflict
  | Timeout
  | Invalid
  deriving DecidableEq

/-- Go `error` values: an API status error, a text-only error, and an error made by
`fmt.Errorf` with the `%w` verb around another one. -/
inductive Err where
  | status (reason : StatusReason) (message : String)
  | text (message : String)
  | wrapped (msg : String) (inner : Err)
  deriving DecidableEq

/-- Go `err.Error()`. -/
def Err.Error : Err → String
  | .status _ message => message
  | .text message => message
  | .wrapped msg inner => msg ++ inner.Error

/-- Go `apierrors.ReasonForError`: the reason of the first status error on the unwrap chain. -/
def ReasonForError : Err → Option StatusReason
  | .status reason _ => some reason
  | .text _ => none
  | .wrapped _ inner => ReasonForError inner

/-- Go `k8serrors.IsNotFound`. -/
def IsNotFound (err : Err) : Bool := ReasonForError err == some StatusReason.NotFound

/-- Go `k8serrors.IsConflict`. -/
def IsConflict (err : Err) : Bool := ReasonForError err == some StatusReason.Conflict

/-- Go `k8serrors.IsAlreadyExists`. -/
def IsAlreadyExists (err : Err) : Bool := ReasonForError err == some StatusReason.AlreadyExists

/-- Go `ctrl.Result`. -/
structure Result where
  Requeue : Bool := false
  RequeueAfter : Nat := 0
  deriving DecidableEq

/-- Go `ctrl.Request`. -/
structure Request where
  NamespacedName : NamespacedName
  deriving DecidableEq

/-- Go `controllerutil.OperationResult`. -/
inductive OperationResult where
  | None
  | Created
  | Updated
  deriving DecidableEq

/-- Source constant `corev1.EventTypeNormal`. -/
def EventTypeNormal : String := "Normal"

/-- Source constant `corev1.EventTypeWarning`. -/
def EventTypeWarning : String := "Warning"

/-- One externally visible step of a reconcile: a call on the store, an audit event handed to the
recorder (with its format string and the rendered arguments), or a log line. -/
inductive Action where
  | getServiceDeployment (key : NamespacedName)
  | getDeployment (key : NamespacedName)
  | createDeployment (obj : Deployment)
  | updateDeployment (obj : Deployment)
  | deleteDeployment (ns name : String)
  | getService (key : NamespacedName)
  | createService (obj : Service)
  | updateService (obj : Service)
  | deleteService (ns name : String)
  | patchStatus (obj orig : ServiceDeployment)
  | event (subject : NamespacedName) (eventtype reason messageFmt : String) (args : List String)
  | logInfo (msg : String)
  | logError (err : Err) (msg : String)
  deriving DecidableEq

/-- Whether the step is a write on the store. -/
def Action.isWrite : Action → Bool
  | .createDeployment _ | .updateDeployment _ | .deleteDeployment _ _ => true
  | .createService _ | .updateService _ | .deleteService _ _ => true
  | .patchStatus _ _ => true
  | _ => false

/-- Whether the step is a create, update or delete of a child. -/
def Action.isChildWrite : Action → Bool
  | .createDeployment _ | .updateDeployment _ | .deleteDeployment _ _ => true
  | .createService _ | .updateService _ | .deleteService _ _ => true
  | _ => false

/-- Whether the step is a read or a write of the Service child. -/
def Action.isServiceCall : Action → Bool
  | .getService _ | .createService _ | .updateService _ | .deleteService _ _ => true
  | _ => false

/-- Whether the step is a status patch of the descriptor. -/
def Action.isStatusPatch : Action → Bool
  | .patchStatus _ _ => true
  | _ => false

/-- Whether the step is an audit event of the given severity. -/
def Action.isEventOfType (t : String) : Action → Bool
  | .event _ eventtype _ _ _ => eventtype == t
  | _ => false

/-- The store as the reconciler sees it, plus everything the reconcile has done so far. -/
structure World (σ : Type) where
  st : σ
  trace : List Action

/-- Record a step that does not touch the store. -/
def World.emit {σ : Type} (a : Action) (w : World σ) : World σ :=
  { w with trace := w.trace ++ [a] }

/-- Record a store call and run it. -/
def World.call {σ α : Type} (a : Action) (op : σ → α × σ) (w : World σ) : α × World σ :=
  ((op w.st).1, { st := (op w.st).2, trace := w.trace ++ [a] })

/-- Go `client.Client` restricted to the calls the reconciler makes: every call returns its
answer and the store after it. A successful get, create, update or patch answers with the object
as the store holds it. -/
structure Client (σ : Type) where
  Get : NamespacedName → σ → Except Err ServiceDeployment × σ
  GetDeployment : NamespacedName → σ → Except Err Deployment × σ
  CreateDeployment : Deployment → σ → Except Err Deployment × σ
  UpdateDeployment : Deployment → σ → Except Err Deployment × σ
  GetService : NamespacedName → σ → Except Err Service × σ
  CreateService : Service → σ → Except Err Service × σ
  UpdateService : Service → σ → Except Err Service × σ
  StatusPatch : ServiceDeployment → ServiceDeployment → σ → Except Err ServiceDeployment × σ

/-- Go `*kubernetes.Clientset` restricted to the two typed deletes of the failsafe branch. -/
structure Clientset (σ : Type) where
  DeleteDeployment : String → String → σ → Option Err × σ
  DeleteService : String → String → σ → Option Err × σ

/-- Go `schema.GroupVersionKind`. -/
structure GroupVersionKind where
  GroupVersion : GroupVersion
  Kind : String
  deriving DecidableEq

/-- Source type `reconciler`. The scheme is reduced to what the reconciler asks of it: the
group/version/kind registered for `ServiceDeployment`, if any. The recorder is the trace. -/
structure reconciler (σ : Type) where
  Client : Client σ
  scheme : Option GroupVersionKind
  kubeClient : Clientset σ

/-- Source function `addKnownTypes` of `api/v1/register.go`, as the scheme entry it makes. -/
def addKnownTypes : Option GroupVersionKind :=
  some { GroupVersion := SchemeGroupVersion, Kind := Kind }

/-! ## Owner links (`controllerutil.SetControllerReference`) -/

/-- Go `metav1.GetControllerOf`: the first owner reference flagged as controller. -/
def GetControllerOf (meta : ObjectMeta) : Option OwnerReference :=
  (meta.OwnerReferences.getD []).find? (fun ref => ref.Controller == some true)

/-- Go `referSameObject` of `controllerutil`: same group, kind and name. -/
def referSameObject (a b : OwnerReference) : Bool :=
  a.APIVersion.Group == b.APIVersion.Group && a.Kind == b.Kind && a.Name == b.Name

/-- Go `upsertOwnerRef` on the slice: overwrite the first reference to the same object, or
append. -/
def upsertOwnerRef (ref : OwnerReference) : List OwnerReference → List OwnerReference
  | [] => [ref]
  | x :: rest => if referSameObject x ref then ref :: rest else x :: upsertOwnerRef ref rest

/-- Go `validateOwner` of `controllerutil`: a namespaced owner may only own objects of its own
namespace. -/
def validateOwner (ownerNs objNs : String) : Option Err :=
  if ownerNs ≠ "" then
    if objNs = "" then
      some (.text "cluster-scoped resource must not have a namespace-scoped owner")
    else if ownerNs ≠ objNs then
      some (.text "cross-namespace owner references are disallowed")
    else none
  else none

/-- The reference `SetControllerReference` builds for an owner registered under `gvk`:
kind, name and uid of the owner, flagged as controller. -/
def controllerRef (owner : ServiceDeployment) (gvk : GroupVersionKind) : OwnerReference :=
  { APIVersion := gvk.GroupVersion
    Kind := gvk.Kind
    Name := owner.ObjectMeta.Name
    UID := owner.ObjectMeta.UID
    BlockOwnerDeletion := some true
    Controller := some true }

/-- Modelled from the spec: the owner link of §3, as the library function
`controllerutil.SetControllerReference` (not among the sources) records it. It answers with the
controlled object's metadata after the call and the error, if any: the owner must be registered
in the scheme, an object controlled by somebody else is refused and left alone, and otherwise
the link (kind, name, uid, controller = true) is upserted. -/
def SetControllerReference (owner : ServiceDeployment) (controlled : ObjectMeta)
    (scheme : Option GroupVersionKind) : ObjectMeta × Option Err :=
  match validateOwner owner.ObjectMeta.Namespace controlled.Namespace with
  | some err => (controlled, some err)
  | none =>
    match scheme with
    | none => (controlled, some (.text "no kind is registered for the owner type"))
    | some gvk =>
      match GetControllerOf controlled with
      | some existing =>
          if !referSameObject existing (controllerRef owner gvk) then
            (controlled, some (.text "Object is already owned by another controller"))
          else
            ({ controlled with
                OwnerReferences :=
                  some (upsertOwnerRef (controllerRef owner gvk)
                    (controlled.OwnerReferences.getD [])) },
              none)
      | none =>
          ({ controlled with
              OwnerReferences :=
                some (upsertOwnerRef (controllerRef owner gvk)
                  (controlled.OwnerReferences.getD [])) },
            none)

/-! ## Semantic equality (`equality.Semantic.DeepEqual`) -/

/-- Pairwise comparison of two lists of the same length. -/
def semanticEqList {α : Type} (eq : α → α → Bool) : List α → List α → Bool
  | [], [] => true
  | a :: as, b :: bs => eq a b && semanticEqList eq as bs
  | _, _ => false

/-- Semantic equality of slices: nil and empty are the same. -/
def semanticEqSlice {α : Type} (eq : α → α → Bool) (a b : GoSlice α) : Bool :=
  semanticEqList eq (a.getD []) (b.getD [])

/-- Semantic equality of maps: nil and empty are the same. -/
def semanticEqMap (a b : GoMap) : Bool :=
  reflectDeepEqualMap (some (a.getD [])) (some (b.getD []))

/-- Semantic equality of containers. -/
def semanticEqContainer (a b : Container) : Bool :=
  decide (a.Name = b.Name) && decide (a.Image = b.Image) &&
    semanticEqSlice (fun x y => decide (x = y)) a.Args b.Args

/-- Semantic equality of object metadata. -/
def semanticEqObjectMeta (a b : ObjectMeta) : Bool :=
  decide (a.Name = b.Name) && decide (a.Namespace = b.Namespace) && decide (a.UID = b.UID) &&
    decide (a.ResourceVersion = b.ResourceVersion) &&
    semanticEqMap a.Labels b.Labels && semanticEqMap a.Annotations b.Annotations &&
    semanticEqSlice (fun x y => decide (x = y)) a.Finalizers b.Finalizers &&
    decide (a.DeletionTimestamp = b.DeletionTimestamp) &&
    semanticEqSlice (fun x y => decide (x = y)) a.OwnerReferences b.OwnerReferences

/-- Semantic equality of label selectors behind a pointer. -/
def semanticEqSelector : Option LabelSelector → Option LabelSelector → Bool
  | none, none => true
  | some a, some b => semanticEqMap a.MatchLabels b.MatchLabels
  | _, _ => false

/-- Go `equality.Semantic.DeepEqual` on two Deployments. -/
def semanticEqDeployment (a b : Deployment) : Bool :=
  semanticEqObjectMeta a.ObjectMeta b.ObjectMeta &&
    decide (a.Spec.Replicas = b.Spec.Replicas) &&
    semanticEqSelector a.Spec.Selector b.Spec.Selector &&
    semanticEqObjectMeta a.Spec.Template.ObjectMeta b.Spec.Template.ObjectMeta &&
    semanticEqSlice semanticEqContainer a.Spec.Template.Spec.Containers
      b.Spec.Template.Spec.Containers &&
    decide (a.Spec.Template.Spec.RestartPolicy = b.Spec.Template.Spec.RestartPolicy) &&
    decide (a.Status = b.Status)

/-- Go `equality.Semantic.DeepEqual` on two Services. -/
def semanticEqService (a b : Service) : Bool :=
  semanticEqObjectMeta a.ObjectMeta b.ObjectMeta &&
    semanticEqSlice (fun x y => decide (x = y)) a.Spec.Ports b.Spec.Ports &&
    semanticEqMap a.Spec.Selector b.Spec.Selector &&
    decide (a.Spec.ClusterIP = b.Spec.ClusterIP) &&
    decide (a.Spec.Type_ = b.Spec.Type_) &&
    semanticEqSlice (fun x y => decide (x = y)) a.Spec.ExternalIPs b.Spec.ExternalIPs

/-! ## The child applier (`controllerutil.CreateOrUpdate`) -/

/-- What `CreateOrUpdate` needs to know about one child kind. -/
structure ObjectOps (σ α : Type) where
  key : α → NamespacedName
  get : NamespacedName → σ → Except Err α × σ
  create : α → σ → Except Err α × σ
  update : α → σ → Except Err α × σ
  semanticDeepEqual : α → α → Bool
  getAction : NamespacedName → Action
  createAction : α → Action
  updateAction : α → Action

/-- Go `mutate` of `controllerutil`: run the mutation and refuse a changed name or namespace.
The object is returned as the mutation left it. -/
def mutate {σ α : Type} (ops : ObjectOps σ α) (f : α → α × Option Err) (key : NamespacedName)
    (obj : α) : α × Option Err :=
  match (f obj).2 with
  | some err => ((f obj).1, some err)
  | none =>
    if ops.key (f obj).1 ≠ key then
      ((f obj).1, some (.text "MutateFn cannot mutate object name and/or object namespace"))
    else ((f obj).1, none)

/-- Modelled from the spec: the child applier of §4.3, the library function
`controllerutil.CreateOrUpdate` (not among the sources). Get the child, or keep the blank one
when the store reports not-found; run the mutation; create when absent, update when the mutated
object differs semantically from the fetched one, write nothing otherwise. The answer carries the
object as the caller's pointer holds it afterwards. -/
def CreateOrUpdate {σ α : Type} (ops : ObjectOps σ α) (obj : α) (f : α → α × Option Err)
    (w : World σ) : (OperationResult × Option Err × α) × World σ :=
  let key := ops.key obj
  let g := w.call (ops.getAction key) (ops.get key)
  match g.1 with
  | .error err =>
    if !IsNotFound err then ((.None, some err, obj), g.2)
    else
      match (mutate ops f key obj).2 with
      | some merr => ((.None, some merr, (mutate ops f key obj).1), g.2)
      | none =>
        let c := g.2.call (ops.createAction (mutate ops f key obj).1)
          (ops.create (mutate ops f key obj).1)
        match c.1 with
        | .error cerr => ((.None, some cerr, (mutate ops f key obj).1), c.2)
        | .ok created => ((.Created, none, created), c.2)
  | .ok existing =>
    match (mutate ops f key existing).2 with
    | some merr => ((.None, some merr, (mutate ops f key existing).1), g.2)
    | none =>
      if ops.semanticDeepEqual existing (mutate ops f key existing).1 then
        ((.None, none, (mutate ops f key existing).1), g.2)
      else
        let u := g.2.call (ops.updateAction (mutate ops f key existing).1)
          (ops.update (mutate ops f key existing).1)
        match u.1 with
        | .error uerr => ((.None, some uerr, (mutate ops f key existing).1), u.2)
        | .ok updated => ((.Updated, none, updated), u.2)

/-! ## `api/v1`: deep copy -/

/-- Source method `ServiceDeployment.DeepCopyInto`, as the value written to `out`: the two spec
slices are copied into freshly made slices of the same length, everything else is assigned. -/
def ServiceDeployment.DeepCopyInto (src : ServiceDeployment) : ServiceDeployment :=
  { TypeMeta := src.TypeMeta
    ObjectMeta := src.ObjectMeta
    Spec :=
      { Replicas := src.Spec.Replicas
        Containers := some (src.Spec.Containers.getD [])
        Service :=
          { Name := src.Spec.Service.Name
            Type_ := src.Spec.Service.Type_
            Ports := some (src.Spec.Service.Ports.getD []) } }
    Status := src.Status }

/-- Source method `ServiceDeployment.DeepCopy` on a possibly nil receiver. -/
def ServiceDeployment.DeepCopy : Option ServiceDeployment → Option ServiceDeployment
  | none => none
  | some src => some src.DeepCopyInto

/-- Source type `ServiceDeploymentList` (list metadata left out). -/
structure ServiceDeploymentList where
  TypeMeta : TypeMeta := {}
  Items : GoSlice ServiceDeployment := none
  deriving DecidableEq

/-- Source method `ServiceDeploymentList.DeepCopyObject`: the items are copied one by one into a
fresh slice only when the slice is not nil. -/
def ServiceDeploymentList.DeepCopyObject (src : ServiceDeploymentList) : ServiceDeploymentList :=
  { TypeMeta := src.TypeMeta
    Items :=
      match src.Items with
      | none => none
      | some items => some (items.map ServiceDeployment.DeepCopyInto) }

/-! ## `cmd/controller/reconciler.go`: status projection -/

/-- Go `fmt.Sprintf` with the verb `%d` on an `int32`. -/
def fmtInt (i : Int) : String := toString i

/-- Source function `fillFromDeploymentStatus`. `selectorString` stands for the library call
`metav1.LabelSelectorAsSelector` followed by `String()`; it fails on a selector that does not
convert. -/
def fillFromDeploymentStatus (selectorString : LabelSelector → Except Err String)
    (dst : ServiceDeploymentStatus) (sd : ServiceDeployment) (dep : Deployment) :
    ServiceDeploymentStatus :=
  let dst := { dst with DesiredReplicas := sd.Spec.Replicas }
  let dst := { dst with ReadyReplicas := dep.Status.ReadyReplicas }
  let dst := { dst with UpdatedReplicas := dep.Status.UpdatedReplicas }
  let dst := { dst with AvailableReplicas := dep.Status.AvailableReplicas }
  let dst := { dst with Ready := fmtInt dep.Status.ReadyReplicas ++ "/" ++ fmtInt sd.Spec.Replicas }
  -- Build the selector string for the scale subresource
  match dep.Spec.Selector with
  | some selector =>
    match selectorString selector with
    | .ok str => { dst with Selector := str }
    | .error _ => dst
  | none => dst

/-- Source constant `corev1.ProtocolTCP`. -/
def ProtocolTCP : String := "TCP"

/-- The loop body of `fillFromServiceStatus`: one port rendered as port, slash, protocol. -/
def portPart (p : ServicePort) : String :=
  fmtInt p.Port ++ "/" ++ (if p.Protocol = "" then ProtocolTCP else p.Protocol)

/-- Source function `fillFromServiceStatus`. -/
def fillFromServiceStatus (dst : ServiceDeploymentStatus) (svc : Service) :
    ServiceDeploymentStatus :=
  let dst := { dst with ServiceType := svc.Spec.Type_ }
  let dst := { dst with ClusterIP := svc.Spec.ClusterIP }
  let dst := { dst with ExternalIPs := ",".intercalate (svc.Spec.ExternalIPs.getD []) }
  let parts := (svc.Spec.Ports.getD []).map portPart
  { dst with Ports := ",".intercalate parts }

/-- Source method `reconciler.SyncStatus`. The answer carries the error and the descriptor as
the caller's pointer holds it afterwards. -/
def SyncStatus {σ : Type} (r : reconciler σ) (selectorString : LabelSelector → Except Err String)
    (sd : ServiceDeployment) (dep : Deployment) (svc : Service) (w : World σ) :
    (Option Err × ServiceDeployment) × World σ :=
  let desired := sd.Status
  let desired := fillFromDeploymentStatus selectorString desired sd dep
  let desired := fillFromServiceStatus desired svc
  -- If there are no changes, do nothing
  if sd.Status = desired then ((none, sd), w)
  else
    let orig := sd.DeepCopyInto
    let sd1 := { sd with Status := desired }
    let p := w.call (.patchStatus sd1 orig) (r.Client.StatusPatch sd1 orig)
    match p.1 with
    | .error err => ((some err, sd1), p.2)
    | .ok patched => ((none, patched), p.2)

/-! ## `cmd/controller/reconciler.go`: the reconcile pass -/

/-- The `ObjectOps` of the Deployment child on the reconciler's client. -/
def deploymentOps {σ : Type} (r : reconciler σ) : ObjectOps σ Deployment where
  key := fun d => { Namespace := d.ObjectMeta.Namespace, Name := d.ObjectMeta.Name }
  get := r.Client.GetDeployment
  create := r.Client.CreateDeployment
  update := r.Client.UpdateDeployment
  semanticDeepEqual := semanticEqDeployment
  getAction := .getDeployment
  createAction := .createDeployment
  updateAction := .updateDeployment

/-- The `ObjectOps` of the Service child on the reconciler's client. -/
def serviceOps {σ : Type} (r : reconciler σ) : ObjectOps σ Service where
  key := fun s => { Namespace := s.ObjectMeta.Namespace, Name := s.ObjectMeta.Name }
  get := r.Client.GetService
  create := r.Client.CreateService
  update := r.Client.UpdateService
  semanticDeepEqual := semanticEqService
  getAction := .getService
  createAction := .createService
  updateAction := .updateService

/-- The mutate closure handed to `CreateOrUpdate` for the Deployment in `Reconcile`. -/
def deploymentMutateFn {σ : Type} (r : reconciler σ) (sd : ServiceDeployment) (dep : Deployment) :
    Deployment × Option Err :=
  -- Set Labels
  let labels := mapSet "app" sd.ObjectMeta.Name (dep.ObjectMeta.Labels.getD [])
  -- Set Template
  let templateName :=
    if dep.Spec.Template.ObjectMeta.Name = "" then sd.ObjectMeta.Name
    else dep.Spec.Template.ObjectMeta.Name
  let dep1 : Deployment :=
    { dep with
      ObjectMeta := { dep.ObjectMeta with Labels := some labels }
      Spec :=
        { dep.Spec with
          -- Set Replicas
          Replicas := some sd.Spec.Replicas
          -- Set Selector
          Selector := some { MatchLabels := some [("app", sd.ObjectMeta.Name)] }
          Template :=
            { dep.Spec.Template with
              ObjectMeta :=
                { dep.Spec.Template.ObjectMeta with
                  Name := templateName
                  Labels := some [("app", sd.ObjectMeta.Name)] }
              Spec := { dep.Spec.Template.Spec with Containers := sd.Spec.Containers } } } }
  -- Set controller ownerReferences
  let o := SetControllerReference sd dep1.ObjectMeta r.scheme
  ({ dep1 with ObjectMeta := o.1 }, o.2)

/-- The mutate closure handed to `CreateOrUpdate` for the Service in `Reconcile`. -/
def serviceMutateFn {σ : Type} (r : reconciler σ) (sd : ServiceDeployment) (svc : Service) :
    Service × Option Err :=
  let svc1 : Service :=
    { svc with
      ObjectMeta := { svc.ObjectMeta with Labels := some [("app", sd.ObjectMeta.Name)] }
      Spec :=
        { svc.Spec with
          Selector := some [("app", sd.ObjectMeta.Name)]
          Type_ := sd.Spec.Service.Type_
          -- Preserve clusterIP on updates: left as is
          Ports := sd.Spec.Service.Ports } }
  let o := SetControllerReference sd svc1.ObjectMeta r.scheme
  ({ svc1 with ObjectMeta := o.1 }, o.2)

/-- Name and namespace of the descriptor an event is recorded against. -/
def subjectOf (sd : ServiceDeployment) : NamespacedName :=
  { Namespace := sd.ObjectMeta.Namespace, Name := sd.ObjectMeta.Name }

/-- Step 4 and the return of `Reconcile`: sync the status, log a failure, succeed. -/
def reconcileStatus {σ : Type} (r : reconciler σ)
    (selectorString : LabelSelector → Except Err String)
    (sd : ServiceDeployment) (dep : Deployment) (svc : Service) (w : World σ) :
    (Result × Option Err) × World σ :=
  let s := SyncStatus r selectorString sd dep svc w
  let w1 :=
    match s.1.1 with
    | some err => s.2.emit (.logError err "failed to sync status with deployment or service")
    | none => s.2
  (({}, none), w1.emit (.logInfo "reconciled"))

/-- Step 3 of `Reconcile`: ensure the child Service, record the outcome, go on to the status. -/
def reconcileService {σ : Type} (r : reconciler σ)
    (selectorString : LabelSelector → Except Err String) (svcName : String)
    (sd : ServiceDeployment) (dep : Deployment) (w : World σ) :
    (Result × Option Err) × World σ :=
  let svc : Service :=
    { ObjectMeta := { Name := svcName, Namespace := sd.ObjectMeta.Namespace } }
  let a := CreateOrUpdate (serviceOps r) svc (serviceMutateFn r sd) w
  match a.1.2.1 with
  | some err =>
    -- Record a Warning tied to the CR
    (({}, some (.wrapped "apply service: " err)),
      a.2.emit (.event (subjectOf sd) EventTypeWarning "ApplyServiceFailed"
        "Failed to apply Service %q: %v" [a.1.2.2.ObjectMeta.Name, err.Error]))
  | none =>
    -- Record Normal event for created/updated/noop
    let w1 :=
      match a.1.1 with
      | .Created =>
        a.2.emit (.event (subjectOf sd) EventTypeNormal "ServiceCreated"
          "Created Service %q" [a.1.2.2.ObjectMeta.Name])
      | .Updated =>
        a.2.emit (.event (subjectOf sd) EventTypeNormal "ServiceUpdated"
          "Updated Service %q" [a.1.2.2.ObjectMeta.Name])
      | .None => a.2
    reconcileStatus r selectorString sd dep a.1.2.2 w1

/-- Step 2 of `Reconcile`: ensure the child Deployment, absorb a conflict, record the outcome,
go on to the Service. -/
def reconcileDeployment {σ : Type} (r : reconciler σ)
    (selectorString : LabelSelector → Except Err String) (svcName : String)
    (sd : ServiceDeployment) (w : World σ) : (Result × Option Err) × World σ :=
  let dep : Deployment :=
    { ObjectMeta := { Name := sd.ObjectMeta.Name, Namespace := sd.ObjectMeta.Namespace } }
  let a := CreateOrUpdate (deploymentOps r) dep (deploymentMutateFn r sd) w
  match a.1.2.1 with
  | some err =>
    if IsConflict err then
      (({ Requeue := true }, none), a.2.emit (.logInfo "deployment update conflicted, will retry"))
    else
      -- Record a Warning tied to the CR
      (({}, some (.wrapped "apply deployment: " err)),
        a.2.emit (.event (subjectOf sd) EventTypeWarning "ApplyDeploymentFailed"
          "Failed to apply Deployment %q: %v" [a.1.2.2.ObjectMeta.Name, err.Error]))
  | none =>
    -- Record Normal event for created/updated/noop
    let w1 :=
      match a.1.1 with
      | .Created =>
        a.2.emit (.event (subjectOf sd) EventTypeNormal "DeploymentCreated"
          "Created Deployment %q" [a.1.2.2.ObjectMeta.Name])
      | .Updated =>
        a.2.emit (.event (subjectOf sd) EventTypeNormal "DeploymentUpdated"
          "Updated Deployment %q" [a.1.2.2.ObjectMeta.Name])
      | .None => a.2
    reconcileService r selectorString svcName sd a.1.2.2 w1

/-- Source method `reconciler.Reconcile`. A failed descriptor lookup leaves `sd` at its zero
value; the only branch that returns on a lookup error is the not-found one, every other error
falls through to step 2. -/
def Reconcile {σ : Type} (r : reconciler σ) (selectorString : LabelSelector → Except Err String)
    (req : Request) (w : World σ) : (Result × Option Err) × World σ :=
  let w0 := w.emit (.logInfo "Reconciling servicedeployment...")
  let svcName := req.NamespacedName.Name ++ "-svc"
  -- 1) Load the primary CR
  let g := w0.call (.getServiceDeployment req.NamespacedName) (r.Client.Get req.NamespacedName)
  match g.1 with
  | .error err =>
    if IsNotFound err then
      -- Manual failsafe deletion of resources.
      let d1 := g.2.call (.deleteService req.NamespacedName.Namespace svcName)
        (r.kubeClient.DeleteService req.NamespacedName.Namespace svcName)
      match d1.1 with
      | some derr => (({}, some (.text ("couldn't delete service: " ++ derr.Error))), d1.2)
      | none =>
        let d2 := d1.2.call
          (.deleteDeployment req.NamespacedName.Namespace req.NamespacedName.Name)
          (r.kubeClient.DeleteDeployment req.NamespacedName.Namespace req.NamespacedName.Name)
        match d2.1 with
        | some derr => (({}, some (.text ("couldn't delete deployment: " ++ derr.Error))), d2.2)
        | none => (({}, none), d2.2)
    else reconcileDeployment r selectorString svcName {} g.2
  | .ok sd => reconcileDeployment r selectorString svcName sd g.2

/-! ## The object store -/

/-- Modelled from the spec: the object store of §6, an external collaborator that is not among
the sources. It keeps descriptors, workloads and endpoints by namespaced name and hands out a
fresh version token on every write. -/
structure Store where
  serviceDeployments : NamespacedName → Option ServiceDeployment
  deployments : NamespacedName → Option Deployment
  services : NamespacedName → Option Service
  revision : Nat

/-- Bind a key in a keyed collection. -/
def put {α : Type} (m : NamespacedName → Option α) (k : NamespacedName) (v : Option α) :
    NamespacedName → Option α :=
  fun k1 => if k1 = k then v else m k1

/-- The `get` of §6 answered from a keyed collection: the object, or NotFound. -/
def storeGet {α : Type} (m : Store → NamespacedName → Option α) (key : NamespacedName)
    (s : Store) : Except Err α × Store :=
  match m s key with
  | some obj => (.ok obj, s)
  | none => (.error (.status .NotFound "not found"), s)

/-- Key of an object's metadata. -/
def keyOf (meta : ObjectMeta) : NamespacedName :=
  { Namespace := meta.Namespace, Name := meta.Name }

/-- The `create` of §6 for workloads: AlreadyExists when the name is taken, otherwise the object
is stored under a fresh version token. -/
def Store.createDeployment (d : Deployment) (s : Store) : Except Err Deployment × Store :=
  match s.deployments (keyOf d.ObjectMeta) with
  | some _ => (.error (.status .AlreadyExists "already exists"), s)
  | none =>
    let stored := { d with ObjectMeta := { d.ObjectMeta with ResourceVersion := s.revision + 1 } }
    (.ok stored,
      { s with
        deployments := put s.deployments (keyOf d.ObjectMeta) (some stored)
        revision := s.revision + 1 })

/-- The `update` of §6 for workloads: NotFound when absent, Conflict when the version token of
the written object is not the stored one, otherwise the object replaces the stored one under a
fresh version token. -/
def Store.updateDeployment (d : Deployment) (s : Store) : Except Err Deployment × Store :=
  match s.deployments (keyOf d.ObjectMeta) with
  | none => (.error (.status .NotFound "not found"), s)
  | some old =>
    if old.ObjectMeta.ResourceVersion ≠ d.ObjectMeta.ResourceVersion then
      (.error (.status .Conflict "the object has been modified"), s)
    else
      let stored :=
        { d with ObjectMeta := { d.ObjectMeta with ResourceVersion := s.revision + 1 } }
      (.ok stored,
        { s with
          deployments := put s.deployments (keyOf d.ObjectMeta) (some stored)
          revision := s.revision + 1 })

/-- The `delete` of §6 for workloads: NotFound when absent. -/
def Store.deleteDeployment (ns name : String) (s : Store) : Option Err × Store :=
  match s.deployments { Namespace := ns, Name := name } with
  | none => (some (.status .NotFound "not found"), s)
  | some _ =>
    (none,
      { s with deployments := put s.deployments { Namespace := ns, Name := name } none })

/-- The `create` of §6 for endpoints. -/
def Store.createService (d : Service) (s : Store) : Except Err Service × Store :=
  match s.services (keyOf d.ObjectMeta) with
  | some _ => (.error (.status .AlreadyExists "already exists"), s)
  | none =>
    let stored := { d with ObjectMeta := { d.ObjectMeta with ResourceVersion := s.revision + 1 } }
    (.ok stored,
      { s with
        services := put s.services (keyOf d.ObjectMeta) (some stored)
        revision := s.revision + 1 })

/-- The `update` of §6 for endpoints. -/
def Store.updateService (d : Service) (s : Store) : Except Err Service × Store :=
  match s.services (keyOf d.ObjectMeta) with
  | none => (.error (.status .NotFound "not found"), s)
  | some old =>
    if old.ObjectMeta.ResourceVersion ≠ d.ObjectMeta.ResourceVersion then
      (.error (.status .Conflict "the object has been modified"), s)
    else
      let stored :=
        { d with ObjectMeta := { d.ObjectMeta with ResourceVersion := s.revision + 1 } }
      (.ok stored,
        { s with
          services := put s.services (keyOf d.ObjectMeta) (some stored)
          revision := s.revision + 1 })

/-- The `delete` of §6 for endpoints. -/
def Store.deleteService (ns name : String) (s : Store) : Option Err × Store :=
  match s.services { Namespace := ns, Name := name } with
  | none => (some (.status .NotFound "not found"), s)
  | some _ =>
    (none, { s with services := put s.services { Namespace := ns, Name := name } none })

/-- One field of a merge patch: the patched value where the object differs from the base
snapshot, the stored value elsewhere. -/
def mergeField {α : Type} [DecidableEq α] (stored obj orig : α) : α :=
  if obj = orig then stored else obj

/-- The status part of a merge patch of `obj` against the base `orig`, applied to `stored`. -/
def mergeStatus (stored obj orig : ServiceDeploymentStatus) : ServiceDeploymentStatus :=
  { DesiredReplicas := mergeField stored.DesiredReplicas obj.DesiredReplicas orig.DesiredReplicas
    ReadyReplicas := mergeField stored.ReadyReplicas obj.ReadyReplicas orig.ReadyReplicas
    UpdatedReplicas := mergeField stored.UpdatedReplicas obj.UpdatedReplicas orig.UpdatedReplicas
    AvailableReplicas :=
      mergeField stored.AvailableReplicas obj.AvailableReplicas orig.AvailableReplicas
    Ready := mergeField stored.Ready obj.Ready orig.Ready
    ServiceType := mergeField stored.ServiceType obj.ServiceType orig.ServiceType
    ClusterIP := mergeField stored.ClusterIP obj.ClusterIP orig.ClusterIP
    ExternalIPs := mergeField stored.ExternalIPs obj.ExternalIPs orig.ExternalIPs
    Ports := mergeField stored.Ports obj.Ports orig.Ports
    Selector := mergeField stored.Selector obj.Selector orig.Selector }

/-- The `patch` of §6 on the status sub-record of a descriptor: NotFound when absent, otherwise
the status fields in which the object differs from the base snapshot are written over the stored
status, under a fresh version token; nothing but the status is touched. -/
def Store.patchStatus (obj orig : ServiceDeployment) (s : Store) :
    Except Err ServiceDeployment × Store :=
  match s.serviceDeployments (keyOf obj.ObjectMeta) with
  | none => (.error (.status .NotFound "not found"), s)
  | some cur =>
    let stored :=
      { cur with
        ObjectMeta := { cur.ObjectMeta with ResourceVersion := s.revision + 1 }
        Status := mergeStatus cur.Status obj.Status orig.Status }
    (.ok stored,
      { s with
        serviceDeployments := put s.serviceDeployments (keyOf obj.ObjectMeta) (some stored)
        revision := s.revision + 1 })

/-- The store behind the `client.Client` interface. -/
def storeClient : Client Store where
  Get := storeGet Store.serviceDeployments
  GetDeployment := storeGet Store.deployments
  CreateDeployment := Store.createDeployment
  UpdateDeployment := Store.updateDeployment
  GetService := storeGet Store.services
  CreateService := Store.createService
  UpdateService := Store.updateService
  StatusPatch := Store.patchStatus

/-- The store behind the typed clientset. -/
def storeClientset : Clientset Store where
  DeleteDeployment := Store.deleteDeployment
  DeleteService := Store.deleteService

/-- The reconciler that `main` builds, on the store: the manager's client, the scheme with the
`api/v1` types added, and the clientset. -/
def storeReconciler : reconciler Store where
  Client := storeClient
  scheme := addKnownTypes
  kubeClient := storeClientset

/-! ## Concrete inputs -/

/-- A descriptor with three replicas, one container and a port-80 exposure. -/
def witnessDescriptor : ServiceDeployment :=
  { ObjectMeta := { Name := "web", Namespace := "default", UID := "uid-web", ResourceVersion := 1 }
    Spec :=
      { Replicas := 3
        Containers := some [{ Name := "nginx", Image := "nginx" }]
        Service := { Type_ := "ClusterIP", Ports := some [{ Port := 80 }] } } }

/-- The request for the descriptor `default/web`. -/
def witnessRequest : Request :=
  { NamespacedName := { Namespace := "default", Name := "web" } }

/-- A selector rendering for match-labels of one pair, enough for the concrete inputs. -/
def witnessSelectorString (sel : LabelSelector) : Except Err String :=
  match sel.MatchLabels with
  | some [(k, v)] => .ok (k ++ "=" ++ v)
  | _ => .error (.text "unsupported selector")

/-- A store that holds `witnessDescriptor` and no children. -/
def witnessStore : Store :=
  { serviceDeployments := put (fun _ => none) witnessRequest.NamespacedName (some witnessDescriptor)
    deployments := fun _ => none
    services := fun _ => none
    revision := 1 }

/-- A store that holds no descriptor and no children. -/
def emptyStore : Store :=
  { serviceDeployments := fun _ => none
    deployments := fun _ => none
    services := fun _ => none
    revision := 0 }

/-- A store that holds `witnessDescriptor` and a drifted workload with one replica. -/
def driftedStore : Store :=
  { witnessStore with
    deployments :=
      put (fun _ => none) witnessRequest.NamespacedName
        (some
          { ObjectMeta := { Name := "web", Namespace := "default", ResourceVersion := 2 }
            Spec := { Replicas := some 1 } })
    revision := 2 }

/-- Another writer touching the stored workload: its version token moves on. -/
def touchDeployment (key : NamespacedName) (s : Store) : Store :=
  match s.deployments key with
  | none => s
  | some d =>
    { s with
      deployments :=
        put s.deployments key
          (some { d with ObjectMeta := { d.ObjectMeta with ResourceVersion := s.revision + 1 } })
      revision := s.revision + 1 }

/-- The reconciler on a store in which another writer touches the workload between the
reconciler's read and its write. -/
def racingReconciler : reconciler Store :=
  { storeReconciler with
    Client :=
      { storeClient with
        UpdateDeployment := fun d s =>
          Store.updateDeployment d (touchDeployment (keyOf d.ObjectMeta) s) } }

/-- A store that holds no descriptor, no workload, and the endpoint `default/web-svc`. -/
def endpointOnlyStore : Store :=
  { emptyStore with
    services :=
      put (fun _ => none) { Namespace := "default", Name := "web-svc" }
        (some { ObjectMeta := { Name := "web-svc", Namespace := "default", ResourceVersion := 1 } })
    revision := 1 }

/-- The reconciler on a store whose descriptor lookup times out. -/
def timeoutReconciler : reconciler Store :=
  { storeReconciler with
    Client :=
      { storeClient with
        Get := fun _ s => (.error (.status .Timeout "context deadline exceeded"), s) } }

/-! ## Settled children -/

/-- The stored workload of `sd` already has the shape the mutation asks for: mutating it gives
`obj` without an error, and `obj` is semantically equal to what is stored. -/
def DeploymentSettled (sd : ServiceDeployment) (s : Store) (obj : Deployment) : Prop :=
  ∃ x, s.deployments (keyOf sd.ObjectMeta) = some x ∧
    keyOf x.ObjectMeta = keyOf sd.ObjectMeta ∧
    deploymentMutateFn storeReconciler sd x = (obj, none) ∧
    semanticEqDeployment x obj = true

/-- The stored endpoint of `sd` already has the shape the mutation asks for. -/
def ServiceSettled (svcName : String) (sd : ServiceDeployment) (s : Store) (obj : Service) :
    Prop :=
  ∃ x, s.services { Namespace := sd.ObjectMeta.Namespace, Name := svcName } = some x ∧
    keyOf x.ObjectMeta = { Namespace := sd.ObjectMeta.Namespace, Name := svcName } ∧
    serviceMutateFn storeReconciler sd x = (obj, none) ∧
    semanticEqService x obj = true

/-- The store is at the fixed point of the reconcile of `req`: the descriptor is there under its
own name, both children are settled, and the stored status is the projected one. -/
def Converged (selectorString : LabelSelector → Except Err String) (req : Request) (s : Store) :
    Prop :=
  ∃ sd dep svc, s.serviceDeployments req.NamespacedName = some sd ∧
    keyOf sd.ObjectMeta = req.NamespacedName ∧
    DeploymentSettled sd s dep ∧
    ServiceSettled (req.NamespacedName.Name ++ "-svc") sd s svc ∧
    sd.Status = fillFromServiceStatus (fillFromDeploymentStatus selectorString sd.Status sd dep) svc

/-- The Deployment a first reconcile of `sd` creates, as the store holds it under the version
token `rv`. -/
def createdDeployment (sd : ServiceDeployment) (rv : Nat) : Deployment :=
  { ObjectMeta :=
      { Name := sd.ObjectMeta.Name
        Namespace := sd.ObjectMeta.Namespace
        ResourceVersion := rv
        Labels := some [("app", sd.ObjectMeta.Name)]
        OwnerReferences :=
          some [controllerRef sd { GroupVersion := SchemeGroupVersion, Kind := Kind }] }
    Spec :=
      { Replicas := some sd.Spec.Replicas
        Selector := some { MatchLabels := some [("app", sd.ObjectMeta.Name)] }
        Template :=
          { ObjectMeta :=
              { Name := sd.ObjectMeta.Name, Labels := some [("app", sd.ObjectMeta.Name)] }
            Spec := { Containers := sd.Spec.Containers } } } }

/-- The Service a first reconcile of `sd` creates, as the store holds it under the version token
`rv`. -/
def createdService (svcName : String) (sd : ServiceDeployment) (rv : Nat) : Service :=
  { ObjectMeta :=
      { Name := svcName
        Namespace := sd.ObjectMeta.Namespace
        ResourceVersion := rv
        Labels := some [("app", sd.ObjectMeta.Name)]
        OwnerReferences :=
          some [controllerRef sd { GroupVersion := SchemeGroupVersion, Kind := Kind }] }
    Spec :=
      { Selector := some [("app", sd.ObjectMeta.Name)]
        Type_ := sd.Spec.Service.Type_
        Ports := sd.Spec.Service.Ports } }

/-- The store after `n` reconciles of `req` in a row, nothing else writing in between. -/
def reconcileTimes (selectorString : LabelSelector → Except Err String) (req : Request) :
    Nat → Store → Store
  | 0, s => s
  | n + 1, s =>
    reconcileTimes selectorString req n
      (Reconcile storeReconciler selectorString req ⟨s, []⟩).2.st

/-! ## The status projection as the specification words it -/

/-- A port as the status summary shows it: decimal port number, a slash, and the protocol, TCP
standing in for an unset protocol. -/
def portSummary (p : ServicePort) : String :=
  fmtInt p.Port ++ "/" ++ (if p.Protocol = "" then "TCP" else p.Protocol)

/-- The ports summary of the specification: the ports in their order, each as `portSummary`,
with a comma between two neighbours and nothing before the first or after the last. -/
def portsSummary : List ServicePort → String
  | [] => ""
  | [p] => portSummary p
  | p :: q :: rest => portSummary p ++ "," ++ portsSummary (q :: rest)

/-- A descriptor like `witnessDescriptor` whose stored status carries the selector string
`app=old`. -/
def staleDescriptor : ServiceDeployment :=
  { witnessDescriptor with Status := { Selector := "app=old" } }

/-! ## The steps of a reconcile pass, one at a time -/

/-- The store after the descriptor lookup of a reconcile of `req`. -/
def afterLoad {σ : Type} (r : reconciler σ) (req : Request) (s : σ) : σ :=
  (r.Client.Get req.NamespacedName s).2

/-- Step 2 of `Reconcile` on its own: the `CreateOrUpdate` call for the Deployment of `sd`,
started on the store `s` with an empty trace. -/
def applyDeployment {σ : Type} (r : reconciler σ) (sd : ServiceDeployment) (s : σ) :
    (OperationResult × Option Err × Deployment) × World σ :=
  CreateOrUpdate (deploymentOps r)
    { ObjectMeta := { Name := sd.ObjectMeta.Name, Namespace := sd.ObjectMeta.Namespace } }
    (deploymentMutateFn r sd) ⟨s, []⟩

/-- Step 3 of `Reconcile` on its own: the `CreateOrUpdate` call for the Service of `sd`, started
on the store `s` with an empty trace. -/
def applyService {σ : Type} (r : reconciler σ) (svcName : String) (sd : ServiceDeployment)
    (s : σ) : (OperationResult × Option Err × Service) × World σ :=
  CreateOrUpdate (serviceOps r)
    { ObjectMeta := { Name := svcName, Namespace := sd.ObjectMeta.Namespace } }
    (serviceMutateFn r sd) ⟨s, []⟩

/-- The audit records the specification asks for after a successful apply of a child: one Normal
record for the outcomes Created and Updated, silence for Unchanged. -/
def auditRecordsFor (kind : String) (subject : NamespacedName) (outcome : OperationResult)
    (name : String) : List Action :=
  match outcome with
  | .Created =>
    [.event subject "Normal" (kind ++ "Created") ("Created " ++ kind ++ " %q") [name]]
  | .Updated =>
    [.event subject "Normal" (kind ++ "Updated") ("Updated " ++ kind ++ " %q") [name]]
  | .None => []

/-- Whether the step is an audit event. -/
def Action.isEvent : Action → Bool
  | .event _ _ _ _ _ => true
  | _ => false

/-- Whether the step is a read or a write of the Deployment child. -/
def Action.isDeploymentCall : Action → Bool
  | .getDeployment _ | .createDeployment _ | .updateDeployment _ | .deleteDeployment _ _ => true
  | _ => false

/-- Whether the step is a call on a child or a status patch. -/
def Action.isStoreCall : Action → Bool
  | .getDeployment _ | .createDeployment _ | .updateDeployment _ | .deleteDeployment _ _ => true
  | .getService _ | .createService _ | .updateService _ | .deleteService _ _ => true
  | .patchStatus _ _ => true
  | _ => false

/-! ## Concrete clients with faults and races -/

/-- The reconciler on a store whose status patch times out. -/
def patchTimeoutReconciler : reconciler Store :=
  { storeReconciler with
    Client :=
      { storeClient with
        StatusPatch := fun _ _ s =>
          (.error (.status .Timeout "context deadline exceeded"), s) } }

/-- The reconciler on a store whose Deployment lookup times out. -/
def childTimeoutReconciler : reconciler Store :=
  { storeReconciler with
    Client :=
      { storeClient with
        GetDeployment := fun _ s =>
          (.error (.status .Timeout "context deadline exceeded"), s) } }

/-- A store that holds `witnessDescriptor`, no workload, and an endpoint that has drifted to the
type NodePort. -/
def driftedEndpointStore : Store :=
  { witnessStore with
    services :=
      put (fun _ => none) { Namespace := "default", Name := "web-svc" }
        (some
          { ObjectMeta := { Name := "web-svc", Namespace := "default", ResourceVersion := 2 }
            Spec := { Type_ := "NodePort", ClusterIP := "10.0.0.7" } })
    revision := 2 }

/-- Another writer touching the stored endpoint: its version token moves on. -/
def touchService (key : NamespacedName) (s : Store) : Store :=
  match s.services key with
  | none => s
  | some d =>
    { s with
      services :=
        put s.services key
          (some { d with ObjectMeta := { d.ObjectMeta with ResourceVersion := s.revision + 1 } })
      revision := s.revision + 1 }

/-- The reconciler on a store in which another writer touches the endpoint between the
reconciler's read and its write. -/
def racingEndpointReconciler : reconciler Store :=
  { storeReconciler with
    Client :=
      { storeClient with
        UpdateService := fun d s => Store.updateService d (touchService (keyOf d.ObjectMeta) s) } }

/-- The reconciler on a store in which another actor creates the workload between the
reconciler's read and its create. -/
def workloadCreateRaceReconciler : reconciler Store :=
  { storeReconciler with
    Client :=
      { storeClient with
        CreateDeployment := fun d s =>
          Store.createDeployment d
            (Store.createDeployment
              { ObjectMeta :=
                  { Name := d.ObjectMeta.Name, Namespace := d.ObjectMeta.Namespace } } s).2 } }

/-- The reconciler on a store in which another actor creates the endpoint between the
reconciler's read and its create. -/
def endpointCreateRaceReconciler : reconciler Store :=
  { storeReconciler with
    Client :=
      { storeClient with
        CreateService := fun d s =>
          Store.createService d
            (Store.createService
              { ObjectMeta :=
                  { Name := d.ObjectMeta.Name, Namespace := d.ObjectMeta.Namespace } } s).2 } }

/-! ## Concrete descriptors for the deep copy -/

/-- A descriptor whose container list and port list are absent (nil slices). -/
def bareDescriptor : ServiceDeployment :=
  { ObjectMeta := { Name := "web", Namespace := "default", UID := "uid-web", ResourceVersion := 1 }
    Spec := { Replicas := 1, Service := { Type_ := "ClusterIP" } } }

/-! ## `04-hello-controller-runtime/cmd/controller/main.go` -/

namespace HelloControllerRuntime

/-- How a Go call ends: it returns its results, or it panics. -/
inductive Outcome where
  | returned (result : Result) (err : Option Err)
  | panicked (msg : String)
  deriving DecidableEq

/-- The message of the Go runtime panic on the dereference of a nil pointer. -/
def nilDereference : String :=
  "runtime error: invalid memory address or nil pointer dereference"

/-- Go `*kubernetes.Clientset` restricted to the typed Deployment and Service calls of this
reconciler; the first argument is the namespace the typed client is bound to. A get, create or
update answers with a result pointer and an error, as the Go signature does. -/
structure Clientset (σ : Type) where
  GetDeployment : String → String → σ → (Option Deployment × Option Err) × σ
  CreateDeployment : String → Deployment → σ → (Option Deployment × Option Err) × σ
  UpdateDeployment : String → Deployment → σ → (Option Deployment × Option Err) × σ
  DeleteDeployment : String → String → σ → Option Err × σ
  CreateService : String → Service → σ → (Option Service × Option Err) × σ
  DeleteService : String → String → σ → Option Err × σ

/-- Source type `reconciler` of the 04 variant. -/
structure reconciler (σ : Type) where
  Client : Client σ
  scheme : Option GroupVersionKind
  kubeClient : Clientset σ

/-- Source function `newDeploymentFromServiceDeployment`. -/
def newDeploymentFromServiceDeployment (name : String) (containers : GoSlice Container)
    (replicas : Int) : Deployment :=
  { ObjectMeta := { Name := name, Labels := some [("app", name)] }
    Spec :=
      { Replicas := some replicas
        Selector := some { MatchLabels := some [("app", name)] }
        Template :=
          { ObjectMeta := { Name := name, Labels := some [("app", name)] }
            Spec := { Containers := containers } } } }

/-- Source function `newServiceFromServiceDeployment`. -/
def newServiceFromServiceDeployment (name : String) (typ : String)
    (ports : GoSlice ServicePort) : Service :=
  { ObjectMeta := { Name := name ++ "-svc" }
    Spec := { Selector := some [("app", name)], Type_ := typ, Ports := ports } }

/-- Step (3) of `Reconcile`: compare the replica count behind the pointer `dep.Spec.Replicas`
with the descriptor's and update the Deployment when they differ. Dereferencing a nil `dep` or a
nil replica count panics. -/
def reconcileStep3 {σ : Type} (r : reconciler σ) (req : Request) (sd : ServiceDeployment)
    (dep : Option Deployment) (w : World σ) : Outcome × World σ :=
  match dep with
  | none => (.panicked nilDereference, w)
  | some d =>
    match d.Spec.Replicas with
    | none => (.panicked nilDereference, w)
    | some replicas =>
      if replicas ≠ sd.Spec.Replicas then
        let d1 : Deployment := { d with Spec := { d.Spec with Replicas := some sd.Spec.Replicas } }
        let u := w.call (.updateDeployment d1)
          (r.kubeClient.UpdateDeployment req.NamespacedName.Namespace d1)
        match u.1.2 with
        | some uerr =>
          (.returned {} (some (.text ("couldn't update deployment: " ++ uerr.Error))), u.2)
        | none =>
          (.returned {} none,
            u.2.emit
              (.logInfo ("servicedeployment with name " ++ sd.ObjectMeta.Name ++ " updated")))
      else (.returned {} none, w)

/-- Step (ii) of `Reconcile`: create the Service, tolerate AlreadyExists, go on to step (3). -/
def reconcileStep2ii {σ : Type} (r : reconciler σ) (req : Request) (sd : ServiceDeployment)
    (dep : Option Deployment) (w : World σ) : Outcome × World σ :=
  let svc :=
    newServiceFromServiceDeployment req.NamespacedName.Name sd.Spec.Service.Type_
      sd.Spec.Service.Ports
  let c := w.call (.createService svc)
    (r.kubeClient.CreateService req.NamespacedName.Namespace svc)
  match c.1.2 with
  | some cerr =>
    if !IsAlreadyExists cerr then
      (.returned {} (some (.text ("couldn't create service: " ++ cerr.Error))), c.2)
    else reconcileStep3 r req sd dep c.2
  | none => reconcileStep3 r req sd dep c.2

/-- Step (2) of `Reconcile`: look the Deployment up; on a lookup error create it when the error
is not-found, then in either case create the Service; go on to step (3) with the pointer the
lookup returned. -/
def reconcileStep2 {σ : Type} (r : reconciler σ) (req : Request) (sd : ServiceDeployment)
    (w : World σ) : Outcome × World σ :=
  let g := w.call (.getDeployment req.NamespacedName)
    (r.kubeClient.GetDeployment req.NamespacedName.Namespace req.NamespacedName.Name)
  match g.1.2 with
  | some err =>
    if IsNotFound err then
      let dep :=
        newDeploymentFromServiceDeployment req.NamespacedName.Name sd.Spec.Containers
          sd.Spec.Replicas
      let c := g.2.call (.createDeployment dep)
        (r.kubeClient.CreateDeployment req.NamespacedName.Namespace dep)
      match c.1.2 with
      | some cerr =>
        if !IsAlreadyExists cerr then
          (.returned {} (some (.text ("couldn't create deployment: " ++ cerr.Error))), c.2)
        else reconcileStep2ii r req sd g.1.1 c.2
      | none => reconcileStep2ii r req sd g.1.1 c.2
    else reconcileStep2ii r req sd g.1.1 g.2
  | none => reconcileStep3 r req sd g.1.1 g.2

/-- Source method `reconciler.Reconcile` of the 04 variant. -/
def Reconcile {σ : Type} (r : reconciler σ) (req : Request) (w : World σ) :
    Outcome × World σ :=
  let w0 := w.emit (.logInfo "Reconciling servicedeployment...")
  -- 1) Load the primary CR
  let g := w0.call (.getServiceDeployment req.NamespacedName) (r.Client.Get req.NamespacedName)
  match g.1 with
  | .error err =>
    if IsNotFound err then
      let d1 := g.2.call
        (.deleteDeployment req.NamespacedName.Namespace req.NamespacedName.Name)
        (r.kubeClient.DeleteDeployment req.NamespacedName.Namespace req.NamespacedName.Name)
      match d1.1 with
      | some derr =>
        (.returned {} (some (.text ("couldn't delete deployment: " ++ derr.Error))), d1.2)
      | none =>
        let d2 := d1.2.call
          (.deleteService req.NamespacedName.Namespace (req.NamespacedName.Name ++ "-svc"))
          (r.kubeClient.DeleteService req.NamespacedName.Namespace
            (req.NamespacedName.Name ++ "-svc"))
        match d2.1 with
        | some derr =>
          (.returned {} (some (.text ("couldn't delete service: " ++ derr.Error))), d2.2)
        | none => (.returned {} none, d2.2)
    else reconcileStep2 r req {} g.2
  | .ok sd => reconcileStep2 r req sd g.2

/-- The answer of a typed client call: the stored object on success, and on failure a pointer to
an empty object together with the error. -/
def typedAnswer {α : Type} (empty : α) : Except Err α → Option α × Option Err
  | .ok obj => (some obj, none)
  | .error err => (some empty, some err)

/-- Modelled from the spec: the typed clients of the clientset (library code, not among the
sources) on the object store of §6. A call is bound to a namespace; its answer is the stored
object, or a pointer to an empty object together with the error. -/
def storeClientset : Clientset Store where
  GetDeployment := fun ns name s =>
    (typedAnswer {} (storeGet Store.deployments { Namespace := ns, Name := name } s).1, s)
  CreateDeployment := fun ns d s =>
    (typedAnswer {}
        (Store.createDeployment { d with ObjectMeta := { d.ObjectMeta with Namespace := ns } } s).1,
      (Store.createDeployment { d with ObjectMeta := { d.ObjectMeta with Namespace := ns } } s).2)
  UpdateDeployment := fun ns d s =>
    (typedAnswer {}
        (Store.updateDeployment { d with ObjectMeta := { d.ObjectMeta with Namespace := ns } } s).1,
      (Store.updateDeployment { d with ObjectMeta := { d.ObjectMeta with Namespace := ns } } s).2)
  DeleteDeployment := Store.deleteDeployment
  CreateService := fun ns d s =>
    (typedAnswer {}
        (Store.createService { d with ObjectMeta := { d.ObjectMeta with Namespace := ns } } s).1,
      (Store.createService { d with ObjectMeta := { d.ObjectMeta with Namespace := ns } } s).2)
  DeleteService := Store.deleteService

/-- The reconciler that `main` of the 04 variant builds, on the store. -/
def storeReconciler : reconciler Store where
  Client := storeClient
  scheme := addKnownTypes
  kubeClient := storeClientset

end HelloControllerRuntime

/-! ## The change filter -/

theorem reflectDeepEqualMap_self (m : GoMap) : reflectDeepEqualMap m m = true := by
  cases m with
  | none => rfl
  | some a => simp [reflectDeepEqualMap]

theorem reflectDeepEqualSlice_iff {α : Type} [DecidableEq α] (a b : GoSlice α) :
    reflectDeepEqualSlice a b = true ↔ a = b := by
  simp [reflectDeepEqualSlice]

theorem reflectDeepEqualSpec_iff (a b : ServiceDeploymentSpec) :
    reflectDeepEqualSpec a b = true ↔ a = b := by
  obtain ⟨ra, ca, ⟨na, ta, pa⟩⟩ := a
  obtain ⟨rb, cb, ⟨nb, tb, pb⟩⟩ := b
  simp [reflectDeepEqualSpec, reflectDeepEqualSlice, and_assoc]

/-- C1: an update whose old and new snapshots have deep-equal spec, labels, annotations and
finalizers and the same deletion-in-progress state is suppressed, whatever the two statuses and
the rest of the metadata are; in particular the update that only replaces the status by the one
the reconciler projects is suppressed. -/
theorem updateFunc_false_of_status_only :
    (∀ old new : ServiceDeployment,
      reflectDeepEqualSpec old.Spec new.Spec = true →
      reflectDeepEqualMap old.ObjectMeta.Labels new.ObjectMeta.Labels = true →
      reflectDeepEqualMap old.ObjectMeta.Annotations new.ObjectMeta.Annotations = true →
      reflectDeepEqualSlice old.ObjectMeta.Finalizers new.ObjectMeta.Finalizers = true →
      (old.ObjectMeta.DeletionTimestamp = none ↔ new.ObjectMeta.DeletionTimestamp = none) →
      serviceDeploymentPredicate.UpdateFunc
        { ObjectOld := .serviceDeployment old, ObjectNew := .serviceDeployment new } = false) ∧
    (∀ (sd : ServiceDeployment) (selectorString : LabelSelector → Except Err String)
        (dep : Deployment) (svc : Service),
      serviceDeploymentPredicate.UpdateFunc
        { ObjectOld := .serviceDeployment sd
          ObjectNew := .serviceDeployment
            { sd with
              Status :=
                fillFromServiceStatus (fillFromDeploymentStatus selectorString sd.Status sd dep)
                  svc } } = false) := by
  constructor
  · intro old new hspec hlab hann hfin hdel
    simp [serviceDeploymentPredicate, asServiceDeployment, hspec, hlab, hann, hfin, hdel]
  · intro sd sel dep svc
    simp [serviceDeploymentPredicate, asServiceDeployment, reflectDeepEqualMap_self,
      (reflectDeepEqualSpec_iff _ _).2, (reflectDeepEqualSlice_iff _ _).2]

/-- C1 at a concrete pair: same spec and metadata, different status and version token. -/
theorem updateFunc_false_of_status_only_witness :
    serviceDeploymentPredicate.UpdateFunc
      { ObjectOld := .serviceDeployment witnessDescriptor
        ObjectNew := .serviceDeployment
          { witnessDescriptor with
            ObjectMeta := { witnessDescriptor.ObjectMeta with ResourceVersion := 7 }
            Status := { Ready := "2/3", ReadyReplicas := 2 } } } = false :=
  updateFunc_false_of_status_only.1 _ _ (by decide) (by decide) (by decide) (by decide)
    (by decide)

theorem eraseDups_loop_spec (as bs : List String) (hb : bs.Nodup) :
    (List.eraseDups.loop as bs).Nodup ∧
      ∀ x, x ∈ List.eraseDups.loop as bs ↔ x ∈ as ∨ x ∈ bs := by
  induction as generalizing bs with
  | nil =>
    simp only [List.eraseDups.loop, List.nodup_reverse, List.mem_reverse, List.not_mem_nil,
      false_or]
    exact ⟨hb, fun _ => trivial⟩
  | cons a rest ih =>
    by_cases ha : a ∈ bs
    · have he : bs.elem a = true := by simpa using ha
      simp only [List.eraseDups.loop, he]
      refine ⟨(ih bs hb).1, fun x => ?_⟩
      rw [(ih bs hb).2 x, List.mem_cons]
      constructor
      · rintro (h | h)
        · exact Or.inl (Or.inr h)
        · exact Or.inr h
      · rintro ((h | h) | h)
        · exact Or.inr (h ▸ ha)
        · exact Or.inl h
        · exact Or.inr h
    · have he : bs.elem a = false := by simpa using ha
      have hn : (a :: bs).Nodup := List.nodup_cons.2 ⟨ha, hb⟩
      simp only [List.eraseDups.loop, he]
      refine ⟨(ih (a :: bs) hn).1, fun x => ?_⟩
      rw [(ih (a :: bs) hn).2 x, List.mem_cons, List.mem_cons]
      constructor
      · rintro (h | h | h)
        · exact Or.inl (Or.inr h)
        · exact Or.inl (Or.inl h)
        · exact Or.inr h
      · rintro ((h | h) | h)
        · exact Or.inr (Or.inl h)
        · exact Or.inl h
        · exact Or.inr (Or.inr h)

theorem mapKeys_nodup (l : List (String × String)) : (mapKeys l).Nodup :=
  (eraseDups_loop_spec _ [] List.nodup_nil).1

theorem mem_mapKeys (l : List (String × String)) (k : String) :
    k ∈ mapKeys l ↔ (l.lookup k).isSome = true := by
  unfold mapKeys List.eraseDups
  rw [(eraseDups_loop_spec _ [] List.nodup_nil).2 k, List.lookup_isSome_iff]
  simp only [List.mem_map, List.not_mem_nil, or_false, beq_iff_eq]
  constructor
  · rintro ⟨p, hp, rfl⟩
    exact ⟨p, hp, rfl⟩
  · rintro ⟨p, hp, h⟩
    exact ⟨p, hp, h.symm⟩

theorem lookup_eq_of_keys (a b : List (String × String))
    (hlen : (mapKeys a).length = (mapKeys b).length)
    (hall : ∀ k ∈ mapKeys a, a.lookup k = b.lookup k) (k : String) :
    a.lookup k = b.lookup k := by
  by_cases hk : k ∈ mapKeys a
  · exact hall k hk
  · have hsub : (mapKeys a).toFinset ⊆ (mapKeys b).toFinset := by
      intro x hx
      rw [List.mem_toFinset] at hx ⊢
      rw [mem_mapKeys, ← hall x hx, ← mem_mapKeys]
      exact hx
    have hcard : (mapKeys b).toFinset.card ≤ (mapKeys a).toFinset.card := by
      rw [List.toFinset_card_of_nodup (mapKeys_nodup a),
        List.toFinset_card_of_nodup (mapKeys_nodup b), hlen]
    have heq := Finset.eq_of_subset_of_card_le hsub hcard
    have hkb : k ∉ mapKeys b := by
      intro h
      have : k ∈ (mapKeys b).toFinset := List.mem_toFinset.2 h
      rw [← heq] at this
      exact hk (List.mem_toFinset.1 this)
    rw [mem_mapKeys, Bool.not_eq_true, Option.not_isSome, Option.isNone_iff_eq_none] at hk hkb
    rw [hk, hkb]

theorem keys_length_of_lookup_eq (a b : List (String × String))
    (h : ∀ k, a.lookup k = b.lookup k) : (mapKeys a).length = (mapKeys b).length := by
  rw [← List.toFinset_card_of_nodup (mapKeys_nodup a),
    ← List.toFinset_card_of_nodup (mapKeys_nodup b)]
  congr 1
  ext k
  rw [List.mem_toFinset, List.mem_toFinset, mem_mapKeys, mem_mapKeys, h k]

theorem reflectDeepEqualMap_iff (a b : GoMap) :
    reflectDeepEqualMap a b = true ↔
      a.isSome = b.isSome ∧ ∀ k, mapBinding a k = mapBinding b k := by
  cases a with
  | none =>
    cases b with
    | none => simp [reflectDeepEqualMap]
    | some b => simp [reflectDeepEqualMap]
  | some a =>
    cases b with
    | none => simp [reflectDeepEqualMap]
    | some b =>
      simp only [reflectDeepEqualMap, mapBinding, Option.getD_some, Option.isSome_some,
        true_and, Bool.and_eq_true, beq_iff_eq, List.all_eq_true]
      constructor
      · rintro ⟨hlen, hall⟩ k
        exact lookup_eq_of_keys a b hlen hall k
      · intro h
        exact ⟨keys_length_of_lookup_eq a b h, fun k _ => h k⟩

theorem reflectDeepEqualMap_false_of_differ (a b : GoMap) (h : mapsDiffer a b) :
    reflectDeepEqualMap a b = false := by
  cases hr : reflectDeepEqualMap a b with
  | false => rfl
  | true =>
    obtain ⟨hs, hk⟩ := (reflectDeepEqualMap_iff a b).1 hr
    rcases h with h | ⟨k, h⟩
    · exact absurd hs h
    · exact absurd (hk k) h

/-- C2: an update is accepted whenever the specs differ, or the labels differ, or the
annotations differ (two maps differ when one is nil and the other is not, or when some key is
bound in one to a value it is not bound to in the other), or the finalizers differ, or exactly
one of the two snapshots has a deletion timestamp. -/
theorem updateFunc_true_of_change (old new : ServiceDeployment)
    (h : old.Spec ≠ new.Spec ∨
      mapsDiffer old.ObjectMeta.Labels new.ObjectMeta.Labels ∨
      mapsDiffer old.ObjectMeta.Annotations new.ObjectMeta.Annotations ∨
      old.ObjectMeta.Finalizers ≠ new.ObjectMeta.Finalizers ∨
      ¬ (old.ObjectMeta.DeletionTimestamp = none ↔ new.ObjectMeta.DeletionTimestamp = none)) :
    serviceDeploymentPredicate.UpdateFunc
      { ObjectOld := .serviceDeployment old, ObjectNew := .serviceDeployment new } = true := by
  have hs : reflectDeepEqualSpec old.Spec new.Spec = true ↔ old.Spec = new.Spec :=
    reflectDeepEqualSpec_iff _ _
  have hf := reflectDeepEqualSlice_iff old.ObjectMeta.Finalizers new.ObjectMeta.Finalizers
  simp only [serviceDeploymentPredicate, asServiceDeployment]
  by_cases h1 : reflectDeepEqualSpec old.Spec new.Spec = true
  · by_cases h2 : reflectDeepEqualMap old.ObjectMeta.Labels new.ObjectMeta.Labels = true
    · by_cases h3 :
        reflectDeepEqualMap old.ObjectMeta.Annotations new.ObjectMeta.Annotations = true
      · by_cases h4 :
          reflectDeepEqualSlice old.ObjectMeta.Finalizers new.ObjectMeta.Finalizers = true
        · have h5 : ¬ (old.ObjectMeta.DeletionTimestamp = none ↔
              new.ObjectMeta.DeletionTimestamp = none) := by
            rcases h with h | h | h | h | h
            · exact absurd (hs.1 h1) h
            · rw [reflectDeepEqualMap_false_of_differ _ _ h] at h2
              cases h2
            · rw [reflectDeepEqualMap_false_of_differ _ _ h] at h3
              cases h3
            · exact absurd (hf.1 h4) h
            · exact h
          simp [h1, h2, h3, h4]
          cases ho : old.ObjectMeta.DeletionTimestamp <;>
            cases hn : new.ObjectMeta.DeletionTimestamp <;> simp [ho, hn] at h5 ⊢
        · simp [h1, h2, h3, h4]
      · simp [h1, h2, h3]
    · simp [h1, h2]
  · simp [h1]

/-- C2 at concrete pairs, one for each kind of change: the replica count goes from 3 to 5; the
label `tier` goes from `a` to `b`; a label is added to an empty label set; the labels go from
nil to an empty map; an annotation is removed; a finalizer is added; a deletion timestamp is
set. -/
theorem updateFunc_true_of_change_witness :
    serviceDeploymentPredicate.UpdateFunc
        { ObjectOld := .serviceDeployment witnessDescriptor
          ObjectNew := .serviceDeployment
            { witnessDescriptor with Spec := { witnessDescriptor.Spec with Replicas := 5 } } }
        = true ∧
      serviceDeploymentPredicate.UpdateFunc
        { ObjectOld := .serviceDeployment
            { witnessDescriptor with
              ObjectMeta := { witnessDescriptor.ObjectMeta with Labels := some [("tier", "a")] } }
          ObjectNew := .serviceDeployment
            { witnessDescriptor with
              ObjectMeta := { witnessDescriptor.ObjectMeta with Labels := some [("tier", "b")] } } }
        = true ∧
      serviceDeploymentPredicate.UpdateFunc
        { ObjectOld := .serviceDeployment
            { witnessDescriptor with
              ObjectMeta := { witnessDescriptor.ObjectMeta with Labels := some [] } }
          ObjectNew := .serviceDeployment
            { witnessDescriptor with
              ObjectMeta := { witnessDescriptor.ObjectMeta with Labels := some [("tier", "b")] } } }
        = true ∧
      serviceDeploymentPredicate.UpdateFunc
        { ObjectOld := .serviceDeployment witnessDescriptor
          ObjectNew := .serviceDeployment
            { witnessDescriptor with
              ObjectMeta := { witnessDescriptor.ObjectMeta with Labels := some [] } } }
        = true ∧
      serviceDeploymentPredicate.UpdateFunc
        { ObjectOld := .serviceDeployment
            { witnessDescriptor with
              ObjectMeta :=
                { witnessDescriptor.ObjectMeta with
                  Annotations := some [("owner", "team-a"), ("note", "x")] } }
          ObjectNew := .serviceDeployment
            { witnessDescriptor with
              ObjectMeta :=
                { witnessDescriptor.ObjectMeta with Annotations := some [("owner", "team-a")] } } }
        = true ∧
      serviceDeploymentPredicate.UpdateFunc
        { ObjectOld := .serviceDeployment witnessDescriptor
          ObjectNew := .serviceDeployment
            { witnessDescriptor with
              ObjectMeta :=
                { witnessDescriptor.ObjectMeta with Finalizers := some ["example.com/cleanup"] } } }
        = true ∧
      serviceDeploymentPredicate.UpdateFunc
        { ObjectOld := .serviceDeployment witnessDescriptor
          ObjectNew := .serviceDeployment
            { witnessDescriptor with
              ObjectMeta := { witnessDescriptor.ObjectMeta with DeletionTimestamp := some 1700 } } }
        = true :=
  ⟨updateFunc_true_of_change _ _ (Or.inl (by decide)),
    updateFunc_true_of_change _ _ (Or.inr (Or.inl (Or.inr ⟨"tier", by decide⟩))),
    updateFunc_true_of_change _ _ (Or.inr (Or.inl (Or.inr ⟨"tier", by decide⟩))),
    updateFunc_true_of_change _ _ (Or.inr (Or.inl (Or.inl (by decide)))),
    updateFunc_true_of_change _ _ (Or.inr (Or.inr (Or.inl (Or.inr ⟨"note", by decide⟩)))),
    updateFunc_true_of_change _ _ (Or.inr (Or.inr (Or.inr (Or.inl (by decide))))),
    updateFunc_true_of_change _ _ (Or.inr (Or.inr (Or.inr (Or.inr (by decide)))))⟩

/-- C3: every create, delete and generic event is accepted, and so is every update event whose
old or new object is not a ServiceDeployment. -/
theorem predicate_permissive :
    (∀ e : CreateEvent, serviceDeploymentPredicate.CreateFunc e = true) ∧
    (∀ e : DeleteEvent, serviceDeploymentPredicate.DeleteFunc e = true) ∧
    (∀ e : GenericEvent, serviceDeploymentPredicate.GenericFunc e = true) ∧
    (∀ e : UpdateEvent,
      asServiceDeployment e.ObjectOld = none ∨ asServiceDeployment e.ObjectNew = none →
      serviceDeploymentPredicate.UpdateFunc e = true) := by
  refine ⟨fun _ => rfl, fun _ => rfl, fun _ => rfl, ?_⟩
  intro e h
  obtain ⟨o, n⟩ := e
  cases o <;> cases n <;> simp_all [serviceDeploymentPredicate, asServiceDeployment]

/-- C3 at a concrete update: the new object is a Deployment. -/
theorem predicate_permissive_witness :
    serviceDeploymentPredicate.UpdateFunc
      { ObjectOld := .serviceDeployment witnessDescriptor, ObjectNew := .deployment {} } = true :=
  predicate_permissive.2.2.2 _ (Or.inr rfl)


/-! ## The reconcile pass on any client -/

theorem CreateOrUpdate_frame {σ α : Type} (ops : ObjectOps σ α) (obj : α)
    (f : α → α × Option Err) (s : σ) (t : List Action) :
    CreateOrUpdate ops obj f ⟨s, t⟩ =
      ((CreateOrUpdate ops obj f ⟨s, []⟩).1,
        ⟨(CreateOrUpdate ops obj f ⟨s, []⟩).2.st,
          t ++ (CreateOrUpdate ops obj f ⟨s, []⟩).2.trace⟩) := by
  unfold CreateOrUpdate
  simp only [World.call]
  split
  · split
    · simp
    · split
      · simp
      · split <;> simp
  · split
    · simp
    · split
      · simp
      · split <;> simp

theorem CreateOrUpdate_trace {σ α : Type} (ops : ObjectOps σ α) (obj : α)
    (f : α → α × Option Err) (s : σ) :
    ∀ a ∈ (CreateOrUpdate ops obj f ⟨s, []⟩).2.trace,
      (∃ k, a = ops.getAction k) ∨ (∃ o, a = ops.createAction o) ∨
        (∃ o, a = ops.updateAction o) := by
  unfold CreateOrUpdate
  simp only [World.call]
  split
  · split
    · simp
    · split
      · simp
      · split <;> simp
  · split
    · simp
    · split
      · simp
      · split <;> simp

/-- C4: when the descriptor is present and applying the Deployment fails with a Conflict, the
reconcile returns requeue = true with a nil error, records no Warning event, and makes no call on
the Service and no status patch. -/
theorem reconcile_requeues_on_deployment_conflict {σ : Type} (r : reconciler σ)
    (selectorString : LabelSelector → Except Err String) (req : Request) (s : σ)
    (sd : ServiceDeployment) (err : Err)
    (hget : (r.Client.Get req.NamespacedName s).1 = .ok sd)
    (happly :
      (CreateOrUpdate (deploymentOps r)
        { ObjectMeta := { Name := sd.ObjectMeta.Name, Namespace := sd.ObjectMeta.Namespace } }
        (deploymentMutateFn r sd) ⟨(r.Client.Get req.NamespacedName s).2, []⟩).1.2.1 = some err)
    (hconf : IsConflict err = true) :
    (Reconcile r selectorString req ⟨s, []⟩).1 = ({ Requeue := true }, none) ∧
      ∀ a ∈ (Reconcile r selectorString req ⟨s, []⟩).2.trace,
        a.isEventOfType EventTypeWarning = false ∧ a.isServiceCall = false ∧
          a.isStatusPatch = false := by
  have hfr := CreateOrUpdate_frame (deploymentOps r)
    { ObjectMeta := { Name := sd.ObjectMeta.Name, Namespace := sd.ObjectMeta.Namespace } }
    (deploymentMutateFn r sd) (r.Client.Get req.NamespacedName s).2
    [Action.logInfo "Reconciling servicedeployment...",
      Action.getServiceDeployment req.NamespacedName]
  have htr := CreateOrUpdate_trace (deploymentOps r)
    { ObjectMeta := { Name := sd.ObjectMeta.Name, Namespace := sd.ObjectMeta.Namespace } }
    (deploymentMutateFn r sd) (r.Client.Get req.NamespacedName s).2
  simp only [Reconcile, World.call, World.emit, hget, List.nil_append, List.singleton_append,
    reconcileDeployment]
  rw [hfr]
  simp only [happly, hconf, if_true, true_and]
  intro a ha
  simp only [List.mem_append, List.mem_cons, List.mem_singleton, List.not_mem_nil, or_false,
    List.cons_append, List.nil_append] at ha
  rcases ha with ha | ha | ha | ha
  · subst ha; simp [Action.isEventOfType, Action.isServiceCall, Action.isStatusPatch]
  · subst ha; simp [Action.isEventOfType, Action.isServiceCall, Action.isStatusPatch]
  · rcases htr a ha with ⟨k, hk⟩ | ⟨o, ho⟩ | ⟨o, ho⟩ <;> subst a <;>
      simp [deploymentOps, Action.isEventOfType, Action.isServiceCall, Action.isStatusPatch]
  · subst ha; simp [Action.isEventOfType, Action.isServiceCall, Action.isStatusPatch]

set_option maxRecDepth 100000 in
/-- C4 at a concrete race: the stored workload has drifted to one replica and another writer
touches it between the reconciler's read and its update. -/
theorem reconcile_requeues_on_deployment_conflict_witness :
    (Reconcile racingReconciler witnessSelectorString witnessRequest ⟨driftedStore, []⟩).1 =
        ({ Requeue := true }, none) ∧
      ∀ a ∈ (Reconcile racingReconciler witnessSelectorString witnessRequest
          ⟨driftedStore, []⟩).2.trace,
        a.isEventOfType EventTypeWarning = false ∧ a.isServiceCall = false ∧
          a.isStatusPatch = false :=
  reconcile_requeues_on_deployment_conflict racingReconciler witnessSelectorString witnessRequest
    driftedStore witnessDescriptor (.status .Conflict "the object has been modified")
    rfl (by decide) (by decide)

set_option maxRecDepth 100000 in
/-- C5, the code at the failing input: reconciling a descriptor that is not found while both
children are already absent returns the error of the Service delete, and with only the workload
absent it deletes the Service and returns the error of the Deployment delete. -/
theorem reconcile_absent_children_gone_is_error :
    (Reconcile storeReconciler witnessSelectorString witnessRequest ⟨emptyStore, []⟩).1 =
        ({}, some (.text "couldn't delete service: not found")) ∧
      (Reconcile storeReconciler witnessSelectorString witnessRequest ⟨endpointOnlyStore, []⟩).1 =
        ({}, some (.text "couldn't delete deployment: not found")) := by
  constructor <;> decide

set_option maxRecDepth 100000 in
/-- C6, the code at the failing input: when the descriptor lookup times out, the reconcile falls
through with a zero-valued descriptor, creates a Deployment and a Service from it, and returns a
nil error. -/
theorem reconcile_lookup_timeout_falls_through :
    (Reconcile timeoutReconciler witnessSelectorString witnessRequest ⟨witnessStore, []⟩).1 =
        ({}, none) ∧
      (∃ a ∈ (Reconcile timeoutReconciler witnessSelectorString witnessRequest
          ⟨witnessStore, []⟩).2.trace, a.isChildWrite = true) ∧
      ((Reconcile timeoutReconciler witnessSelectorString witnessRequest
          ⟨witnessStore, []⟩).2.st.deployments { Namespace := "", Name := "" }).isSome = true ∧
      ((Reconcile timeoutReconciler witnessSelectorString witnessRequest
          ⟨witnessStore, []⟩).2.st.services { Namespace := "", Name := "web-svc" }).isSome
        = true := by
  refine ⟨by decide, by decide, by decide, by decide⟩

/-! ## The mutation functions and the status projection -/

/-- C9: the Service mutation function leaves the cluster address as it was read; of the whole
object it changes only the labels, the selector, the type, the ports and the owner
references. -/
theorem serviceMutateFn_preserves_clusterIP {σ : Type} (r : reconciler σ)
    (sd : ServiceDeployment) (svc : Service) :
    (serviceMutateFn r sd svc).1.Spec.ClusterIP = svc.Spec.ClusterIP ∧
      (serviceMutateFn r sd svc).1 =
        { svc with
          ObjectMeta :=
            { svc.ObjectMeta with
              Labels := some [("app", sd.ObjectMeta.Name)]
              OwnerReferences := (serviceMutateFn r sd svc).1.ObjectMeta.OwnerReferences }
          Spec :=
            { svc.Spec with
              Selector := some [("app", sd.ObjectMeta.Name)]
              Type_ := sd.Spec.Service.Type_
              Ports := sd.Spec.Service.Ports } } := by
  unfold serviceMutateFn SetControllerReference
  constructor
  · rfl
  · simp only
    split
    · rfl
    · split
      · rfl
      · split
        · split <;> rfl
        · rfl

/-- C10: `fillFromDeploymentStatus` sets the desired count from the descriptor, the ready,
updated and available counts from the workload, and `Ready` to the decimal ready count, a slash
and the decimal desired count; ready 2, updated 3, available 2, desired 3 give "2/3". -/
theorem fillFromDeploymentStatus_counts :
    (∀ (selectorString : LabelSelector → Except Err String) (dst : ServiceDeploymentStatus)
        (sd : ServiceDeployment) (dep : Deployment),
      (fillFromDeploymentStatus selectorString dst sd dep).DesiredReplicas = sd.Spec.Replicas ∧
      (fillFromDeploymentStatus selectorString dst sd dep).ReadyReplicas =
        dep.Status.ReadyReplicas ∧
      (fillFromDeploymentStatus selectorString dst sd dep).UpdatedReplicas =
        dep.Status.UpdatedReplicas ∧
      (fillFromDeploymentStatus selectorString dst sd dep).AvailableReplicas =
        dep.Status.AvailableReplicas ∧
      (fillFromDeploymentStatus selectorString dst sd dep).Ready =
        fmtInt dep.Status.ReadyReplicas ++ "/" ++ fmtInt sd.Spec.Replicas) ∧
    (∀ n : Nat, fmtInt (Int.ofNat n) = Nat.repr n) ∧
    (fillFromDeploymentStatus witnessSelectorString {} witnessDescriptor
        { Status := { ReadyReplicas := 2, UpdatedReplicas := 3, AvailableReplicas := 2 } }).Ready
      = "2/3" := by
  refine ⟨?_, fun n => rfl, by decide⟩
  intro sel dst sd dep
  unfold fillFromDeploymentStatus
  simp only
  split
  · split <;> exact ⟨rfl, rfl, rfl, rfl, rfl⟩
  · exact ⟨rfl, rfl, rfl, rfl, rfl⟩

/-! ## Idempotence of the mutation functions -/

theorem mapSet_mapSet (k v : String) (l : List (String × String)) :
    mapSet k v (mapSet k v l) = mapSet k v l := by
  induction l with
  | nil => simp [mapSet]
  | cons x rest ih =>
    obtain ⟨k1, v1⟩ := x
    by_cases h : k1 = k
    · simp [mapSet, h]
    · simp [mapSet, h, ih]

theorem referSameObject_self (a : OwnerReference) : referSameObject a a = true := by
  simp [referSameObject]

theorem upsertOwnerRef_upsertOwnerRef (ref : OwnerReference) (l : List OwnerReference) :
    upsertOwnerRef ref (upsertOwnerRef ref l) = upsertOwnerRef ref l := by
  induction l with
  | nil => simp [upsertOwnerRef, referSameObject_self]
  | cons x rest ih =>
    by_cases h : referSameObject x ref = true
    · simp [upsertOwnerRef, h, referSameObject_self]
    · simp [upsertOwnerRef, h, ih]

theorem find_controller_upsertOwnerRef (ref : OwnerReference) (hc : ref.Controller = some true)
    (l : List OwnerReference)
    (h : ∀ c, l.find? (fun x => x.Controller == some true) = some c →
      referSameObject c ref = true) :
    ∃ c, (upsertOwnerRef ref l).find? (fun x => x.Controller == some true) = some c ∧
      referSameObject c ref = true := by
  induction l with
  | nil => exact ⟨ref, by simp [upsertOwnerRef, hc], referSameObject_self ref⟩
  | cons x rest ih =>
    by_cases hx : referSameObject x ref = true
    · exact ⟨ref, by simp [upsertOwnerRef, hx, hc], referSameObject_self ref⟩
    · by_cases hxc : x.Controller = some true
      · exact absurd (h x (by simp [hxc])) hx
      · have ih1 := ih (fun c hcf => h c (by simp [List.find?_cons, hxc, hcf]))
        obtain ⟨c, hcf, hcs⟩ := ih1
        exact ⟨c, by simp [upsertOwnerRef, hx, List.find?_cons, hxc, hcf], hcs⟩

theorem SetControllerReference_upsert (sd : ServiceDeployment) (meta : ObjectMeta)
    (gvk : GroupVersionKind) (l : List OwnerReference) (rv : Nat)
    (hv : validateOwner sd.ObjectMeta.Namespace meta.Namespace = none)
    (hl : ∀ c, l.find? (fun x => x.Controller == some true) = some c →
      referSameObject c (controllerRef sd gvk) = true) :
    SetControllerReference sd
        { meta with
          ResourceVersion := rv
          OwnerReferences := some (upsertOwnerRef (controllerRef sd gvk) l) } (some gvk) =
      ({ meta with
          ResourceVersion := rv
          OwnerReferences := some (upsertOwnerRef (controllerRef sd gvk) l) }, none) := by
  obtain ⟨c, hcf, hcs⟩ := find_controller_upsertOwnerRef (controllerRef sd gvk) rfl l hl
  simp [SetControllerReference, hv, GetControllerOf, hcf, hcs, upsertOwnerRef_upsertOwnerRef]

theorem SetControllerReference_idem (sd : ServiceDeployment) (meta meta1 : ObjectMeta)
    (scheme : Option GroupVersionKind)
    (h : SetControllerReference sd meta scheme = (meta1, none)) (rv : Nat) :
    SetControllerReference sd { meta1 with ResourceVersion := rv } scheme =
      ({ meta1 with ResourceVersion := rv }, none) := by
  unfold SetControllerReference at h
  cases hv : validateOwner sd.ObjectMeta.Namespace meta.Namespace with
  | some e => simp [hv] at h
  | none =>
    cases scheme with
    | none => simp [hv] at h
    | some gvk =>
      simp only [hv] at h
      cases hg : GetControllerOf meta with
      | none =>
        simp only [hg] at h
        have hm := (Prod.mk.inj h).1
        subst hm
        refine SetControllerReference_upsert sd meta gvk _ rv hv ?_
        intro c hcf
        simp only [GetControllerOf, List.find?_eq_none] at hg
        exact absurd (List.find?_some hcf) (hg c (List.mem_of_find?_eq_some hcf))
      | some existing =>
        simp only [hg] at h
        by_cases hs : referSameObject existing (controllerRef sd gvk) = true
        · simp only [hs, Bool.not_true, Bool.false_eq_true, if_false] at h
          have hm := (Prod.mk.inj h).1
          subst hm
          refine SetControllerReference_upsert sd meta gvk _ rv hv ?_
          intro c hcf
          simp only [GetControllerOf] at hg
          rw [hg] at hcf
          cases hcf
          exact hs
        · simp [hs] at h

theorem SetControllerReference_frame (sd : ServiceDeployment) (meta : ObjectMeta)
    (scheme : Option GroupVersionKind) :
    (SetControllerReference sd meta scheme).1 =
      { meta with OwnerReferences := (SetControllerReference sd meta scheme).1.OwnerReferences }
      := by
  unfold SetControllerReference
  split
  · rfl
  · split
    · rfl
    · split
      · split <;> rfl
      · rfl

theorem SetControllerReference_congr (sd sd1 : ServiceDeployment)
    (hname : sd1.ObjectMeta.Name = sd.ObjectMeta.Name)
    (hns : sd1.ObjectMeta.Namespace = sd.ObjectMeta.Namespace)
    (huid : sd1.ObjectMeta.UID = sd.ObjectMeta.UID) (meta : ObjectMeta)
    (scheme : Option GroupVersionKind) :
    SetControllerReference sd1 meta scheme = SetControllerReference sd meta scheme := by
  simp [SetControllerReference, controllerRef, hname, hns, huid]

theorem deploymentMutateFn_meta {σ : Type} (r : reconciler σ) (sd : ServiceDeployment)
    (d : Deployment) :
    (deploymentMutateFn r sd d).1.ObjectMeta.Name = d.ObjectMeta.Name ∧
      (deploymentMutateFn r sd d).1.ObjectMeta.Namespace = d.ObjectMeta.Namespace ∧
      (deploymentMutateFn r sd d).1.ObjectMeta.ResourceVersion = d.ObjectMeta.ResourceVersion := by
  unfold deploymentMutateFn
  simp only
  refine ⟨?_, ?_, ?_⟩ <;> rw [SetControllerReference_frame]

theorem deploymentMutateFn_congr {σ : Type} (r : reconciler σ) (sd sd1 : ServiceDeployment)
    (hname : sd1.ObjectMeta.Name = sd.ObjectMeta.Name)
    (hns : sd1.ObjectMeta.Namespace = sd.ObjectMeta.Namespace)
    (huid : sd1.ObjectMeta.UID = sd.ObjectMeta.UID) (hspec : sd1.Spec = sd.Spec) :
    deploymentMutateFn r sd1 = deploymentMutateFn r sd := by
  funext d
  simp only [deploymentMutateFn, hname, hspec,
    SetControllerReference_congr sd sd1 hname hns huid]

theorem SetControllerReference_frame_ex (sd : ServiceDeployment) (meta : ObjectMeta)
    (scheme : Option GroupVersionKind) :
    ∃ ow, (SetControllerReference sd meta scheme).1 = { meta with OwnerReferences := ow } :=
  ⟨_, SetControllerReference_frame sd meta scheme⟩

theorem deploymentMutateFn_idem {σ : Type} (r : reconciler σ) (sd : ServiceDeployment)
    (d m : Deployment) (h : deploymentMutateFn r sd d = (m, none)) (rv : Nat) :
    deploymentMutateFn r sd { m with ObjectMeta := { m.ObjectMeta with ResourceVersion := rv } } =
      ({ m with ObjectMeta := { m.ObjectMeta with ResourceVersion := rv } }, none) := by
  obtain ⟨⟨name, ns, uid, rv0, labels, ann, fin, del, owners⟩, ⟨reps, sel, ⟨tmeta, pspec⟩⟩, st⟩ := d
  unfold deploymentMutateFn at h
  dsimp only at h
  obtain ⟨hm, he⟩ := Prod.mk.inj h
  obtain ⟨ow, how⟩ := SetControllerReference_frame_ex sd
    { Name := name, Namespace := ns, UID := uid, ResourceVersion := rv0,
      Labels := some (mapSet "app" sd.ObjectMeta.Name (labels.getD [])),
      Annotations := ann, Finalizers := fin, DeletionTimestamp := del,
      OwnerReferences := owners } r.scheme
  have hidem := SetControllerReference_idem sd _ _ r.scheme (Prod.ext how he) rv
  subst hm
  dsimp only at hidem
  unfold deploymentMutateFn
  dsimp only
  rw [how]
  dsimp only
  simp only [Option.getD_some, mapSet_mapSet]
  rw [hidem]
  by_cases hn : tmeta.Name = ""
  · by_cases hs : sd.ObjectMeta.Name = "" <;> simp [hn, hs]
  · simp [hn]

theorem serviceMutateFn_meta {σ : Type} (r : reconciler σ) (sd : ServiceDeployment)
    (d : Service) :
    (serviceMutateFn r sd d).1.ObjectMeta.Name = d.ObjectMeta.Name ∧
      (serviceMutateFn r sd d).1.ObjectMeta.Namespace = d.ObjectMeta.Namespace ∧
      (serviceMutateFn r sd d).1.ObjectMeta.ResourceVersion = d.ObjectMeta.ResourceVersion := by
  unfold serviceMutateFn
  simp only
  refine ⟨?_, ?_, ?_⟩ <;> rw [SetControllerReference_frame]

theorem serviceMutateFn_congr {σ : Type} (r : reconciler σ) (sd sd1 : ServiceDeployment)
    (hname : sd1.ObjectMeta.Name = sd.ObjectMeta.Name)
    (hns : sd1.ObjectMeta.Namespace = sd.ObjectMeta.Namespace)
    (huid : sd1.ObjectMeta.UID = sd.ObjectMeta.UID) (hspec : sd1.Spec = sd.Spec) :
    serviceMutateFn r sd1 = serviceMutateFn r sd := by
  funext d
  simp only [serviceMutateFn, hname, hspec,
    SetControllerReference_congr sd sd1 hname hns huid]

theorem serviceMutateFn_idem {σ : Type} (r : reconciler σ) (sd : ServiceDeployment)
    (d m : Service) (h : serviceMutateFn r sd d = (m, none)) (rv : Nat) :
    serviceMutateFn r sd { m with ObjectMeta := { m.ObjectMeta with ResourceVersion := rv } } =
      ({ m with ObjectMeta := { m.ObjectMeta with ResourceVersion := rv } }, none) := by
  obtain ⟨⟨name, ns, uid, rv0, labels, ann, fin, del, owners⟩, ⟨ports, sel, ip, ty, ext⟩⟩ := d
  unfold serviceMutateFn at h
  dsimp only at h
  obtain ⟨hm, he⟩ := Prod.mk.inj h
  obtain ⟨ow, how⟩ := SetControllerReference_frame_ex sd
    { Name := name, Namespace := ns, UID := uid, ResourceVersion := rv0,
      Labels := some [("app", sd.ObjectMeta.Name)],
      Annotations := ann, Finalizers := fin, DeletionTimestamp := del,
      OwnerReferences := owners } r.scheme
  have hidem := SetControllerReference_idem sd _ _ r.scheme (Prod.ext how he) rv
  subst hm
  dsimp only at hidem
  unfold serviceMutateFn
  dsimp only
  rw [how]
  dsimp only
  rw [hidem]

/-! ## Semantic equality is reflexive -/

theorem semanticEqList_self {α : Type} (eq : α → α → Bool) (h : ∀ x, eq x x = true)
    (l : List α) : semanticEqList eq l l = true := by
  induction l with
  | nil => rfl
  | cons x rest ih => simp [semanticEqList, h, ih]

theorem semanticEqSlice_self {α : Type} (eq : α → α → Bool) (h : ∀ x, eq x x = true)
    (a : GoSlice α) : semanticEqSlice eq a a = true :=
  semanticEqList_self eq h _

theorem semanticEqMap_self (a : GoMap) : semanticEqMap a a = true :=
  reflectDeepEqualMap_self _

theorem semanticEqContainer_self (a : Container) : semanticEqContainer a a = true := by
  simp [semanticEqContainer, semanticEqSlice_self]

theorem semanticEqObjectMeta_self (a : ObjectMeta) : semanticEqObjectMeta a a = true := by
  simp [semanticEqObjectMeta, semanticEqSlice_self, semanticEqMap_self]

theorem semanticEqSelector_self (a : Option LabelSelector) : semanticEqSelector a a = true := by
  cases a <;> simp [semanticEqSelector, semanticEqMap_self]

theorem semanticEqDeployment_self (a : Deployment) : semanticEqDeployment a a = true := by
  simp [semanticEqDeployment, semanticEqObjectMeta_self, semanticEqSelector_self,
    semanticEqSlice_self, semanticEqContainer_self]

theorem semanticEqService_self (a : Service) : semanticEqService a a = true := by
  simp [semanticEqService, semanticEqObjectMeta_self, semanticEqSlice_self, semanticEqMap_self]

/-! ## The child applier on the store -/

theorem mutate_deployment {σ : Type} (r : reconciler σ) (sd : ServiceDeployment)
    (key : NamespacedName) (d : Deployment) (hk : keyOf d.ObjectMeta = key) :
    mutate (deploymentOps r) (deploymentMutateFn r sd) key d = deploymentMutateFn r sd d := by
  have hm := deploymentMutateFn_meta r sd d
  unfold mutate
  cases he : (deploymentMutateFn r sd d).2 with
  | some e => exact Prod.ext rfl he.symm
  | none =>
    have : (deploymentOps r).key (deploymentMutateFn r sd d).1 = key := by
      simp only [deploymentOps, hm.1, hm.2.1]
      exact hk
    simp only [this, ne_eq, not_true_eq_false, if_false]
    exact Prod.ext rfl he.symm

theorem put_same {α : Type} (m : NamespacedName → Option α) (k : NamespacedName)
    (v : Option α) : put m k v k = v := by
  simp [put]

theorem applyDeployment_settles (sd : ServiceDeployment) (w : World Store)
    (h : (CreateOrUpdate (deploymentOps storeReconciler)
        { ObjectMeta := { Name := sd.ObjectMeta.Name, Namespace := sd.ObjectMeta.Namespace } }
        (deploymentMutateFn storeReconciler sd) w).1.2.1 = none) :
    DeploymentSettled sd
        (CreateOrUpdate (deploymentOps storeReconciler)
          { ObjectMeta := { Name := sd.ObjectMeta.Name, Namespace := sd.ObjectMeta.Namespace } }
          (deploymentMutateFn storeReconciler sd) w).2.st
        (CreateOrUpdate (deploymentOps storeReconciler)
          { ObjectMeta := { Name := sd.ObjectMeta.Name, Namespace := sd.ObjectMeta.Namespace } }
          (deploymentMutateFn storeReconciler sd) w).1.2.2 ∧
      (CreateOrUpdate (deploymentOps storeReconciler)
          { ObjectMeta := { Name := sd.ObjectMeta.Name, Namespace := sd.ObjectMeta.Namespace } }
          (deploymentMutateFn storeReconciler sd) w).2.st.services = w.st.services ∧
      (CreateOrUpdate (deploymentOps storeReconciler)
          { ObjectMeta := { Name := sd.ObjectMeta.Name, Namespace := sd.ObjectMeta.Namespace } }
          (deploymentMutateFn storeReconciler sd) w).2.st.serviceDeployments =
        w.st.serviceDeployments := by
  have hkey : (deploymentOps storeReconciler).key
      { ObjectMeta := { Name := sd.ObjectMeta.Name, Namespace := sd.ObjectMeta.Namespace } } =
      keyOf sd.ObjectMeta := rfl
  have hget : (deploymentOps storeReconciler).get = storeGet Store.deployments := rfl
  have hcreate : (deploymentOps storeReconciler).create = Store.createDeployment := rfl
  have hupdate : (deploymentOps storeReconciler).update = Store.updateDeployment := rfl
  have hsem : (deploymentOps storeReconciler).semanticDeepEqual = semanticEqDeployment := rfl
  unfold CreateOrUpdate at h ⊢
  simp only [World.call, hkey, hget, hcreate, hupdate, hsem] at h ⊢
  cases hs : w.st.deployments (keyOf sd.ObjectMeta) with
  | none =>
    have hb := mutate_deployment storeReconciler sd (keyOf sd.ObjectMeta)
      { ObjectMeta := { Name := sd.ObjectMeta.Name, Namespace := sd.ObjectMeta.Namespace } } rfl
    simp only [storeGet, hs, IsNotFound, ReasonForError, hb] at h ⊢
    cases hm : deploymentMutateFn storeReconciler sd
      { ObjectMeta := { Name := sd.ObjectMeta.Name, Namespace := sd.ObjectMeta.Namespace } } with
    | mk m e =>
      have hmeta := deploymentMutateFn_meta storeReconciler sd
        { ObjectMeta := { Name := sd.ObjectMeta.Name, Namespace := sd.ObjectMeta.Namespace } }
      rw [hm] at hmeta
      simp only at hmeta
      have hmk : keyOf m.ObjectMeta = keyOf sd.ObjectMeta := by
        simp only [keyOf, hmeta.1, hmeta.2.1]
      cases e with
      | some e => simp [hm] at h
      | none =>
        simp only [hm, Store.createDeployment, hmk, hs, beq_self_eq_true, Bool.not_true,
          Bool.false_eq_true, if_false, and_self, and_true]
        refine ⟨_, put_same _ _ _, by simp only [keyOf, hmeta.1, hmeta.2.1], ?_,
          semanticEqDeployment_self _⟩
        exact deploymentMutateFn_idem storeReconciler sd _ m hm _
  | some existing =>
    simp only [storeGet, hs] at h ⊢
    by_cases hk : keyOf existing.ObjectMeta = keyOf sd.ObjectMeta
    · have hb := mutate_deployment storeReconciler sd (keyOf sd.ObjectMeta) existing hk
      simp only [hb] at h ⊢
      cases hm : deploymentMutateFn storeReconciler sd existing with
      | mk m e =>
        have hmeta := deploymentMutateFn_meta storeReconciler sd existing
        rw [hm] at hmeta
        simp only at hmeta
        have hmk : keyOf m.ObjectMeta = keyOf sd.ObjectMeta := by
          rw [← hk]
          simp only [keyOf, hmeta.1, hmeta.2.1]
        cases e with
        | some e => simp [hm] at h
        | none =>
          by_cases hse : semanticEqDeployment existing m = true
          · simp only [hm, hse, if_true, and_self, and_true]
            exact ⟨existing, hs, hk, hm, hse⟩
          · simp only [hm, hse, Bool.false_eq_true, if_false, Store.updateDeployment, hmk, hs,
              hmeta.2.2, ne_eq, not_true_eq_false, and_self, and_true]
            refine ⟨_, put_same _ _ _, by simp only [keyOf, hmeta.1, hmeta.2.1]; exact hk, ?_,
              semanticEqDeployment_self _⟩
            exact deploymentMutateFn_idem storeReconciler sd _ m hm _
    · exfalso
      have hmeta := deploymentMutateFn_meta storeReconciler sd existing
      have hne : (mutate (deploymentOps storeReconciler) (deploymentMutateFn storeReconciler sd)
          (keyOf sd.ObjectMeta) existing).2 ≠ none := by
        unfold mutate
        cases he : (deploymentMutateFn storeReconciler sd existing).2 with
        | some e => simp
        | none =>
          have : (deploymentOps storeReconciler).key
              (deploymentMutateFn storeReconciler sd existing).1 ≠ keyOf sd.ObjectMeta := by
            simp only [deploymentOps, hmeta.1, hmeta.2.1]
            exact hk
          simp [this]
      cases hmu : (mutate (deploymentOps storeReconciler) (deploymentMutateFn storeReconciler sd)
          (keyOf sd.ObjectMeta) existing).2 with
      | none => exact hne hmu
      | some e => simp [hmu] at h

theorem applyDeployment_noop (sd : ServiceDeployment) (s : Store) (t : List Action)
    (obj : Deployment) (h : DeploymentSettled sd s obj) :
    CreateOrUpdate (deploymentOps storeReconciler)
        { ObjectMeta := { Name := sd.ObjectMeta.Name, Namespace := sd.ObjectMeta.Namespace } }
        (deploymentMutateFn storeReconciler sd) ⟨s, t⟩ =
      ((.None, none, obj), ⟨s, t ++ [.getDeployment (keyOf sd.ObjectMeta)]⟩) := by
  obtain ⟨x, hx, hk, hm, hse⟩ := h
  have hkey : (deploymentOps storeReconciler).key
      { ObjectMeta := { Name := sd.ObjectMeta.Name, Namespace := sd.ObjectMeta.Namespace } } =
      keyOf sd.ObjectMeta := rfl
  have hget : (deploymentOps storeReconciler).get = storeGet Store.deployments := rfl
  have hsem : (deploymentOps storeReconciler).semanticDeepEqual = semanticEqDeployment := rfl
  have hga : (deploymentOps storeReconciler).getAction = Action.getDeployment := rfl
  have hb := mutate_deployment storeReconciler sd (keyOf sd.ObjectMeta) x hk
  unfold CreateOrUpdate
  simp only [World.call, hkey, hget, hsem, hga, storeGet, hx, hb, hm, hse, if_true]

theorem DeploymentSettled_congr (sd sd1 : ServiceDeployment) (s s1 : Store) (obj : Deployment)
    (hname : sd1.ObjectMeta.Name = sd.ObjectMeta.Name)
    (hns : sd1.ObjectMeta.Namespace = sd.ObjectMeta.Namespace)
    (huid : sd1.ObjectMeta.UID = sd.ObjectMeta.UID) (hspec : sd1.Spec = sd.Spec)
    (hd : s1.deployments = s.deployments) (h : DeploymentSettled sd s obj) :
    DeploymentSettled sd1 s1 obj := by
  obtain ⟨x, hx, hk, hm, hse⟩ := h
  have hkk : keyOf sd1.ObjectMeta = keyOf sd.ObjectMeta := by simp only [keyOf, hname, hns]
  refine ⟨x, by rw [hd, hkk]; exact hx, by rw [hkk]; exact hk, ?_, hse⟩
  rw [deploymentMutateFn_congr storeReconciler sd sd1 hname hns huid hspec]
  exact hm

theorem mutate_service {σ : Type} (r : reconciler σ) (sd : ServiceDeployment)
    (key : NamespacedName) (d : Service) (hk : keyOf d.ObjectMeta = key) :
    mutate (serviceOps r) (serviceMutateFn r sd) key d = serviceMutateFn r sd d := by
  have hm := serviceMutateFn_meta r sd d
  unfold mutate
  cases he : (serviceMutateFn r sd d).2 with
  | some e => exact Prod.ext rfl he.symm
  | none =>
    have : (serviceOps r).key (serviceMutateFn r sd d).1 = key := by
      simp only [serviceOps, hm.1, hm.2.1]
      exact hk
    simp only [this, ne_eq, not_true_eq_false, if_false]
    exact Prod.ext rfl he.symm

theorem applyService_settles (svcName : String) (sd : ServiceDeployment) (w : World Store)
    (h : (CreateOrUpdate (serviceOps storeReconciler)
        { ObjectMeta := { Name := svcName, Namespace := sd.ObjectMeta.Namespace } }
        (serviceMutateFn storeReconciler sd) w).1.2.1 = none) :
    ServiceSettled svcName sd
        (CreateOrUpdate (serviceOps storeReconciler)
          { ObjectMeta := { Name := svcName, Namespace := sd.ObjectMeta.Namespace } }
          (serviceMutateFn storeReconciler sd) w).2.st
        (CreateOrUpdate (serviceOps storeReconciler)
          { ObjectMeta := { Name := svcName, Namespace := sd.ObjectMeta.Namespace } }
          (serviceMutateFn storeReconciler sd) w).1.2.2 ∧
      (CreateOrUpdate (serviceOps storeReconciler)
          { ObjectMeta := { Name := svcName, Namespace := sd.ObjectMeta.Namespace } }
          (serviceMutateFn storeReconciler sd) w).2.st.deployments = w.st.deployments ∧
      (CreateOrUpdate (serviceOps storeReconciler)
          { ObjectMeta := { Name := svcName, Namespace := sd.ObjectMeta.Namespace } }
          (serviceMutateFn storeReconciler sd) w).2.st.serviceDeployments =
        w.st.serviceDeployments := by
  have hkey : (serviceOps storeReconciler).key
      { ObjectMeta := { Name := svcName, Namespace := sd.ObjectMeta.Namespace } } =
      { Namespace := sd.ObjectMeta.Namespace, Name := svcName } := rfl
  have hget : (serviceOps storeReconciler).get = storeGet Store.services := rfl
  have hcreate : (serviceOps storeReconciler).create = Store.createService := rfl
  have hupdate : (serviceOps storeReconciler).update = Store.updateService := rfl
  have hsem : (serviceOps storeReconciler).semanticDeepEqual = semanticEqService := rfl
  unfold CreateOrUpdate at h ⊢
  simp only [World.call, hkey, hget, hcreate, hupdate, hsem] at h ⊢
  cases hs : w.st.services { Namespace := sd.ObjectMeta.Namespace, Name := svcName } with
  | none =>
    have hb := mutate_service storeReconciler sd
      { Namespace := sd.ObjectMeta.Namespace, Name := svcName }
      { ObjectMeta := { Name := svcName, Namespace := sd.ObjectMeta.Namespace } } rfl
    simp only [storeGet, hs, IsNotFound, ReasonForError, hb] at h ⊢
    cases hm : serviceMutateFn storeReconciler sd
      { ObjectMeta := { Name := svcName, Namespace := sd.ObjectMeta.Namespace } } with
    | mk m e =>
      have hmeta := serviceMutateFn_meta storeReconciler sd
        { ObjectMeta := { Name := svcName, Namespace := sd.ObjectMeta.Namespace } }
      rw [hm] at hmeta
      simp only at hmeta
      have hmk : keyOf m.ObjectMeta = { Namespace := sd.ObjectMeta.Namespace, Name := svcName } := by
        simp only [keyOf, hmeta.1, hmeta.2.1]
      cases e with
      | some e => simp [hm] at h
      | none =>
        simp only [hm, Store.createService, hmk, hs, beq_self_eq_true, Bool.not_true,
          Bool.false_eq_true, if_false, and_self, and_true]
        refine ⟨_, put_same _ _ _, by simp only [keyOf, hmeta.1, hmeta.2.1], ?_,
          semanticEqService_self _⟩
        exact serviceMutateFn_idem storeReconciler sd _ m hm _
  | some existing =>
    simp only [storeGet, hs] at h ⊢
    by_cases hk : keyOf existing.ObjectMeta =
        { Namespace := sd.ObjectMeta.Namespace, Name := svcName }
    · have hb := mutate_service storeReconciler sd _ existing hk
      simp only [hb] at h ⊢
      cases hm : serviceMutateFn storeReconciler sd existing with
      | mk m e =>
        have hmeta := serviceMutateFn_meta storeReconciler sd existing
        rw [hm] at hmeta
        simp only at hmeta
        have hmk : keyOf m.ObjectMeta =
            { Namespace := sd.ObjectMeta.Namespace, Name := svcName } := by
          rw [← hk]
          simp only [keyOf, hmeta.1, hmeta.2.1]
        cases e with
        | some e => simp [hm] at h
        | none =>
          by_cases hse : semanticEqService existing m = true
          · simp only [hm, hse, if_true, and_self, and_true]
            exact ⟨existing, hs, hk, hm, hse⟩
          · simp only [hm, hse, Bool.false_eq_true, if_false, Store.updateService, hmk, hs,
              hmeta.2.2, ne_eq, not_true_eq_false, and_self, and_true]
            refine ⟨_, put_same _ _ _, by simp only [keyOf, hmeta.1, hmeta.2.1]; exact hk, ?_,
              semanticEqService_self _⟩
            exact serviceMutateFn_idem storeReconciler sd _ m hm _
    · exfalso
      have hmeta := serviceMutateFn_meta storeReconciler sd existing
      have hne : (mutate (serviceOps storeReconciler) (serviceMutateFn storeReconciler sd)
          { Namespace := sd.ObjectMeta.Namespace, Name := svcName } existing).2 ≠ none := by
        unfold mutate
        cases he : (serviceMutateFn storeReconciler sd existing).2 with
        | some e => simp
        | none =>
          have : (serviceOps storeReconciler).key
              (serviceMutateFn storeReconciler sd existing).1 ≠
              { Namespace := sd.ObjectMeta.Namespace, Name := svcName } := by
            simp only [serviceOps, hmeta.1, hmeta.2.1]
            exact hk
          simp [this]
      cases hmu : (mutate (serviceOps storeReconciler) (serviceMutateFn storeReconciler sd)
          { Namespace := sd.ObjectMeta.Namespace, Name := svcName } existing).2 with
      | none => exact hne hmu
      | some e => simp [hmu] at h

theorem applyService_noop (svcName : String) (sd : ServiceDeployment) (s : Store)
    (t : List Action) (obj : Service) (h : ServiceSettled svcName sd s obj) :
    CreateOrUpdate (serviceOps storeReconciler)
        { ObjectMeta := { Name := svcName, Namespace := sd.ObjectMeta.Namespace } }
        (serviceMutateFn storeReconciler sd) ⟨s, t⟩ =
      ((.None, none, obj),
        ⟨s, t ++ [.getService { Namespace := sd.ObjectMeta.Namespace, Name := svcName }]⟩) := by
  obtain ⟨x, hx, hk, hm, hse⟩ := h
  have hkey : (serviceOps storeReconciler).key
      { ObjectMeta := { Name := svcName, Namespace := sd.ObjectMeta.Namespace } } =
      { Namespace := sd.ObjectMeta.Namespace, Name := svcName } := rfl
  have hget : (serviceOps storeReconciler).get = storeGet Store.services := rfl
  have hsem : (serviceOps storeReconciler).semanticDeepEqual = semanticEqService := rfl
  have hga : (serviceOps storeReconciler).getAction = Action.getService := rfl
  have hb := mutate_service storeReconciler sd _ x hk
  unfold CreateOrUpdate
  simp only [World.call, hkey, hget, hsem, hga, storeGet, hx, hb, hm, hse, if_true]

theorem ServiceSettled_congr (svcName : String) (sd sd1 : ServiceDeployment) (s s1 : Store)
    (obj : Service)
    (hname : sd1.ObjectMeta.Name = sd.ObjectMeta.Name)
    (hns : sd1.ObjectMeta.Namespace = sd.ObjectMeta.Namespace)
    (huid : sd1.ObjectMeta.UID = sd.ObjectMeta.UID) (hspec : sd1.Spec = sd.Spec)
    (hd : s1.services = s.services) (h : ServiceSettled svcName sd s obj) :
    ServiceSettled svcName sd1 s1 obj := by
  obtain ⟨x, hx, hk, hm, hse⟩ := h
  refine ⟨x, by rw [hd, hns]; exact hx, by rw [hns]; exact hk, ?_, hse⟩
  rw [serviceMutateFn_congr storeReconciler sd sd1 hname hns huid hspec]
  exact hm

/-! ## The status sync on the store -/

theorem projection_idem (selectorString : LabelSelector → Except Err String)
    (st : ServiceDeploymentStatus) (sd sd1 : ServiceDeployment) (dep : Deployment)
    (svc : Service) (hspec : sd1.Spec = sd.Spec) :
    fillFromServiceStatus
        (fillFromDeploymentStatus selectorString
          (fillFromServiceStatus (fillFromDeploymentStatus selectorString st sd dep) svc) sd1 dep)
        svc =
      fillFromServiceStatus (fillFromDeploymentStatus selectorString st sd dep) svc := by
  unfold fillFromServiceStatus fillFromDeploymentStatus
  rw [hspec]
  cases dep.Spec.Selector with
  | none => rfl
  | some selector =>
    dsimp only
    cases selectorString selector <;> rfl

theorem mergeStatus_same (cur obj : ServiceDeploymentStatus) : mergeStatus cur obj cur = obj := by
  obtain ⟨a1, a2, a3, a4, a5, a6, a7, a8, a9, a10⟩ := cur
  obtain ⟨b1, b2, b3, b4, b5, b6, b7, b8, b9, b10⟩ := obj
  simp only [mergeStatus, mergeField, ServiceDeploymentStatus.mk.injEq]
  refine ⟨?_, ?_, ?_, ?_, ?_, ?_, ?_, ?_, ?_, ?_⟩ <;> split <;> simp_all

theorem syncStatus_store (selectorString : LabelSelector → Except Err String)
    (sd : ServiceDeployment) (dep : Deployment) (svc : Service) (w : World Store)
    (hsd : w.st.serviceDeployments (keyOf sd.ObjectMeta) = some sd) :
    ∃ sd1,
      (SyncStatus storeReconciler selectorString sd dep svc w).2.st.serviceDeployments
          (keyOf sd.ObjectMeta) = some sd1 ∧
        sd1.ObjectMeta.Name = sd.ObjectMeta.Name ∧
        sd1.ObjectMeta.Namespace = sd.ObjectMeta.Namespace ∧
        sd1.ObjectMeta.UID = sd.ObjectMeta.UID ∧
        sd1.Spec = sd.Spec ∧
        sd1.Status =
          fillFromServiceStatus (fillFromDeploymentStatus selectorString sd.Status sd dep) svc ∧
        (SyncStatus storeReconciler selectorString sd dep svc w).2.st.deployments =
          w.st.deployments ∧
        (SyncStatus storeReconciler selectorString sd dep svc w).2.st.services =
          w.st.services := by
  by_cases heq : sd.Status =
      fillFromServiceStatus (fillFromDeploymentStatus selectorString sd.Status sd dep) svc
  · have hS : SyncStatus storeReconciler selectorString sd dep svc w = ((none, sd), w) := by
      unfold SyncStatus
      dsimp only
      rw [if_pos heq]
    rw [hS]
    exact ⟨sd, hsd, rfl, rfl, rfl, rfl, heq, rfl, rfl⟩
  · have hp : storeReconciler.Client.StatusPatch = Store.patchStatus := rfl
    have hS : (SyncStatus storeReconciler selectorString sd dep svc w).2.st =
        { w.st with
          serviceDeployments := put w.st.serviceDeployments (keyOf sd.ObjectMeta)
            (some
              { sd with
                ObjectMeta := { sd.ObjectMeta with ResourceVersion := w.st.revision + 1 }
                Status := mergeStatus sd.Status
                  (fillFromServiceStatus
                    (fillFromDeploymentStatus selectorString sd.Status sd dep) svc)
                  sd.Status })
          revision := w.st.revision + 1 } := by
      unfold SyncStatus
      dsimp only
      rw [if_neg heq]
      simp only [World.call, hp, Store.patchStatus, hsd]
      rfl
    rw [hS]
    refine ⟨_, put_same _ _ _, rfl, rfl, rfl, rfl, ?_, rfl, rfl⟩
    exact mergeStatus_same _ _

/-! ## The reconcile pass at the fixed point -/

theorem reconcile_of_converged (selectorString : LabelSelector → Except Err String)
    (req : Request) (s : Store) (h : Converged selectorString req s) (t : List Action) :
    Reconcile storeReconciler selectorString req ⟨s, t⟩ =
      (({}, none),
        ⟨s, t ++
          [.logInfo "Reconciling servicedeployment...",
            .getServiceDeployment req.NamespacedName,
            .getDeployment req.NamespacedName,
            .getService
              { Namespace := req.NamespacedName.Namespace
                Name := req.NamespacedName.Name ++ "-svc" },
            .logInfo "reconciled"]⟩) := by
  obtain ⟨sd, dep, svc, hsd, hk, hdep, hsvc, hst⟩ := h
  have hg : storeReconciler.Client.Get = storeGet Store.serviceDeployments := rfl
  have hns : sd.ObjectMeta.Namespace = req.NamespacedName.Namespace := by
    rw [← hk]; rfl
  unfold Reconcile
  simp only [World.call, World.emit, hg, storeGet, hsd]
  unfold reconcileDeployment
  simp only [applyDeployment_noop sd s _ dep hdep]
  unfold reconcileService
  simp only [applyService_noop _ sd s _ svc hsvc]
  unfold reconcileStatus SyncStatus
  simp only [← hst, if_true, World.emit, hk, hns, List.append_assoc, List.singleton_append,
    List.cons_append, List.nil_append]

/-! ## A successful pass reaches the fixed point -/

theorem reconcileStatus_converges (selectorString : LabelSelector → Except Err String)
    (req : Request) (sd : ServiceDeployment) (dep : Deployment) (svc : Service)
    (w : World Store)
    (hk : keyOf sd.ObjectMeta = req.NamespacedName)
    (hsd : w.st.serviceDeployments req.NamespacedName = some sd)
    (hdep : DeploymentSettled sd w.st dep)
    (hsvc : ServiceSettled (req.NamespacedName.Name ++ "-svc") sd w.st svc) :
    Converged selectorString req
      (reconcileStatus storeReconciler selectorString sd dep svc w).2.st := by
  have hst : (reconcileStatus storeReconciler selectorString sd dep svc w).2.st =
      (SyncStatus storeReconciler selectorString sd dep svc w).2.st := by
    unfold reconcileStatus
    dsimp only
    cases (SyncStatus storeReconciler selectorString sd dep svc w).1.1 <;> rfl
  rw [hst]
  obtain ⟨sd1, h1, hname, hns, huid, hspec, hstatus, hd, hs⟩ :=
    syncStatus_store selectorString sd dep svc w (by rw [hk]; exact hsd)
  have hk1 : keyOf sd1.ObjectMeta = req.NamespacedName := by
    rw [← hk]; simp only [keyOf, hname, hns]
  refine ⟨sd1, dep, svc, by rw [← hk]; exact h1, hk1, ?_, ?_, ?_⟩
  · exact DeploymentSettled_congr sd sd1 w.st _ dep hname hns huid hspec hd hdep
  · exact ServiceSettled_congr _ sd sd1 w.st _ svc hname hns huid hspec hs hsvc
  · rw [hstatus]
    exact (projection_idem selectorString sd.Status sd sd1 dep svc hspec).symm

theorem reconcileService_converges (selectorString : LabelSelector → Except Err String)
    (req : Request) (sd : ServiceDeployment) (dep : Deployment) (w : World Store)
    (hk : keyOf sd.ObjectMeta = req.NamespacedName)
    (hsd : w.st.serviceDeployments req.NamespacedName = some sd)
    (hdep : DeploymentSettled sd w.st dep)
    (hok : (reconcileService storeReconciler selectorString (req.NamespacedName.Name ++ "-svc")
      sd dep w).1 = ({}, none)) :
    Converged selectorString req
      (reconcileService storeReconciler selectorString (req.NamespacedName.Name ++ "-svc")
        sd dep w).2.st := by
  unfold reconcileService at hok ⊢
  dsimp only at hok ⊢
  cases he : (CreateOrUpdate (serviceOps storeReconciler)
      { ObjectMeta :=
          { Name := req.NamespacedName.Name ++ "-svc", Namespace := sd.ObjectMeta.Namespace } }
      (serviceMutateFn storeReconciler sd) w).1.2.1 with
  | some err => simp [he] at hok
  | none =>
    obtain ⟨hset, hd, hs⟩ := applyService_settles (req.NamespacedName.Name ++ "-svc") sd w he
    simp only [he]
    apply reconcileStatus_converges selectorString req sd dep _ _ hk
    · cases (CreateOrUpdate (serviceOps storeReconciler)
        { ObjectMeta :=
            { Name := req.NamespacedName.Name ++ "-svc",
              Namespace := sd.ObjectMeta.Namespace } }
        (serviceMutateFn storeReconciler sd) w).1.1 <;>
        simp only [World.emit, hs, hsd]
    · cases (CreateOrUpdate (serviceOps storeReconciler)
        { ObjectMeta :=
            { Name := req.NamespacedName.Name ++ "-svc",
              Namespace := sd.ObjectMeta.Namespace } }
        (serviceMutateFn storeReconciler sd) w).1.1 <;>
        exact DeploymentSettled_congr sd sd w.st _ dep rfl rfl rfl rfl hd hdep
    · cases (CreateOrUpdate (serviceOps storeReconciler)
        { ObjectMeta :=
            { Name := req.NamespacedName.Name ++ "-svc",
              Namespace := sd.ObjectMeta.Namespace } }
        (serviceMutateFn storeReconciler sd) w).1.1 <;>
        exact hset

theorem reconcileDeployment_converges (selectorString : LabelSelector → Except Err String)
    (req : Request) (sd : ServiceDeployment) (w : World Store)
    (hk : keyOf sd.ObjectMeta = req.NamespacedName)
    (hsd : w.st.serviceDeployments req.NamespacedName = some sd)
    (hok : (reconcileDeployment storeReconciler selectorString
      (req.NamespacedName.Name ++ "-svc") sd w).1 = ({}, none)) :
    Converged selectorString req
      (reconcileDeployment storeReconciler selectorString (req.NamespacedName.Name ++ "-svc")
        sd w).2.st := by
  unfold reconcileDeployment at hok ⊢
  dsimp only at hok ⊢
  cases he : (CreateOrUpdate (deploymentOps storeReconciler)
      { ObjectMeta := { Name := sd.ObjectMeta.Name, Namespace := sd.ObjectMeta.Namespace } }
      (deploymentMutateFn storeReconciler sd) w).1.2.1 with
  | some err =>
    simp only [he] at hok
    split at hok <;> simp at hok
  | none =>
    obtain ⟨hset, hs, hd⟩ := applyDeployment_settles sd w he
    simp only [he] at hok ⊢
    apply reconcileService_converges selectorString req sd _ _ hk _ _ hok
    · cases (CreateOrUpdate (deploymentOps storeReconciler)
        { ObjectMeta := { Name := sd.ObjectMeta.Name, Namespace := sd.ObjectMeta.Namespace } }
        (deploymentMutateFn storeReconciler sd) w).1.1 <;>
        simp only [World.emit, hd, hsd]
    · cases (CreateOrUpdate (deploymentOps storeReconciler)
        { ObjectMeta := { Name := sd.ObjectMeta.Name, Namespace := sd.ObjectMeta.Namespace } }
        (deploymentMutateFn storeReconciler sd) w).1.1 <;>
        exact hset

theorem reconcile_converges (selectorString : LabelSelector → Except Err String)
    (req : Request) (sd : ServiceDeployment) (w : World Store)
    (hsd : w.st.serviceDeployments req.NamespacedName = some sd)
    (hk : keyOf sd.ObjectMeta = req.NamespacedName)
    (hok : (Reconcile storeReconciler selectorString req w).1 = ({}, none)) :
    Converged selectorString req (Reconcile storeReconciler selectorString req w).2.st := by
  have hg : storeReconciler.Client.Get = storeGet Store.serviceDeployments := rfl
  unfold Reconcile at hok ⊢
  simp only [World.call, World.emit, hg, storeGet, hsd] at hok ⊢
  exact reconcileDeployment_converges selectorString req sd _ hk hsd hok

/-! ## The first pass on a store without children -/

theorem validateOwner_same (ns : String) : validateOwner ns ns = none := by
  unfold validateOwner
  by_cases h : ns = "" <;> simp [h]

theorem deploymentMutateFn_blank (sd : ServiceDeployment) :
    deploymentMutateFn storeReconciler sd
        { ObjectMeta := { Name := sd.ObjectMeta.Name, Namespace := sd.ObjectMeta.Namespace } } =
      (createdDeployment sd 0, none) := by
  simp [deploymentMutateFn, SetControllerReference, validateOwner_same, storeReconciler,
    addKnownTypes, GetControllerOf, upsertOwnerRef, mapSet, createdDeployment]

theorem serviceMutateFn_blank (svcName : String) (sd : ServiceDeployment) :
    serviceMutateFn storeReconciler sd
        { ObjectMeta := { Name := svcName, Namespace := sd.ObjectMeta.Namespace } } =
      (createdService svcName sd 0, none) := by
  simp [serviceMutateFn, SetControllerReference, validateOwner_same, storeReconciler,
    addKnownTypes, GetControllerOf, upsertOwnerRef, createdService]

theorem applyDeployment_create (sd : ServiceDeployment) (w : World Store)
    (hnone : w.st.deployments (keyOf sd.ObjectMeta) = none) :
    (CreateOrUpdate (deploymentOps storeReconciler)
        { ObjectMeta := { Name := sd.ObjectMeta.Name, Namespace := sd.ObjectMeta.Namespace } }
        (deploymentMutateFn storeReconciler sd) w).1 =
        (.Created, none, createdDeployment sd (w.st.revision + 1)) ∧
      (CreateOrUpdate (deploymentOps storeReconciler)
        { ObjectMeta := { Name := sd.ObjectMeta.Name, Namespace := sd.ObjectMeta.Namespace } }
        (deploymentMutateFn storeReconciler sd) w).2.st =
        { w.st with
          deployments := put w.st.deployments (keyOf sd.ObjectMeta)
            (some (createdDeployment sd (w.st.revision + 1)))
          revision := w.st.revision + 1 } := by
  have hkey : (deploymentOps storeReconciler).key
      { ObjectMeta := { Name := sd.ObjectMeta.Name, Namespace := sd.ObjectMeta.Namespace } } =
      keyOf sd.ObjectMeta := rfl
  have hget : (deploymentOps storeReconciler).get = storeGet Store.deployments := rfl
  have hcreate : (deploymentOps storeReconciler).create = Store.createDeployment := rfl
  have hb := mutate_deployment storeReconciler sd (keyOf sd.ObjectMeta)
    { ObjectMeta := { Name := sd.ObjectMeta.Name, Namespace := sd.ObjectMeta.Namespace } } rfl
  have hck : keyOf (createdDeployment sd 0).ObjectMeta = keyOf sd.ObjectMeta := rfl
  unfold CreateOrUpdate
  simp only [World.call, hkey, hget, hcreate, storeGet, hnone, IsNotFound, ReasonForError, hb,
    deploymentMutateFn_blank, Store.createDeployment, hck, beq_self_eq_true, Bool.not_true,
    Bool.false_eq_true, if_false]
  exact ⟨rfl, rfl⟩

theorem applyService_create (svcName : String) (sd : ServiceDeployment) (w : World Store)
    (hnone : w.st.services { Namespace := sd.ObjectMeta.Namespace, Name := svcName } = none) :
    (CreateOrUpdate (serviceOps storeReconciler)
        { ObjectMeta := { Name := svcName, Namespace := sd.ObjectMeta.Namespace } }
        (serviceMutateFn storeReconciler sd) w).1 =
        (.Created, none, createdService svcName sd (w.st.revision + 1)) ∧
      (CreateOrUpdate (serviceOps storeReconciler)
        { ObjectMeta := { Name := svcName, Namespace := sd.ObjectMeta.Namespace } }
        (serviceMutateFn storeReconciler sd) w).2.st =
        { w.st with
          services := put w.st.services { Namespace := sd.ObjectMeta.Namespace, Name := svcName }
            (some (createdService svcName sd (w.st.revision + 1)))
          revision := w.st.revision + 1 } := by
  have hkey : (serviceOps storeReconciler).key
      { ObjectMeta := { Name := svcName, Namespace := sd.ObjectMeta.Namespace } } =
      { Namespace := sd.ObjectMeta.Namespace, Name := svcName } := rfl
  have hget : (serviceOps storeReconciler).get = storeGet Store.services := rfl
  have hcreate : (serviceOps storeReconciler).create = Store.createService := rfl
  have hb := mutate_service storeReconciler sd
    { Namespace := sd.ObjectMeta.Namespace, Name := svcName }
    { ObjectMeta := { Name := svcName, Namespace := sd.ObjectMeta.Namespace } } rfl
  have hck : keyOf (createdService svcName sd 0).ObjectMeta =
      { Namespace := sd.ObjectMeta.Namespace, Name := svcName } := rfl
  unfold CreateOrUpdate
  simp only [World.call, hkey, hget, hcreate, storeGet, hnone, IsNotFound, ReasonForError, hb,
    serviceMutateFn_blank, Store.createService, hck, beq_self_eq_true, Bool.not_true,
    Bool.false_eq_true, if_false]
  exact ⟨rfl, rfl⟩

theorem reconcileStatus_result (selectorString : LabelSelector → Except Err String)
    (sd : ServiceDeployment) (dep : Deployment) (svc : Service) (w : World Store) :
    (reconcileStatus storeReconciler selectorString sd dep svc w).1 = ({}, none) ∧
      (reconcileStatus storeReconciler selectorString sd dep svc w).2.st =
        (SyncStatus storeReconciler selectorString sd dep svc w).2.st := by
  unfold reconcileStatus
  dsimp only
  cases (SyncStatus storeReconciler selectorString sd dep svc w).1.1 <;> exact ⟨rfl, rfl⟩

theorem reconcile_first_pass (selectorString : LabelSelector → Except Err String)
    (req : Request) (s : Store) (sd : ServiceDeployment)
    (hsd : s.serviceDeployments req.NamespacedName = some sd)
    (hk : keyOf sd.ObjectMeta = req.NamespacedName)
    (hnd : ∀ k, s.deployments k = none) (hns : ∀ k, s.services k = none) :
    (Reconcile storeReconciler selectorString req ⟨s, []⟩).1 = ({}, none) ∧
      (Reconcile storeReconciler selectorString req ⟨s, []⟩).2.st.deployments =
        put s.deployments req.NamespacedName (some (createdDeployment sd (s.revision + 1))) ∧
      (Reconcile storeReconciler selectorString req ⟨s, []⟩).2.st.services =
        put s.services
          { Namespace := req.NamespacedName.Namespace, Name := req.NamespacedName.Name ++ "-svc" }
          (some (createdService (req.NamespacedName.Name ++ "-svc") sd (s.revision + 2))) := by
  have hg : storeReconciler.Client.Get = storeGet Store.serviceDeployments := rfl
  have hnsp : sd.ObjectMeta.Namespace = req.NamespacedName.Namespace := by
    rw [← hk]; rfl
  unfold Reconcile
  simp only [World.call, World.emit, hg, storeGet, hsd]
  unfold reconcileDeployment
  dsimp only
  obtain ⟨hd1, hd2⟩ := applyDeployment_create sd
    ⟨s, [] ++ [.logInfo "Reconciling servicedeployment..."] ++
      [.getServiceDeployment req.NamespacedName]⟩ (hnd _)
  rw [hd1]
  dsimp only
  generalize hW1 : (CreateOrUpdate (deploymentOps storeReconciler)
    { ObjectMeta := { Name := sd.ObjectMeta.Name, Namespace := sd.ObjectMeta.Namespace } }
    (deploymentMutateFn storeReconciler sd)
    ⟨s, [] ++ [.logInfo "Reconciling servicedeployment..."] ++
      [.getServiceDeployment req.NamespacedName]⟩).2 = W1 at hd2 ⊢
  unfold reconcileService
  dsimp only
  obtain ⟨hs1, hs2⟩ := applyService_create (req.NamespacedName.Name ++ "-svc") sd
    (W1.emit (.event (subjectOf sd) EventTypeNormal "DeploymentCreated" "Created Deployment %q"
      [(createdDeployment sd (s.revision + 1)).ObjectMeta.Name]))
    (by simp only [World.emit, hd2, hns])
  rw [hs1]
  dsimp only
  generalize hW2 : (CreateOrUpdate (serviceOps storeReconciler)
    { ObjectMeta :=
        { Name := req.NamespacedName.Name ++ "-svc", Namespace := sd.ObjectMeta.Namespace } }
    (serviceMutateFn storeReconciler sd)
    (W1.emit (.event (subjectOf sd) EventTypeNormal "DeploymentCreated" "Created Deployment %q"
      [(createdDeployment sd (s.revision + 1)).ObjectMeta.Name]))).2 = W2 at hs2 ⊢
  simp only [World.emit, hd2] at hs2
  obtain ⟨hr1, hr2⟩ := reconcileStatus_result selectorString sd
    (createdDeployment sd (s.revision + 1))
    (createdService (req.NamespacedName.Name ++ "-svc") sd (W1.st.revision + 1))
    (W2.emit (.event (subjectOf sd) EventTypeNormal "ServiceCreated" "Created Service %q"
      [(createdService (req.NamespacedName.Name ++ "-svc") sd
        (W1.st.revision + 1)).ObjectMeta.Name]))
  obtain ⟨sd1, -, -, -, -, -, -, hd, hs⟩ := syncStatus_store selectorString sd
    (createdDeployment sd (s.revision + 1))
    (createdService (req.NamespacedName.Name ++ "-svc") sd (W1.st.revision + 1))
    (W2.emit (.event (subjectOf sd) EventTypeNormal "ServiceCreated" "Created Service %q"
      [(createdService (req.NamespacedName.Name ++ "-svc") sd
        (W1.st.revision + 1)).ObjectMeta.Name]))
    (by simp only [World.emit, hs2, hk, hsd])
  simp only [World.emit] at hr1 hr2 hd hs ⊢
  refine ⟨hr1, ?_, ?_⟩
  · rw [hr2, hd, hs2, hk]
  · rw [hr2, hs, hs2, hnsp]

theorem reconcileTimes_of_converged (selectorString : LabelSelector → Except Err String)
    (req : Request) (s : Store) (h : Converged selectorString req s) (n : Nat) :
    reconcileTimes selectorString req n s = s := by
  induction n with
  | zero => rfl
  | succ n ih =>
    unfold reconcileTimes
    rw [reconcile_of_converged selectorString req s h []]
    exact ih

/-! ## Idempotence and convergence -/

/-- C7: on a store that holds the descriptor under its own name, if one reconcile succeeds and
nothing else writes, a second reconcile of the same request succeeds, issues no create, update,
patch or delete, and leaves the store, hence both children and the descriptor's status, exactly
as the first pass left it. -/
theorem reconcile_idempotent (selectorString : LabelSelector → Except Err String)
    (req : Request) (s : Store) (sd : ServiceDeployment)
    (hsd : s.serviceDeployments req.NamespacedName = some sd)
    (hk : keyOf sd.ObjectMeta = req.NamespacedName)
    (hok : (Reconcile storeReconciler selectorString req ⟨s, []⟩).1 = ({}, none)) :
    (Reconcile storeReconciler selectorString req
        ⟨(Reconcile storeReconciler selectorString req ⟨s, []⟩).2.st, []⟩).1 = ({}, none) ∧
      (∀ a ∈ (Reconcile storeReconciler selectorString req
          ⟨(Reconcile storeReconciler selectorString req ⟨s, []⟩).2.st, []⟩).2.trace,
        a.isWrite = false) ∧
      (Reconcile storeReconciler selectorString req
          ⟨(Reconcile storeReconciler selectorString req ⟨s, []⟩).2.st, []⟩).2.st =
        (Reconcile storeReconciler selectorString req ⟨s, []⟩).2.st := by
  have hc := reconcile_converges selectorString req sd ⟨s, []⟩ hsd hk hok
  rw [reconcile_of_converged selectorString req _ hc []]
  refine ⟨rfl, ?_, rfl⟩
  intro a ha
  simp only [List.nil_append, List.mem_cons, List.mem_singleton, List.not_mem_nil,
    or_false] at ha
  rcases ha with ha | ha | ha | ha | ha <;> subst ha <;> rfl

set_option maxRecDepth 100000 in
/-- C7 at a concrete store: the drifted workload with one replica is brought to three by the
first pass, and the second pass writes nothing. -/
theorem reconcile_idempotent_witness :
    (Reconcile storeReconciler witnessSelectorString witnessRequest
        ⟨(Reconcile storeReconciler witnessSelectorString witnessRequest
          ⟨driftedStore, []⟩).2.st, []⟩).1 = ({}, none) ∧
      (∀ a ∈ (Reconcile storeReconciler witnessSelectorString witnessRequest
          ⟨(Reconcile storeReconciler witnessSelectorString witnessRequest
            ⟨driftedStore, []⟩).2.st, []⟩).2.trace,
        a.isWrite = false) ∧
      (Reconcile storeReconciler witnessSelectorString witnessRequest
          ⟨(Reconcile storeReconciler witnessSelectorString witnessRequest
            ⟨driftedStore, []⟩).2.st, []⟩).2.st =
        (Reconcile storeReconciler witnessSelectorString witnessRequest ⟨driftedStore, []⟩).2.st :=
  reconcile_idempotent witnessSelectorString witnessRequest driftedStore witnessDescriptor
    (by decide) (by decide) (by decide)

/-- C8: on a store that holds the descriptor and no children, one reconcile succeeds and leaves
exactly one workload, under the descriptor's name, with the descriptor's replica count and
containers, and exactly one endpoint, under the descriptor's name followed by "-svc", with the
descriptor's service type and ports, each with the controller owner link to the descriptor as
its only owner reference; any number of further reconciles leaves the store as it is. -/
theorem reconcile_converges_from_no_children
    (selectorString : LabelSelector → Except Err String) (req : Request) (s : Store)
    (sd : ServiceDeployment)
    (hsd : s.serviceDeployments req.NamespacedName = some sd)
    (hk : keyOf sd.ObjectMeta = req.NamespacedName)
    (hnd : ∀ k, s.deployments k = none) (hns : ∀ k, s.services k = none) :
    (Reconcile storeReconciler selectorString req ⟨s, []⟩).1 = ({}, none) ∧
      (∃ d, (Reconcile storeReconciler selectorString req ⟨s, []⟩).2.st.deployments
            { Namespace := sd.ObjectMeta.Namespace, Name := sd.ObjectMeta.Name } = some d ∧
          d.ObjectMeta.Name = sd.ObjectMeta.Name ∧
          d.Spec.Replicas = some sd.Spec.Replicas ∧
          d.Spec.Template.Spec.Containers = sd.Spec.Containers ∧
          d.ObjectMeta.OwnerReferences =
            some [{ APIVersion := { Group := "k8s.example.com", Version := "v1" }
                    Kind := "ServiceDeployment"
                    Name := sd.ObjectMeta.Name
                    UID := sd.ObjectMeta.UID
                    Controller := some true
                    BlockOwnerDeletion := some true }]) ∧
      (∀ k, k ≠ { Namespace := sd.ObjectMeta.Namespace, Name := sd.ObjectMeta.Name } →
        (Reconcile storeReconciler selectorString req ⟨s, []⟩).2.st.deployments k = none) ∧
      (∃ v, (Reconcile storeReconciler selectorString req ⟨s, []⟩).2.st.services
            { Namespace := sd.ObjectMeta.Namespace, Name := sd.ObjectMeta.Name ++ "-svc" }
            = some v ∧
          v.ObjectMeta.Name = sd.ObjectMeta.Name ++ "-svc" ∧
          v.Spec.Type_ = sd.Spec.Service.Type_ ∧
          v.Spec.Ports = sd.Spec.Service.Ports ∧
          v.ObjectMeta.OwnerReferences =
            some [{ APIVersion := { Group := "k8s.example.com", Version := "v1" }
                    Kind := "ServiceDeployment"
                    Name := sd.ObjectMeta.Name
                    UID := sd.ObjectMeta.UID
                    Controller := some true
                    BlockOwnerDeletion := some true }]) ∧
      (∀ k, k ≠ { Namespace := sd.ObjectMeta.Namespace, Name := sd.ObjectMeta.Name ++ "-svc" } →
        (Reconcile storeReconciler selectorString req ⟨s, []⟩).2.st.services k = none) ∧
      (∀ n, reconcileTimes selectorString req n
          (Reconcile storeReconciler selectorString req ⟨s, []⟩).2.st =
        (Reconcile storeReconciler selectorString req ⟨s, []⟩).2.st) := by
  obtain ⟨hok, hd, hs⟩ := reconcile_first_pass selectorString req s sd hsd hk hnd hns
  have hc := reconcile_converges selectorString req sd ⟨s, []⟩ hsd hk hok
  have hkn : req.NamespacedName.Name = sd.ObjectMeta.Name := by rw [← hk]; rfl
  have hkns : req.NamespacedName.Namespace = sd.ObjectMeta.Namespace := by rw [← hk]; rfl
  have hkd : ({ Namespace := sd.ObjectMeta.Namespace, Name := sd.ObjectMeta.Name } :
      NamespacedName) = req.NamespacedName := hk
  refine ⟨hok, ⟨createdDeployment sd (s.revision + 1), ?_, rfl, rfl, rfl, rfl⟩, ?_,
    ⟨createdService (req.NamespacedName.Name ++ "-svc") sd (s.revision + 2), ?_, ?_, rfl, rfl,
      rfl⟩, ?_, ?_⟩
  · rw [hd, hkd]; exact put_same _ _ _
  · intro k hne
    rw [hd, ← hkd]
    simp only [put, hne, if_false, hnd]
  · rw [hs, hkn, hkns]; exact put_same _ _ _
  · simp only [createdService, hkn]
  · intro k hne
    rw [hs, hkn, hkns]
    simp only [put, hne, if_false, hns]
  · exact reconcileTimes_of_converged selectorString req _ hc

set_option maxRecDepth 100000 in
/-- C8 at the concrete descriptor `default/web` with three replicas, one container and a
port-80 exposure, on a store without children. -/
theorem reconcile_converges_from_no_children_witness :
    (Reconcile storeReconciler witnessSelectorString witnessRequest ⟨witnessStore, []⟩).1 =
        ({}, none) ∧
      (∃ d, (Reconcile storeReconciler witnessSelectorString witnessRequest
            ⟨witnessStore, []⟩).2.st.deployments { Namespace := "default", Name := "web" }
            = some d ∧
          d.ObjectMeta.Name = "web" ∧
          d.Spec.Replicas = some 3 ∧
          d.Spec.Template.Spec.Containers = some [{ Name := "nginx", Image := "nginx" }] ∧
          d.ObjectMeta.OwnerReferences =
            some [{ APIVersion := { Group := "k8s.example.com", Version := "v1" }
                    Kind := "ServiceDeployment"
                    Name := "web"
                    UID := "uid-web"
                    Controller := some true
                    BlockOwnerDeletion := some true }]) ∧
      (∀ k, k ≠ { Namespace := "default", Name := "web" } →
        (Reconcile storeReconciler witnessSelectorString witnessRequest
          ⟨witnessStore, []⟩).2.st.deployments k = none) ∧
      (∃ v, (Reconcile storeReconciler witnessSelectorString witnessRequest
            ⟨witnessStore, []⟩).2.st.services { Namespace := "default", Name := "web-svc" }
            = some v ∧
          v.ObjectMeta.Name = "web-svc" ∧
          v.Spec.Type_ = "ClusterIP" ∧
          v.Spec.Ports = some [{ Port := 80 }] ∧
          v.ObjectMeta.OwnerReferences =
            some [{ APIVersion := { Group := "k8s.example.com", Version := "v1" }
                    Kind := "ServiceDeployment"
                    Name := "web"
                    UID := "uid-web"
                    Controller := some true
                    BlockOwnerDeletion := some true }]) ∧
      (∀ k, k ≠ { Namespace := "default", Name := "web-svc" } →
        (Reconcile storeReconciler witnessSelectorString witnessRequest
          ⟨witnessStore, []⟩).2.st.services k = none) ∧
      (∀ n, reconcileTimes witnessSelectorString witnessRequest n
          (Reconcile storeReconciler witnessSelectorString witnessRequest
            ⟨witnessStore, []⟩).2.st =
        (Reconcile storeReconciler witnessSelectorString witnessRequest
          ⟨witnessStore, []⟩).2.st) :=
  reconcile_converges_from_no_children witnessSelectorString witnessRequest witnessStore
    witnessDescriptor (by decide) (by decide) (fun _ => rfl) (fun _ => rfl)

/-! ## The status projection -/

theorem intercalate_go_append (s : String) (l : List String) (x y : String) :
    String.intercalate.go (x ++ y) s l = x ++ String.intercalate.go y s l := by
  induction l generalizing y with
  | nil => rfl
  | cons a rest ih =>
    simp only [String.intercalate.go]
    rw [String.append_assoc, String.append_assoc, ← String.append_assoc y, ih]

theorem intercalate_cons_cons (s a b : String) (rest : List String) :
    s.intercalate (a :: b :: rest) = a ++ s ++ s.intercalate (b :: rest) := by
  simp only [String.intercalate, String.intercalate.go]
  rw [intercalate_go_append]

theorem intercalate_portsSummary (l : List ServicePort) :
    ",".intercalate (l.map portPart) = portsSummary l := by
  induction l with
  | nil => rfl
  | cons p rest ih =>
    cases rest with
    | nil => rfl
    | cons q rest =>
      rw [List.map_cons, List.map_cons, intercalate_cons_cons, ← List.map_cons, ih]
      rfl

/-- C11: `fillFromServiceStatus` sets the service type and the cluster address from the
endpoint, and the ports string to the ports summary of the specification: the endpoint's ports
in their order, each as port, slash, protocol with TCP for an unset protocol, joined by commas
with nothing before the first or after the last; no ports give the empty string. -/
theorem fillFromServiceStatus_fields :
    (∀ (dst : ServiceDeploymentStatus) (svc : Service),
      (fillFromServiceStatus dst svc).ServiceType = svc.Spec.Type_ ∧
      (fillFromServiceStatus dst svc).ClusterIP = svc.Spec.ClusterIP ∧
      (fillFromServiceStatus dst svc).Ports = portsSummary (svc.Spec.Ports.getD [])) ∧
    (∀ (dst : ServiceDeploymentStatus) (svc : Service),
      svc.Spec.Ports = none ∨ svc.Spec.Ports = some [] →
      (fillFromServiceStatus dst svc).Ports = "") ∧
    (fillFromServiceStatus {}
        { Spec :=
            { Type_ := "ClusterIP"
              ClusterIP := "10.0.0.7"
              Ports := some [{ Port := 80 }, { Port := 443, Protocol := "TCP" },
                { Port := 53, Protocol := "UDP" }] } }).Ports = "80/TCP,443/TCP,53/UDP" := by
  refine ⟨?_, ?_, by decide⟩
  · intro dst svc
    exact ⟨rfl, rfl, intercalate_portsSummary _⟩
  · intro dst svc h
    rcases h with h | h <;> simp [fillFromServiceStatus, h, String.intercalate]

/-- C11 at concrete endpoints: a nil and an empty port list both give the empty string. -/
theorem fillFromServiceStatus_fields_witness :
    (fillFromServiceStatus { Ports := "80/TCP" } {}).Ports = "" ∧
      (fillFromServiceStatus { Ports := "80/TCP" } { Spec := { Ports := some [] } }).Ports = "" :=
  ⟨fillFromServiceStatus_fields.2.1 _ _ (Or.inl rfl),
    fillFromServiceStatus_fields.2.1 _ _ (Or.inr rfl)⟩

/-- C12: `SyncStatus` issues exactly one status patch when the projected status differs from the
descriptor's status and none when they are equal; in the equal case it returns nil and touches
neither the store nor the descriptor; when it patches, the patched object is the descriptor with
the projected status and its spec untouched, and the patch base is the deep copy taken before
the status was replaced, which carries the old status and the same metadata. -/
theorem syncStatus_patches_iff_changed {σ : Type} (r : reconciler σ)
    (selectorString : LabelSelector → Except Err String) (sd : ServiceDeployment)
    (dep : Deployment) (svc : Service) (s : σ) :
    ((∃ a ∈ (SyncStatus r selectorString sd dep svc ⟨s, []⟩).2.trace, a.isWrite = true) ↔
        sd.Status ≠
          fillFromServiceStatus (fillFromDeploymentStatus selectorString sd.Status sd dep) svc) ∧
      (sd.Status =
          fillFromServiceStatus (fillFromDeploymentStatus selectorString sd.Status sd dep) svc →
        SyncStatus r selectorString sd dep svc ⟨s, []⟩ = ((none, sd), ⟨s, []⟩)) ∧
      (sd.Status ≠
          fillFromServiceStatus (fillFromDeploymentStatus selectorString sd.Status sd dep) svc →
        (SyncStatus r selectorString sd dep svc ⟨s, []⟩).2.trace =
          [.patchStatus
            { sd with
              Status :=
                fillFromServiceStatus (fillFromDeploymentStatus selectorString sd.Status sd dep)
                  svc }
            sd.DeepCopyInto]) ∧
      sd.DeepCopyInto.Status = sd.Status ∧
      sd.DeepCopyInto.ObjectMeta = sd.ObjectMeta ∧
      ({ sd with
          Status :=
            fillFromServiceStatus (fillFromDeploymentStatus selectorString sd.Status sd dep)
              svc } : ServiceDeployment).Spec = sd.Spec := by
  have hpos : sd.Status =
      fillFromServiceStatus (fillFromDeploymentStatus selectorString sd.Status sd dep) svc →
      SyncStatus r selectorString sd dep svc ⟨s, []⟩ = ((none, sd), ⟨s, []⟩) := by
    intro h
    unfold SyncStatus
    dsimp only
    rw [if_pos h]
  have hneg : sd.Status ≠
      fillFromServiceStatus (fillFromDeploymentStatus selectorString sd.Status sd dep) svc →
      (SyncStatus r selectorString sd dep svc ⟨s, []⟩).2.trace =
        [.patchStatus
          { sd with
            Status :=
              fillFromServiceStatus (fillFromDeploymentStatus selectorString sd.Status sd dep)
                svc }
          sd.DeepCopyInto] := by
    intro h
    unfold SyncStatus
    dsimp only
    rw [if_neg h]
    simp only [World.call]
    split <;> rfl
  refine ⟨?_, hpos, hneg, rfl, rfl, rfl⟩
  constructor
  · rintro ⟨a, ha, hw⟩ heq
    rw [hpos heq] at ha
    simp at ha
  · intro h
    rw [hneg h]
    exact ⟨_, List.mem_singleton.2 rfl, rfl⟩

set_option maxRecDepth 100000 in
/-- C12 at a concrete descriptor: with the workload reporting two ready replicas the projected
status differs from the stored empty one and the trace is one patch. -/
theorem syncStatus_patches_iff_changed_witness :
    (SyncStatus storeReconciler witnessSelectorString witnessDescriptor
        { Status := { ReadyReplicas := 2, UpdatedReplicas := 3, AvailableReplicas := 2 } } {}
        ⟨witnessStore, []⟩).2.trace =
      [.patchStatus
        { witnessDescriptor with
          Status :=
            fillFromServiceStatus
              (fillFromDeploymentStatus witnessSelectorString witnessDescriptor.Status
                witnessDescriptor
                { Status :=
                    { ReadyReplicas := 2, UpdatedReplicas := 3, AvailableReplicas := 2 } })
              {} }
        witnessDescriptor.DeepCopyInto] :=
  (syncStatus_patches_iff_changed storeReconciler witnessSelectorString witnessDescriptor
    { Status := { ReadyReplicas := 2, UpdatedReplicas := 3, AvailableReplicas := 2 } } {}
    witnessStore).2.2.1 (by decide)

/-- C13, refuted as stated: two descriptors with the same spec whose stored statuses carry
different selector strings get different projected statuses from a workload that has no
selector. -/
theorem projection_inherits_selector :
    witnessDescriptor.Spec = staleDescriptor.Spec ∧
      fillFromServiceStatus
          (fillFromDeploymentStatus witnessSelectorString witnessDescriptor.Status
            witnessDescriptor {}) {} ≠
        fillFromServiceStatus
          (fillFromDeploymentStatus witnessSelectorString staleDescriptor.Status
            staleDescriptor {}) {} := by
  decide

/-- C13 as amended: for two descriptors that agree on spec, the projected statuses agree on
every field other than the selector string; they agree on the selector string too when the
workload has a selector that converts, and otherwise each keeps the selector string of its
previously stored status. -/
theorem projection_depends_on_status_only_through_selector
    (selectorString : LabelSelector → Except Err String) (sd1 sd2 : ServiceDeployment)
    (dep : Deployment) (svc : Service) (hspec : sd1.Spec = sd2.Spec) :
    ({ fillFromServiceStatus (fillFromDeploymentStatus selectorString sd1.Status sd1 dep) svc
          with Selector := "" } : ServiceDeploymentStatus) =
        { fillFromServiceStatus (fillFromDeploymentStatus selectorString sd2.Status sd2 dep) svc
          with Selector := "" } ∧
      (∀ sel str, dep.Spec.Selector = some sel → selectorString sel = .ok str →
        fillFromServiceStatus (fillFromDeploymentStatus selectorString sd1.Status sd1 dep) svc =
          fillFromServiceStatus (fillFromDeploymentStatus selectorString sd2.Status sd2 dep)
            svc) ∧
      ((dep.Spec.Selector = none ∨
          ∃ sel e, dep.Spec.Selector = some sel ∧ selectorString sel = .error e) →
        (fillFromServiceStatus (fillFromDeploymentStatus selectorString sd1.Status sd1 dep)
            svc).Selector = sd1.Status.Selector ∧
          (fillFromServiceStatus (fillFromDeploymentStatus selectorString sd2.Status sd2 dep)
            svc).Selector = sd2.Status.Selector) := by
  unfold fillFromServiceStatus fillFromDeploymentStatus
  rw [hspec]
  cases hsel : dep.Spec.Selector with
  | none => simp
  | some sel =>
    dsimp only
    cases hstr : selectorString sel with
    | ok str => simp [hstr]
    | error e =>
      simp only [true_and, reduceCtorEq, false_or, Option.some.injEq]
      refine ⟨?_, fun _ => trivial⟩
      intro sel1 str h1 h2
      subst h1
      rw [hstr] at h2
      cases h2

/-- C13 as amended, at the two concrete descriptors and a workload with the selector
`app=web`: the projected statuses are equal. -/
theorem projection_depends_on_status_only_through_selector_witness :
    fillFromServiceStatus
        (fillFromDeploymentStatus witnessSelectorString witnessDescriptor.Status
          witnessDescriptor (createdDeployment witnessDescriptor 2)) {} =
      fillFromServiceStatus
        (fillFromDeploymentStatus witnessSelectorString staleDescriptor.Status
          staleDescriptor (createdDeployment witnessDescriptor 2)) {} :=
  (projection_depends_on_status_only_through_selector witnessSelectorString witnessDescriptor
    staleDescriptor (createdDeployment witnessDescriptor 2) {} rfl).2.1 _ "app=web" rfl rfl

/-! ## Desired fields after the mutation functions -/

theorem lookup_mapSet (k v : String) (l : List (String × String)) :
    (mapSet k v l).lookup k = some v := by
  induction l with
  | nil => simp [mapSet, List.lookup]
  | cons x rest ih =>
    obtain ⟨k1, v1⟩ := x
    by_cases h : k1 = k
    · simp [mapSet, h, List.lookup]
    · have h2 : (k == k1) = false := by
        simp only [beq_eq_false_iff_ne, ne_eq]
        exact fun e => h e.symm
      simp [mapSet, h, List.lookup, h2, ih]

theorem SetControllerReference_labels (sd : ServiceDeployment) (meta : ObjectMeta)
    (scheme : Option GroupVersionKind) :
    (SetControllerReference sd meta scheme).1.Labels = meta.Labels := by
  rw [SetControllerReference_frame]

/-- C20: whatever the children looked like before, after the two mutation functions the
workload has the descriptor's replica count, the label `app` bound to the descriptor's name,
match-labels and pod-template labels exactly `app = name`, and the descriptor's containers; the
endpoint has the descriptor's service type and ports and the selector exactly `app = name`,
which is the workload's pod-template label set. -/
theorem mutateFns_set_desired_fields {σ : Type} (r : reconciler σ) (sd : ServiceDeployment)
    (dep : Deployment) (svc : Service) :
    (deploymentMutateFn r sd dep).1.Spec.Replicas = some sd.Spec.Replicas ∧
      ((deploymentMutateFn r sd dep).1.ObjectMeta.Labels.getD []).lookup "app" =
        some sd.ObjectMeta.Name ∧
      (deploymentMutateFn r sd dep).1.Spec.Selector =
        some { MatchLabels := some [("app", sd.ObjectMeta.Name)] } ∧
      (deploymentMutateFn r sd dep).1.Spec.Template.ObjectMeta.Labels =
        some [("app", sd.ObjectMeta.Name)] ∧
      (deploymentMutateFn r sd dep).1.Spec.Template.Spec.Containers = sd.Spec.Containers ∧
      (serviceMutateFn r sd svc).1.Spec.Type_ = sd.Spec.Service.Type_ ∧
      (serviceMutateFn r sd svc).1.Spec.Ports = sd.Spec.Service.Ports ∧
      (serviceMutateFn r sd svc).1.Spec.Selector = some [("app", sd.ObjectMeta.Name)] ∧
      (serviceMutateFn r sd svc).1.Spec.Selector =
        (deploymentMutateFn r sd dep).1.Spec.Template.ObjectMeta.Labels := by
  refine ⟨rfl, ?_, rfl, rfl, rfl, rfl, rfl, rfl, rfl⟩
  unfold deploymentMutateFn
  dsimp only
  rw [SetControllerReference_labels]
  exact lookup_mapSet _ _ _

/-! ## The shape of a reconcile pass of a present descriptor -/

theorem SyncStatus_frame {σ : Type} (r : reconciler σ)
    (selectorString : LabelSelector → Except Err String) (sd : ServiceDeployment)
    (dep : Deployment) (svc : Service) (s : σ) (t : List Action) :
    SyncStatus r selectorString sd dep svc ⟨s, t⟩ =
      ((SyncStatus r selectorString sd dep svc ⟨s, []⟩).1,
        ⟨(SyncStatus r selectorString sd dep svc ⟨s, []⟩).2.st,
          t ++ (SyncStatus r selectorString sd dep svc ⟨s, []⟩).2.trace⟩) := by
  unfold SyncStatus
  dsimp only
  split
  · simp
  · simp only [World.call]
    split <;> simp

theorem reconcile_of_present {σ : Type} (r : reconciler σ)
    (selectorString : LabelSelector → Except Err String) (req : Request) (s : σ)
    (sd : ServiceDeployment) (hget : (r.Client.Get req.NamespacedName s).1 = .ok sd) :
    Reconcile r selectorString req ⟨s, []⟩ =
      reconcileDeployment r selectorString (req.NamespacedName.Name ++ "-svc") sd
        ⟨afterLoad r req s,
          [.logInfo "Reconciling servicedeployment...",
            .getServiceDeployment req.NamespacedName]⟩ := by
  unfold Reconcile
  simp only [World.call, World.emit, hget, afterLoad, List.nil_append, List.singleton_append]

theorem reconcileDeployment_of_error {σ : Type} (r : reconciler σ)
    (selectorString : LabelSelector → Except Err String) (svcName : String)
    (sd : ServiceDeployment) (s : σ) (t : List Action) (err : Err)
    (h : (applyDeployment r sd s).1.2.1 = some err) :
    reconcileDeployment r selectorString svcName sd ⟨s, t⟩ =
      if IsConflict err = true then
        (({ Requeue := true }, none),
          ⟨(applyDeployment r sd s).2.st,
            t ++ (applyDeployment r sd s).2.trace ++
              [.logInfo "deployment update conflicted, will retry"]⟩)
      else
        (({}, some (.wrapped "apply deployment: " err)),
          ⟨(applyDeployment r sd s).2.st,
            t ++ (applyDeployment r sd s).2.trace ++
              [.event (subjectOf sd) EventTypeWarning "ApplyDeploymentFailed"
                "Failed to apply Deployment %q: %v"
                [(applyDeployment r sd s).1.2.2.ObjectMeta.Name, err.Error]]⟩) := by
  unfold applyDeployment at h ⊢
  unfold reconcileDeployment
  dsimp only
  rw [CreateOrUpdate_frame]
  simp only [h, World.emit]

theorem reconcileDeployment_of_ok {σ : Type} (r : reconciler σ)
    (selectorString : LabelSelector → Except Err String) (svcName : String)
    (sd : ServiceDeployment) (s : σ) (t : List Action)
    (h : (applyDeployment r sd s).1.2.1 = none) :
    reconcileDeployment r selectorString svcName sd ⟨s, t⟩ =
      reconcileService r selectorString svcName sd (applyDeployment r sd s).1.2.2
        ⟨(applyDeployment r sd s).2.st,
          t ++ (applyDeployment r sd s).2.trace ++
            auditRecordsFor "Deployment" (subjectOf sd) (applyDeployment r sd s).1.1
              (applyDeployment r sd s).1.2.2.ObjectMeta.Name⟩ := by
  unfold applyDeployment at h ⊢
  unfold reconcileDeployment
  dsimp only
  rw [CreateOrUpdate_frame]
  simp only [h]
  congr 1
  cases (CreateOrUpdate (deploymentOps r)
    { ObjectMeta := { Name := sd.ObjectMeta.Name, Namespace := sd.ObjectMeta.Namespace } }
    (deploymentMutateFn r sd) ⟨s, []⟩).1.1 <;>
    simp [World.emit, auditRecordsFor, EventTypeNormal]

theorem reconcileService_of_error {σ : Type} (r : reconciler σ)
    (selectorString : LabelSelector → Except Err String) (svcName : String)
    (sd : ServiceDeployment) (dep : Deployment) (s : σ) (t : List Action) (err : Err)
    (h : (applyService r svcName sd s).1.2.1 = some err) :
    reconcileService r selectorString svcName sd dep ⟨s, t⟩ =
      (({}, some (.wrapped "apply service: " err)),
        ⟨(applyService r svcName sd s).2.st,
          t ++ (applyService r svcName sd s).2.trace ++
            [.event (subjectOf sd) EventTypeWarning "ApplyServiceFailed"
              "Failed to apply Service %q: %v"
              [(applyService r svcName sd s).1.2.2.ObjectMeta.Name, err.Error]]⟩) := by
  unfold applyService at h ⊢
  unfold reconcileService
  dsimp only
  rw [CreateOrUpdate_frame]
  simp only [h, World.emit]

theorem reconcileService_of_ok {σ : Type} (r : reconciler σ)
    (selectorString : LabelSelector → Except Err String) (svcName : String)
    (sd : ServiceDeployment) (dep : Deployment) (s : σ) (t : List Action)
    (h : (applyService r svcName sd s).1.2.1 = none) :
    reconcileService r selectorString svcName sd dep ⟨s, t⟩ =
      reconcileStatus r selectorString sd dep (applyService r svcName sd s).1.2.2
        ⟨(applyService r svcName sd s).2.st,
          t ++ (applyService r svcName sd s).2.trace ++
            auditRecordsFor "Service" (subjectOf sd) (applyService r svcName sd s).1.1
              (applyService r svcName sd s).1.2.2.ObjectMeta.Name⟩ := by
  unfold applyService at h ⊢
  unfold reconcileService
  dsimp only
  rw [CreateOrUpdate_frame]
  simp only [h]
  congr 1
  cases (CreateOrUpdate (serviceOps r)
    { ObjectMeta := { Name := svcName, Namespace := sd.ObjectMeta.Namespace } }
    (serviceMutateFn r sd) ⟨s, []⟩).1.1 <;>
    simp [World.emit, auditRecordsFor, EventTypeNormal]

theorem reconcileStatus_eq {σ : Type} (r : reconciler σ)
    (selectorString : LabelSelector → Except Err String)
    (sd : ServiceDeployment) (dep : Deployment) (svc : Service) (s : σ) (t : List Action) :
    reconcileStatus r selectorString sd dep svc ⟨s, t⟩ =
      (({}, none),
        ⟨(SyncStatus r selectorString sd dep svc ⟨s, []⟩).2.st,
          t ++ (SyncStatus r selectorString sd dep svc ⟨s, []⟩).2.trace ++
            (match (SyncStatus r selectorString sd dep svc ⟨s, []⟩).1.1 with
              | some err => [.logError err "failed to sync status with deployment or service"]
              | none => []) ++
            [.logInfo "reconciled"]⟩) := by
  unfold reconcileStatus
  dsimp only
  rw [SyncStatus_frame]
  cases (SyncStatus r selectorString sd dep svc ⟨s, []⟩).1.1 <;> simp [World.emit]

theorem applyDeployment_trace_calls {σ : Type} (r : reconciler σ) (sd : ServiceDeployment)
    (s : σ) : ∀ x ∈ (applyDeployment r sd s).2.trace, x.isDeploymentCall = true := by
  intro x hx
  rcases CreateOrUpdate_trace (deploymentOps r) _ _ s x hx with ⟨k, hk⟩ | ⟨o, ho⟩ | ⟨o, ho⟩ <;>
    subst x <;> rfl

theorem applyService_trace_calls {σ : Type} (r : reconciler σ) (svcName : String)
    (sd : ServiceDeployment) (s : σ) :
    ∀ x ∈ (applyService r svcName sd s).2.trace, x.isServiceCall = true := by
  intro x hx
  rcases CreateOrUpdate_trace (serviceOps r) _ _ s x hx with ⟨k, hk⟩ | ⟨o, ho⟩ | ⟨o, ho⟩ <;>
    subst x <;> rfl

theorem SyncStatus_trace {σ : Type} (r : reconciler σ)
    (selectorString : LabelSelector → Except Err String) (sd : ServiceDeployment)
    (dep : Deployment) (svc : Service) (s : σ) :
    (SyncStatus r selectorString sd dep svc ⟨s, []⟩).2.trace =
      if sd.Status =
          fillFromServiceStatus (fillFromDeploymentStatus selectorString sd.Status sd dep) svc
      then []
      else
        [.patchStatus
          { sd with
            Status :=
              fillFromServiceStatus (fillFromDeploymentStatus selectorString sd.Status sd dep)
                svc }
          sd.DeepCopyInto] := by
  unfold SyncStatus
  dsimp only
  split
  · rfl
  · simp only [World.call]
    split <;> rfl

theorem reconcile_of_deployment_error {σ : Type} (r : reconciler σ)
    (selectorString : LabelSelector → Except Err String) (req : Request) (s : σ)
    (sd : ServiceDeployment) (err : Err)
    (hget : (r.Client.Get req.NamespacedName s).1 = .ok sd)
    (hdep : (applyDeployment r sd (afterLoad r req s)).1.2.1 = some err) :
    Reconcile r selectorString req ⟨s, []⟩ =
      if IsConflict err = true then
        (({ Requeue := true }, none),
          ⟨(applyDeployment r sd (afterLoad r req s)).2.st,
            [.logInfo "Reconciling servicedeployment...",
              .getServiceDeployment req.NamespacedName] ++
              (applyDeployment r sd (afterLoad r req s)).2.trace ++
              [.logInfo "deployment update conflicted, will retry"]⟩)
      else
        (({}, some (.wrapped "apply deployment: " err)),
          ⟨(applyDeployment r sd (afterLoad r req s)).2.st,
            [.logInfo "Reconciling servicedeployment...",
              .getServiceDeployment req.NamespacedName] ++
              (applyDeployment r sd (afterLoad r req s)).2.trace ++
              [.event (subjectOf sd) EventTypeWarning "ApplyDeploymentFailed"
                "Failed to apply Deployment %q: %v"
                [(applyDeployment r sd (afterLoad r req s)).1.2.2.ObjectMeta.Name,
                  err.Error]]⟩) := by
  rw [reconcile_of_present r selectorString req s sd hget,
    reconcileDeployment_of_error r selectorString _ sd _ _ err hdep]

theorem reconcile_of_service_error {σ : Type} (r : reconciler σ)
    (selectorString : LabelSelector → Except Err String) (req : Request) (s : σ)
    (sd : ServiceDeployment) (err : Err)
    (hget : (r.Client.Get req.NamespacedName s).1 = .ok sd)
    (hdep : (applyDeployment r sd (afterLoad r req s)).1.2.1 = none)
    (hsvc : (applyService r (req.NamespacedName.Name ++ "-svc") sd
      (applyDeployment r sd (afterLoad r req s)).2.st).1.2.1 = some err) :
    Reconcile r selectorString req ⟨s, []⟩ =
      (({}, some (.wrapped "apply service: " err)),
        ⟨(applyService r (req.NamespacedName.Name ++ "-svc") sd
            (applyDeployment r sd (afterLoad r req s)).2.st).2.st,
          [.logInfo "Reconciling servicedeployment...",
            .getServiceDeployment req.NamespacedName] ++
            (applyDeployment r sd (afterLoad r req s)).2.trace ++
            auditRecordsFor "Deployment" (subjectOf sd)
              (applyDeployment r sd (afterLoad r req s)).1.1
              (applyDeployment r sd (afterLoad r req s)).1.2.2.ObjectMeta.Name ++
            (applyService r (req.NamespacedName.Name ++ "-svc") sd
              (applyDeployment r sd (afterLoad r req s)).2.st).2.trace ++
            [.event (subjectOf sd) EventTypeWarning "ApplyServiceFailed"
              "Failed to apply Service %q: %v"
              [(applyService r (req.NamespacedName.Name ++ "-svc") sd
                (applyDeployment r sd (afterLoad r req s)).2.st).1.2.2.ObjectMeta.Name,
                err.Error]]⟩) := by
  rw [reconcile_of_present r selectorString req s sd hget,
    reconcileDeployment_of_ok r selectorString _ sd _ _ hdep,
    reconcileService_of_error r selectorString _ sd _ _ _ err hsvc]

theorem reconcile_of_applied {σ : Type} (r : reconciler σ)
    (selectorString : LabelSelector → Except Err String) (req : Request) (s : σ)
    (sd : ServiceDeployment)
    (hget : (r.Client.Get req.NamespacedName s).1 = .ok sd)
    (hdep : (applyDeployment r sd (afterLoad r req s)).1.2.1 = none)
    (hsvc : (applyService r (req.NamespacedName.Name ++ "-svc") sd
      (applyDeployment r sd (afterLoad r req s)).2.st).1.2.1 = none) :
    Reconcile r selectorString req ⟨s, []⟩ =
      (({}, none),
        ⟨(SyncStatus r selectorString sd (applyDeployment r sd (afterLoad r req s)).1.2.2
            (applyService r (req.NamespacedName.Name ++ "-svc") sd
              (applyDeployment r sd (afterLoad r req s)).2.st).1.2.2
            ⟨(applyService r (req.NamespacedName.Name ++ "-svc") sd
              (applyDeployment r sd (afterLoad r req s)).2.st).2.st, []⟩).2.st,
          [.logInfo "Reconciling servicedeployment...",
            .getServiceDeployment req.NamespacedName] ++
            (applyDeployment r sd (afterLoad r req s)).2.trace ++
            auditRecordsFor "Deployment" (subjectOf sd)
              (applyDeployment r sd (afterLoad r req s)).1.1
              (applyDeployment r sd (afterLoad r req s)).1.2.2.ObjectMeta.Name ++
            (applyService r (req.NamespacedName.Name ++ "-svc") sd
              (applyDeployment r sd (afterLoad r req s)).2.st).2.trace ++
            auditRecordsFor "Service" (subjectOf sd)
              (applyService r (req.NamespacedName.Name ++ "-svc") sd
                (applyDeployment r sd (afterLoad r req s)).2.st).1.1
              (applyService r (req.NamespacedName.Name ++ "-svc") sd
                (applyDeployment r sd (afterLoad r req s)).2.st).1.2.2.ObjectMeta.Name ++
            (SyncStatus r selectorString sd (applyDeployment r sd (afterLoad r req s)).1.2.2
              (applyService r (req.NamespacedName.Name ++ "-svc") sd
                (applyDeployment r sd (afterLoad r req s)).2.st).1.2.2
              ⟨(applyService r (req.NamespacedName.Name ++ "-svc") sd
                (applyDeployment r sd (afterLoad r req s)).2.st).2.st, []⟩).2.trace ++
            (match (SyncStatus r selectorString sd
                (applyDeployment r sd (afterLoad r req s)).1.2.2
                (applyService r (req.NamespacedName.Name ++ "-svc") sd
                  (applyDeployment r sd (afterLoad r req s)).2.st).1.2.2
                ⟨(applyService r (req.NamespacedName.Name ++ "-svc") sd
                  (applyDeployment r sd (afterLoad r req s)).2.st).2.st, []⟩).1.1 with
              | some e => [.logError e "failed to sync status with deployment or service"]
              | none => []) ++
            [.logInfo "reconciled"]⟩) := by
  rw [reconcile_of_present r selectorString req s sd hget,
    reconcileDeployment_of_ok r selectorString _ sd _ _ hdep,
    reconcileService_of_ok r selectorString _ sd _ _ _ hsvc, reconcileStatus_eq]

/-! ## What a pass records and in which order -/

theorem filter_nil_of_forall {α : Type} (p : α → Bool) (l : List α)
    (h : ∀ x ∈ l, p x = false) : l.filter p = [] := by
  induction l with
  | nil => rfl
  | cons a rest ih =>
    have ha := h a (List.mem_cons_self _ _)
    simp only [List.filter_cons, ha, Bool.false_eq_true, if_false]
    exact ih (fun x hx => h x (List.mem_cons_of_mem _ hx))

theorem filter_self_of_forall {α : Type} (p : α → Bool) (l : List α)
    (h : ∀ x ∈ l, p x = true) : l.filter p = l := by
  induction l with
  | nil => rfl
  | cons a rest ih =>
    have ha := h a (List.mem_cons_self _ _)
    simp only [List.filter_cons, ha, if_true]
    rw [ih (fun x hx => h x (List.mem_cons_of_mem _ hx))]

theorem applyDeployment_no_event {σ : Type} (r : reconciler σ) (sd : ServiceDeployment)
    (s : σ) (t : String) :
    (applyDeployment r sd s).2.trace.filter (Action.isEventOfType t) = [] ∧
      (applyDeployment r sd s).2.trace.filter Action.isEvent = [] ∧
      (applyDeployment r sd s).2.trace.filter Action.isStoreCall =
        (applyDeployment r sd s).2.trace := by
  have h := applyDeployment_trace_calls r sd s
  refine ⟨filter_nil_of_forall _ _ ?_, filter_nil_of_forall _ _ ?_,
    filter_self_of_forall _ _ ?_⟩ <;>
  · intro x hx
    have hx1 := h x hx
    cases x <;> simp_all [Action.isDeploymentCall, Action.isEventOfType, Action.isEvent,
      Action.isStoreCall]

theorem applyService_no_event {σ : Type} (r : reconciler σ) (svcName : String)
    (sd : ServiceDeployment) (s : σ) (t : String) :
    (applyService r svcName sd s).2.trace.filter (Action.isEventOfType t) = [] ∧
      (applyService r svcName sd s).2.trace.filter Action.isEvent = [] ∧
      (applyService r svcName sd s).2.trace.filter Action.isStoreCall =
        (applyService r svcName sd s).2.trace := by
  have h := applyService_trace_calls r svcName sd s
  refine ⟨filter_nil_of_forall _ _ ?_, filter_nil_of_forall _ _ ?_,
    filter_self_of_forall _ _ ?_⟩ <;>
  · intro x hx
    have hx1 := h x hx
    cases x <;> simp_all [Action.isServiceCall, Action.isEventOfType, Action.isEvent,
      Action.isStoreCall]

theorem auditRecordsFor_filter (kind : String) (subject : NamespacedName)
    (outcome : OperationResult) (name : String) :
    (auditRecordsFor kind subject outcome name).filter (Action.isEventOfType "Warning") = [] ∧
      (auditRecordsFor kind subject outcome name).filter Action.isEvent =
        auditRecordsFor kind subject outcome name ∧
      (auditRecordsFor kind subject outcome name).filter Action.isStoreCall = [] := by
  cases outcome <;>
    simp [auditRecordsFor, Action.isEventOfType, Action.isEvent, Action.isStoreCall]

theorem SyncStatus_no_event {σ : Type} (r : reconciler σ)
    (selectorString : LabelSelector → Except Err String) (sd : ServiceDeployment)
    (dep : Deployment) (svc : Service) (s : σ) (t : String) :
    (SyncStatus r selectorString sd dep svc ⟨s, []⟩).2.trace.filter
        (Action.isEventOfType t) = [] ∧
      (SyncStatus r selectorString sd dep svc ⟨s, []⟩).2.trace.filter Action.isEvent = [] ∧
      (SyncStatus r selectorString sd dep svc ⟨s, []⟩).2.trace.filter Action.isStoreCall =
        (SyncStatus r selectorString sd dep svc ⟨s, []⟩).2.trace := by
  rw [SyncStatus_trace]
  split <;> simp [Action.isEventOfType, Action.isEvent, Action.isStoreCall]

/-- C17: when the descriptor is present and applying the Deployment fails with an error that is
not a Conflict, the reconcile returns no requeue and the apply error wrapped in "apply
deployment: ", and the Warning events of the pass are exactly one, recorded against the
descriptor. -/
theorem reconcile_deployment_failure_is_warning {σ : Type} (r : reconciler σ)
    (selectorString : LabelSelector → Except Err String) (req : Request) (s : σ)
    (sd : ServiceDeployment) (err : Err)
    (hget : (r.Client.Get req.NamespacedName s).1 = .ok sd)
    (hdep : (applyDeployment r sd (afterLoad r req s)).1.2.1 = some err)
    (hconf : IsConflict err = false) :
    (Reconcile r selectorString req ⟨s, []⟩).1 =
        ({ Requeue := false }, some (.wrapped "apply deployment: " err)) ∧
      (Reconcile r selectorString req ⟨s, []⟩).2.trace.filter
          (Action.isEventOfType "Warning") =
        [.event { Namespace := sd.ObjectMeta.Namespace, Name := sd.ObjectMeta.Name } "Warning"
          "ApplyDeploymentFailed" "Failed to apply Deployment %q: %v"
          [(applyDeployment r sd (afterLoad r req s)).1.2.2.ObjectMeta.Name, err.Error]] ∧
      ReasonForError (.wrapped "apply deployment: " err) = ReasonForError err := by
  rw [reconcile_of_deployment_error r selectorString req s sd err hget hdep,
    if_neg (by simp [hconf])]
  refine ⟨rfl, ?_, rfl⟩
  simp only [List.filter_append, (applyDeployment_no_event r sd _ "Warning").1]
  simp [Action.isEventOfType, EventTypeWarning, subjectOf]

set_option maxRecDepth 100000 in
/-- C17 at a concrete fault: the Deployment lookup of the apply times out. -/
theorem reconcile_deployment_failure_is_warning_witness :
    (Reconcile childTimeoutReconciler witnessSelectorString witnessRequest
        ⟨witnessStore, []⟩).1 =
        ({ Requeue := false },
          some (.wrapped "apply deployment: "
            (.status .Timeout "context deadline exceeded"))) ∧
      (Reconcile childTimeoutReconciler witnessSelectorString witnessRequest
          ⟨witnessStore, []⟩).2.trace.filter (Action.isEventOfType "Warning") =
        [.event { Namespace := "default", Name := "web" } "Warning"
          "ApplyDeploymentFailed" "Failed to apply Deployment %q: %v"
          ["web", "context deadline exceeded"]] ∧
      ReasonForError
          (.wrapped "apply deployment: " (.status .Timeout "context deadline exceeded")) =
        ReasonForError (.status .Timeout "context deadline exceeded") :=
  reconcile_deployment_failure_is_warning childTimeoutReconciler witnessSelectorString
    witnessRequest witnessStore witnessDescriptor (.status .Timeout "context deadline exceeded")
    rfl (by decide) (by decide)

/-- C14: when the descriptor is present and both child applies succeed, the reconcile returns a
nil error and no requeue whatever `SyncStatus` returns; an error of `SyncStatus` only shows as
an error log line of the pass. -/
theorem reconcile_ignores_status_sync_failure {σ : Type} (r : reconciler σ)
    (selectorString : LabelSelector → Except Err String) (req : Request) (s : σ)
    (sd : ServiceDeployment)
    (hget : (r.Client.Get req.NamespacedName s).1 = .ok sd)
    (hdep : (applyDeployment r sd (afterLoad r req s)).1.2.1 = none)
    (hsvc : (applyService r (req.NamespacedName.Name ++ "-svc") sd
      (applyDeployment r sd (afterLoad r req s)).2.st).1.2.1 = none) :
    (Reconcile r selectorString req ⟨s, []⟩).1 = ({ Requeue := false }, none) ∧
      ∀ e,
        (SyncStatus r selectorString sd (applyDeployment r sd (afterLoad r req s)).1.2.2
          (applyService r (req.NamespacedName.Name ++ "-svc") sd
            (applyDeployment r sd (afterLoad r req s)).2.st).1.2.2
          ⟨(applyService r (req.NamespacedName.Name ++ "-svc") sd
            (applyDeployment r sd (afterLoad r req s)).2.st).2.st, []⟩).1.1 = some e →
        .logError e "failed to sync status with deployment or service" ∈
          (Reconcile r selectorString req ⟨s, []⟩).2.trace := by
  rw [reconcile_of_applied r selectorString req s sd hget hdep hsvc]
  refine ⟨rfl, ?_⟩
  intro e he
  simp only [he, List.mem_append, List.mem_singleton]
  exact Or.inl (Or.inr trivial)

set_option maxRecDepth 100000 in
/-- C14 at a concrete fault: both children are created and the status patch times out. -/
theorem reconcile_ignores_status_sync_failure_witness :
    (Reconcile patchTimeoutReconciler witnessSelectorString witnessRequest
        ⟨witnessStore, []⟩).1 = ({ Requeue := false }, none) ∧
      .logError (.status .Timeout "context deadline exceeded")
          "failed to sync status with deployment or service" ∈
        (Reconcile patchTimeoutReconciler witnessSelectorString witnessRequest
          ⟨witnessStore, []⟩).2.trace :=
  ⟨(reconcile_ignores_status_sync_failure patchTimeoutReconciler witnessSelectorString
      witnessRequest witnessStore witnessDescriptor rfl (by decide) (by decide)).1,
    (reconcile_ignores_status_sync_failure patchTimeoutReconciler witnessSelectorString
      witnessRequest witnessStore witnessDescriptor rfl (by decide) (by decide)).2 _
      (by decide)⟩

set_option maxRecDepth 100000 in
/-- C15, the code at the failing input: the stored endpoint has drifted and another writer
touches it between the reconciler's read and its update; the update fails with a Conflict, and
the reconcile records a Warning event and returns the wrapped error without a requeue. -/
theorem reconcile_service_conflict_is_error :
    (applyService racingEndpointReconciler "web-svc" witnessDescriptor
        (applyDeployment racingEndpointReconciler witnessDescriptor
          driftedEndpointStore).2.st).1.2.1 =
        some (.status .Conflict "the object has been modified") ∧
      (Reconcile racingEndpointReconciler witnessSelectorString witnessRequest
        ⟨driftedEndpointStore, []⟩).1 =
        ({ Requeue := false },
          some (.wrapped "apply service: " (.status .Conflict "the object has been modified"))) ∧
      (Reconcile racingEndpointReconciler witnessSelectorString witnessRequest
          ⟨driftedEndpointStore, []⟩).2.trace.filter (Action.isEventOfType "Warning") =
        [.event { Namespace := "default", Name := "web" } "Warning" "ApplyServiceFailed"
          "Failed to apply Service %q: %v" ["web-svc", "the object has been modified"]] := by
  refine ⟨by decide, by decide, by decide⟩

theorem isConflict_of_isAlreadyExists (err : Err) (h : IsAlreadyExists err = true) :
    IsConflict err = false := by
  unfold IsAlreadyExists at h
  unfold IsConflict
  cases hr : ReasonForError err with
  | none => simp [hr] at h
  | some reason =>
    simp only [hr, beq_iff_eq, Option.some.injEq] at h
    subst h
    decide

set_option maxRecDepth 100000 in
/-- C16, refuted as stated: another actor creates the workload between the reconciler's read and
its create; the create fails with AlreadyExists, and the reconcile returns a non-nil error and
records a Warning event. -/
theorem reconcile_already_exists_is_not_success :
    (applyDeployment workloadCreateRaceReconciler witnessDescriptor witnessStore).1.2.1 =
        some (.status .AlreadyExists "already exists") ∧
      IsAlreadyExists (.status .AlreadyExists "already exists") = true ∧
      (Reconcile workloadCreateRaceReconciler witnessSelectorString witnessRequest
        ⟨witnessStore, []⟩).1.2 ≠ none ∧
      (∃ a ∈ (Reconcile workloadCreateRaceReconciler witnessSelectorString witnessRequest
          ⟨witnessStore, []⟩).2.trace, a.isEventOfType "Warning" = true) := by
  refine ⟨by decide, by decide, by decide, by decide⟩

/-- C16 as amended: when the descriptor is present and creating a child fails with
AlreadyExists, the reconcile treats it as any other apply failure that is not a Conflict: it
returns no requeue and the AlreadyExists error wrapped in "apply deployment: " or "apply
service: ", and the Warning events of the pass are exactly one, about that child. -/
theorem reconcile_already_exists_is_apply_failure {σ : Type} (r : reconciler σ)
    (selectorString : LabelSelector → Except Err String) (req : Request) (s : σ)
    (sd : ServiceDeployment)
    (hget : (r.Client.Get req.NamespacedName s).1 = .ok sd) :
    (∀ err, (applyDeployment r sd (afterLoad r req s)).1.2.1 = some err →
        IsAlreadyExists err = true →
        (Reconcile r selectorString req ⟨s, []⟩).1 =
            ({ Requeue := false }, some (.wrapped "apply deployment: " err)) ∧
          (Reconcile r selectorString req ⟨s, []⟩).2.trace.filter
              (Action.isEventOfType "Warning") =
            [.event { Namespace := sd.ObjectMeta.Namespace, Name := sd.ObjectMeta.Name }
              "Warning" "ApplyDeploymentFailed" "Failed to apply Deployment %q: %v"
              [(applyDeployment r sd (afterLoad r req s)).1.2.2.ObjectMeta.Name, err.Error]]) ∧
      (∀ err, (applyDeployment r sd (afterLoad r req s)).1.2.1 = none →
        (applyService r (req.NamespacedName.Name ++ "-svc") sd
          (applyDeployment r sd (afterLoad r req s)).2.st).1.2.1 = some err →
        IsAlreadyExists err = true →
        (Reconcile r selectorString req ⟨s, []⟩).1 =
            ({ Requeue := false }, some (.wrapped "apply service: " err)) ∧
          (Reconcile r selectorString req ⟨s, []⟩).2.trace.filter
              (Action.isEventOfType "Warning") =
            [.event { Namespace := sd.ObjectMeta.Namespace, Name := sd.ObjectMeta.Name }
              "Warning" "ApplyServiceFailed" "Failed to apply Service %q: %v"
              [(applyService r (req.NamespacedName.Name ++ "-svc") sd
                (applyDeployment r sd (afterLoad r req s)).2.st).1.2.2.ObjectMeta.Name,
                err.Error]]) := by
  constructor
  · intro err hdep hae
    have hconf := isConflict_of_isAlreadyExists err hae
    rw [reconcile_of_deployment_error r selectorString req s sd err hget hdep,
      if_neg (by simp [hconf])]
    refine ⟨rfl, ?_⟩
    simp only [List.filter_append, (applyDeployment_no_event r sd _ "Warning").1]
    simp [Action.isEventOfType, EventTypeWarning, subjectOf]
  · intro err hdep hsvc _
    rw [reconcile_of_service_error r selectorString req s sd err hget hdep hsvc]
    refine ⟨rfl, ?_⟩
    simp only [List.filter_append, (applyDeployment_no_event r sd _ "Warning").1,
      (applyService_no_event r _ sd _ "Warning").1, (auditRecordsFor_filter _ _ _ _).1]
    simp [Action.isEventOfType, EventTypeWarning, subjectOf]

set_option maxRecDepth 100000 in
/-- C16 as amended, at two concrete races: another actor creates the workload first, and
another actor creates the endpoint first. -/
theorem reconcile_already_exists_is_apply_failure_witness :
    ((Reconcile workloadCreateRaceReconciler witnessSelectorString witnessRequest
        ⟨witnessStore, []⟩).1 =
        ({ Requeue := false },
          some (.wrapped "apply deployment: " (.status .AlreadyExists "already exists"))) ∧
      (Reconcile workloadCreateRaceReconciler witnessSelectorString witnessRequest
          ⟨witnessStore, []⟩).2.trace.filter (Action.isEventOfType "Warning") =
        [.event { Namespace := "default", Name := "web" } "Warning" "ApplyDeploymentFailed"
          "Failed to apply Deployment %q: %v" ["web", "already exists"]]) ∧
    ((Reconcile endpointCreateRaceReconciler witnessSelectorString witnessRequest
        ⟨witnessStore, []⟩).1 =
        ({ Requeue := false },
          some (.wrapped "apply service: " (.status .AlreadyExists "already exists"))) ∧
      (Reconcile endpointCreateRaceReconciler witnessSelectorString witnessRequest
          ⟨witnessStore, []⟩).2.trace.filter (Action.isEventOfType "Warning") =
        [.event { Namespace := "default", Name := "web" } "Warning" "ApplyServiceFailed"
          "Failed to apply Service %q: %v" ["web-svc", "already exists"]]) :=
  ⟨(reconcile_already_exists_is_apply_failure workloadCreateRaceReconciler
      witnessSelectorString witnessRequest witnessStore witnessDescriptor rfl).1
      (.status .AlreadyExists "already exists") (by decide) (by decide),
    (reconcile_already_exists_is_apply_failure endpointCreateRaceReconciler
      witnessSelectorString witnessRequest witnessStore witnessDescriptor rfl).2
      (.status .AlreadyExists "already exists") (by decide) (by decide) (by decide)⟩

/-- C18: when the descriptor is present and the Deployment apply succeeds, the audit events of
the pass are the records the specification asks for the Deployment outcome, followed, when the
Service apply succeeds too, by the records for the Service outcome and no Warning at all, and
otherwise by the one Warning of the failed Service apply; the records for an outcome are one
Normal record for Created, one for Updated and none for Unchanged. -/
theorem reconcile_records_follow_outcome {σ : Type} (r : reconciler σ)
    (selectorString : LabelSelector → Except Err String) (req : Request) (s : σ)
    (sd : ServiceDeployment)
    (hget : (r.Client.Get req.NamespacedName s).1 = .ok sd)
    (hdep : (applyDeployment r sd (afterLoad r req s)).1.2.1 = none) :
    ((applyService r (req.NamespacedName.Name ++ "-svc") sd
          (applyDeployment r sd (afterLoad r req s)).2.st).1.2.1 = none →
        (Reconcile r selectorString req ⟨s, []⟩).2.trace.filter Action.isEvent =
            auditRecordsFor "Deployment" (subjectOf sd)
                (applyDeployment r sd (afterLoad r req s)).1.1
                (applyDeployment r sd (afterLoad r req s)).1.2.2.ObjectMeta.Name ++
              auditRecordsFor "Service" (subjectOf sd)
                (applyService r (req.NamespacedName.Name ++ "-svc") sd
                  (applyDeployment r sd (afterLoad r req s)).2.st).1.1
                (applyService r (req.NamespacedName.Name ++ "-svc") sd
                  (applyDeployment r sd (afterLoad r req s)).2.st).1.2.2.ObjectMeta.Name ∧
          (Reconcile r selectorString req ⟨s, []⟩).2.trace.filter
            (Action.isEventOfType "Warning") = []) ∧
      (∀ err,
        (applyService r (req.NamespacedName.Name ++ "-svc") sd
          (applyDeployment r sd (afterLoad r req s)).2.st).1.2.1 = some err →
        (Reconcile r selectorString req ⟨s, []⟩).2.trace.filter Action.isEvent =
          auditRecordsFor "Deployment" (subjectOf sd)
              (applyDeployment r sd (afterLoad r req s)).1.1
              (applyDeployment r sd (afterLoad r req s)).1.2.2.ObjectMeta.Name ++
            [.event (subjectOf sd) "Warning" "ApplyServiceFailed"
              "Failed to apply Service %q: %v"
              [(applyService r (req.NamespacedName.Name ++ "-svc") sd
                (applyDeployment r sd (afterLoad r req s)).2.st).1.2.2.ObjectMeta.Name,
                err.Error]]) ∧
      (∀ (kind : String) (subject : NamespacedName) (name : String),
        auditRecordsFor kind subject .Created name =
            [.event subject "Normal" (kind ++ "Created") ("Created " ++ kind ++ " %q") [name]] ∧
          auditRecordsFor kind subject .Updated name =
            [.event subject "Normal" (kind ++ "Updated") ("Updated " ++ kind ++ " %q") [name]] ∧
          auditRecordsFor kind subject .None name = []) := by
  refine ⟨?_, ?_, fun _ _ _ => ⟨rfl, rfl, rfl⟩⟩
  · intro hsvc
    rw [reconcile_of_applied r selectorString req s sd hget hdep hsvc]
    constructor
    · simp only [List.filter_append, (applyDeployment_no_event r sd _ "Warning").2.1,
        (applyService_no_event r _ sd _ "Warning").2.1, (auditRecordsFor_filter _ _ _ _).2.1,
        (SyncStatus_no_event r selectorString sd _ _ _ "Warning").2.1]
      cases (SyncStatus r selectorString sd (applyDeployment r sd (afterLoad r req s)).1.2.2
        (applyService r (req.NamespacedName.Name ++ "-svc") sd
          (applyDeployment r sd (afterLoad r req s)).2.st).1.2.2
        ⟨(applyService r (req.NamespacedName.Name ++ "-svc") sd
          (applyDeployment r sd (afterLoad r req s)).2.st).2.st, []⟩).1.1 <;>
        simp [Action.isEvent]
    · simp only [List.filter_append, (applyDeployment_no_event r sd _ "Warning").1,
        (applyService_no_event r _ sd _ "Warning").1, (auditRecordsFor_filter _ _ _ _).1,
        (SyncStatus_no_event r selectorString sd _ _ _ "Warning").1]
      cases (SyncStatus r selectorString sd (applyDeployment r sd (afterLoad r req s)).1.2.2
        (applyService r (req.NamespacedName.Name ++ "-svc") sd
          (applyDeployment r sd (afterLoad r req s)).2.st).1.2.2
        ⟨(applyService r (req.NamespacedName.Name ++ "-svc") sd
          (applyDeployment r sd (afterLoad r req s)).2.st).2.st, []⟩).1.1 <;>
        simp [Action.isEventOfType]
  · intro err hsvc
    rw [reconcile_of_service_error r selectorString req s sd err hget hdep hsvc]
    simp only [List.filter_append, (applyDeployment_no_event r sd _ "Warning").2.1,
      (applyService_no_event r _ sd _ "Warning").2.1, (auditRecordsFor_filter _ _ _ _).2.1]
    simp [Action.isEvent, EventTypeWarning]

set_option maxRecDepth 100000 in
/-- C18 at a concrete store without children: both applies create, and the events of the pass
are the two Normal records of the creations. -/
theorem reconcile_records_follow_outcome_witness :
    (Reconcile storeReconciler witnessSelectorString witnessRequest
        ⟨witnessStore, []⟩).2.trace.filter Action.isEvent =
      [.event { Namespace := "default", Name := "web" } "Normal" "DeploymentCreated"
          "Created Deployment %q" ["web"],
        .event { Namespace := "default", Name := "web" } "Normal" "ServiceCreated"
          "Created Service %q" ["web-svc"]] :=
  ((reconcile_records_follow_outcome storeReconciler witnessSelectorString witnessRequest
    witnessStore witnessDescriptor rfl (by decide)).1 (by decide)).1.trans (by decide)

/-- C19: in a reconcile of a present descriptor the calls on the children and the status patch
come in this order: first the calls of the Deployment apply; then, only when that apply
succeeded, the calls of the Service apply; then, only when both applies succeeded, the status
patch, if any, whose object carries the status projected from the Deployment and the Service
as the two applies returned them. -/
theorem reconcile_call_order {σ : Type} (r : reconciler σ)
    (selectorString : LabelSelector → Except Err String) (req : Request) (s : σ)
    (sd : ServiceDeployment)
    (hget : (r.Client.Get req.NamespacedName s).1 = .ok sd) :
    (Reconcile r selectorString req ⟨s, []⟩).2.trace.filter Action.isStoreCall =
        (applyDeployment r sd (afterLoad r req s)).2.trace ++
          (if (applyDeployment r sd (afterLoad r req s)).1.2.1 = none then
            (applyService r (req.NamespacedName.Name ++ "-svc") sd
              (applyDeployment r sd (afterLoad r req s)).2.st).2.trace ++
              (if (applyService r (req.NamespacedName.Name ++ "-svc") sd
                  (applyDeployment r sd (afterLoad r req s)).2.st).1.2.1 = none then
                (SyncStatus r selectorString sd
                  (applyDeployment r sd (afterLoad r req s)).1.2.2
                  (applyService r (req.NamespacedName.Name ++ "-svc") sd
                    (applyDeployment r sd (afterLoad r req s)).2.st).1.2.2
                  ⟨(applyService r (req.NamespacedName.Name ++ "-svc") sd
                    (applyDeployment r sd (afterLoad r req s)).2.st).2.st, []⟩).2.trace
              else [])
          else []) ∧
      (∀ x ∈ (applyDeployment r sd (afterLoad r req s)).2.trace,
        x.isDeploymentCall = true) ∧
      (∀ x ∈ (applyService r (req.NamespacedName.Name ++ "-svc") sd
          (applyDeployment r sd (afterLoad r req s)).2.st).2.trace,
        x.isServiceCall = true) ∧
      (∀ x ∈ (SyncStatus r selectorString sd
          (applyDeployment r sd (afterLoad r req s)).1.2.2
          (applyService r (req.NamespacedName.Name ++ "-svc") sd
            (applyDeployment r sd (afterLoad r req s)).2.st).1.2.2
          ⟨(applyService r (req.NamespacedName.Name ++ "-svc") sd
            (applyDeployment r sd (afterLoad r req s)).2.st).2.st, []⟩).2.trace,
        x = .patchStatus
          { sd with
            Status :=
              fillFromServiceStatus
                (fillFromDeploymentStatus selectorString sd.Status sd
                  (applyDeployment r sd (afterLoad r req s)).1.2.2)
                (applyService r (req.NamespacedName.Name ++ "-svc") sd
                  (applyDeployment r sd (afterLoad r req s)).2.st).1.2.2 }
          sd.DeepCopyInto) := by
  refine ⟨?_, applyDeployment_trace_calls r sd _, applyService_trace_calls r _ sd _, ?_⟩
  · cases hdep : (applyDeployment r sd (afterLoad r req s)).1.2.1 with
    | some err =>
      rw [reconcile_of_deployment_error r selectorString req s sd err hget hdep]
      by_cases hc : IsConflict err = true
      · rw [if_pos hc]
        simp only [List.filter_append, (applyDeployment_no_event r sd _ "Warning").2.2]
        simp [Action.isStoreCall]
      · rw [if_neg hc]
        simp only [List.filter_append, (applyDeployment_no_event r sd _ "Warning").2.2]
        simp [Action.isStoreCall]
    | none =>
      cases hsvc : (applyService r (req.NamespacedName.Name ++ "-svc") sd
          (applyDeployment r sd (afterLoad r req s)).2.st).1.2.1 with
      | some err =>
        rw [reconcile_of_service_error r selectorString req s sd err hget hdep hsvc]
        simp only [List.filter_append, (applyDeployment_no_event r sd _ "Warning").2.2,
          (applyService_no_event r _ sd _ "Warning").2.2, (auditRecordsFor_filter _ _ _ _).2.2]
        simp [Action.isStoreCall]
      | none =>
        rw [reconcile_of_applied r selectorString req s sd hget hdep hsvc]
        simp only [List.filter_append, (applyDeployment_no_event r sd _ "Warning").2.2,
          (applyService_no_event r _ sd _ "Warning").2.2, (auditRecordsFor_filter _ _ _ _).2.2,
          (SyncStatus_no_event r selectorString sd _ _ _ "Warning").2.2]
        cases (SyncStatus r selectorString sd (applyDeployment r sd (afterLoad r req s)).1.2.2
          (applyService r (req.NamespacedName.Name ++ "-svc") sd
            (applyDeployment r sd (afterLoad r req s)).2.st).1.2.2
          ⟨(applyService r (req.NamespacedName.Name ++ "-svc") sd
            (applyDeployment r sd (afterLoad r req s)).2.st).2.st, []⟩).1.1 <;>
          simp [Action.isStoreCall]
  · intro x hx
    rw [SyncStatus_trace] at hx
    split at hx
    · simp at hx
    · simpa using hx

set_option maxRecDepth 100000 in
/-- C19 at a concrete store without children: the store calls of the pass are the lookup and
create of the Deployment, the lookup and create of the Service, and one status patch, in this
order. -/
theorem reconcile_call_order_witness :
    ((Reconcile storeReconciler witnessSelectorString witnessRequest
        ⟨witnessStore, []⟩).2.trace.filter Action.isStoreCall).map
        (fun a => (a.isDeploymentCall, a.isServiceCall, a.isStatusPatch)) =
      [(true, false, false), (true, false, false), (false, true, false), (false, true, false),
        (false, false, true)] :=
  (congrArg (List.map (fun a => (a.isDeploymentCall, a.isServiceCall, a.isStatusPatch)))
    (reconcile_call_order storeReconciler witnessSelectorString witnessRequest witnessStore
      witnessDescriptor rfl).1).trans (by decide)

/-! ## Deep copy -/

/-- C21, the code at the failing input: `DeepCopy` of a descriptor whose container and port lists
are nil returns a copy whose lists are empty and not nil, so the copy's spec is not deep-equal
to the receiver's; the sibling `ServiceDeploymentList.DeepCopyObject` keeps a nil item list nil.
What does hold for every descriptor: the copy has the same type and object metadata, replica
count, service name and type, status, and the same containers and ports element by element; a
nil receiver gives nil. -/
theorem deepCopy_nil_lists_become_empty :
    (ServiceDeployment.DeepCopy (some bareDescriptor)).map (fun c => c.Spec.Containers) =
        some (some []) ∧
      (ServiceDeployment.DeepCopy (some bareDescriptor)).map (fun c => c.Spec.Service.Ports) =
        some (some []) ∧
      bareDescriptor.Spec.Containers = none ∧
      bareDescriptor.Spec.Service.Ports = none ∧
      reflectDeepEqualSpec bareDescriptor.Spec bareDescriptor.DeepCopyInto.Spec = false ∧
      (ServiceDeploymentList.DeepCopyObject { Items := none }).Items = none ∧
      (∀ sd : ServiceDeployment,
        ServiceDeployment.DeepCopy (some sd) = some sd.DeepCopyInto ∧
          sd.DeepCopyInto.TypeMeta = sd.TypeMeta ∧
          sd.DeepCopyInto.ObjectMeta = sd.ObjectMeta ∧
          sd.DeepCopyInto.Spec.Replicas = sd.Spec.Replicas ∧
          sd.DeepCopyInto.Spec.Service.Name = sd.Spec.Service.Name ∧
          sd.DeepCopyInto.Spec.Service.Type_ = sd.Spec.Service.Type_ ∧
          sd.DeepCopyInto.Status = sd.Status ∧
          sd.DeepCopyInto.Spec.Containers.getD [] = sd.Spec.Containers.getD [] ∧
          sd.DeepCopyInto.Spec.Service.Ports.getD [] = sd.Spec.Service.Ports.getD [] ∧
          (sd.Spec.Containers ≠ none → sd.Spec.Service.Ports ≠ none →
            sd.DeepCopyInto = sd)) ∧
      ServiceDeployment.DeepCopy none = none := by
  refine ⟨by decide, by decide, rfl, rfl, by decide, rfl, ?_, rfl⟩
  intro sd
  refine ⟨rfl, rfl, rfl, rfl, rfl, rfl, rfl, rfl, rfl, ?_⟩
  intro hc hp
  obtain ⟨tm, om, ⟨reps, cs, ⟨n, t, ps⟩⟩, st⟩ := sd
  cases cs with
  | none => exact absurd rfl hc
  | some cs =>
    cases ps with
    | none => exact absurd rfl hp
    | some ps => rfl

/-! ## The 04 variant: step (3) after a failed Deployment lookup -/

/-- C22, the code on every input of the claim: in the 04 variant, when the descriptor is
present, the Deployment lookup reports not-found and hands back no replica count (a nil pointer,
or a pointer to an object whose replica count is nil), and both creates succeed, `Reconcile`
issues the two creates and then panics in step (3) on the nil dereference instead of returning
a nil error. -/
theorem reconcile04_dereferences_nil_replicas {σ : Type}
    (r : HelloControllerRuntime.reconciler σ) (req : Request) (s : σ) (sd : ServiceDeployment)
    (dep : Option Deployment) (err : Err)
    (hget : (r.Client.Get req.NamespacedName s).1 = .ok sd)
    (hdep : (r.kubeClient.GetDeployment req.NamespacedName.Namespace req.NamespacedName.Name
      (r.Client.Get req.NamespacedName s).2).1 = (dep, some err))
    (hnf : IsNotFound err = true)
    (hnil : ∀ d, dep = some d → d.Spec.Replicas = none)
    (hcd : (r.kubeClient.CreateDeployment req.NamespacedName.Namespace
      (HelloControllerRuntime.newDeploymentFromServiceDeployment req.NamespacedName.Name
        sd.Spec.Containers sd.Spec.Replicas)
      (r.kubeClient.GetDeployment req.NamespacedName.Namespace req.NamespacedName.Name
        (r.Client.Get req.NamespacedName s).2).2).1.2 = none)
    (hcs : (r.kubeClient.CreateService req.NamespacedName.Namespace
      (HelloControllerRuntime.newServiceFromServiceDeployment req.NamespacedName.Name
        sd.Spec.Service.Type_ sd.Spec.Service.Ports)
      (r.kubeClient.CreateDeployment req.NamespacedName.Namespace
        (HelloControllerRuntime.newDeploymentFromServiceDeployment req.NamespacedName.Name
          sd.Spec.Containers sd.Spec.Replicas)
        (r.kubeClient.GetDeployment req.NamespacedName.Namespace req.NamespacedName.Name
          (r.Client.Get req.NamespacedName s).2).2).2).1.2 = none) :
    (HelloControllerRuntime.Reconcile r req ⟨s, []⟩).1 =
        .panicked HelloControllerRuntime.nilDereference ∧
      (HelloControllerRuntime.Reconcile r req ⟨s, []⟩).2.trace =
        [.logInfo "Reconciling servicedeployment...",
          .getServiceDeployment req.NamespacedName,
          .getDeployment req.NamespacedName,
          .createDeployment
            (HelloControllerRuntime.newDeploymentFromServiceDeployment req.NamespacedName.Name
              sd.Spec.Containers sd.Spec.Replicas),
          .createService
            (HelloControllerRuntime.newServiceFromServiceDeployment req.NamespacedName.Name
              sd.Spec.Service.Type_ sd.Spec.Service.Ports)] := by
  have h3 : ∀ w : World σ,
      HelloControllerRuntime.reconcileStep3 r req sd dep w =
        (.panicked HelloControllerRuntime.nilDereference, w) := by
    intro w
    unfold HelloControllerRuntime.reconcileStep3
    cases dep with
    | none => rfl
    | some d => simp only [hnil d rfl]
  unfold HelloControllerRuntime.Reconcile
  simp only [World.call, World.emit, hget]
  unfold HelloControllerRuntime.reconcileStep2
  simp only [World.call, hdep, hnf, if_true, hcd]
  unfold HelloControllerRuntime.reconcileStep2ii
  simp only [World.call, hcs, h3]
  simp

set_option maxRecDepth 100000 in
/-- C22 at the failing input: the first reconcile of the descriptor `default/web` on a store
without children creates the Deployment and the Service and panics. -/
theorem reconcile04_dereferences_nil_replicas_witness :
    (HelloControllerRuntime.Reconcile HelloControllerRuntime.storeReconciler witnessRequest
        ⟨witnessStore, []⟩).1 = .panicked HelloControllerRuntime.nilDereference ∧
      (HelloControllerRuntime.Reconcile HelloControllerRuntime.storeReconciler witnessRequest
        ⟨witnessStore, []⟩).2.trace =
        [.logInfo "Reconciling servicedeployment...",
          .getServiceDeployment witnessRequest.NamespacedName,
          .getDeployment witnessRequest.NamespacedName,
          .createDeployment
            (HelloControllerRuntime.newDeploymentFromServiceDeployment "web"
              witnessDescriptor.Spec.Containers witnessDescriptor.Spec.Replicas),
          .createService
            (HelloControllerRuntime.newServiceFromServiceDeployment "web"
              witnessDescriptor.Spec.Service.Type_ witnessDescriptor.Spec.Service.Ports)] :=
  reconcile04_dereferences_nil_replicas HelloControllerRuntime.storeReconciler witnessRequest
    witnessStore witnessDescriptor (some {}) (.status .NotFound "not found")
    rfl rfl (by decide) (fun d h => by cases h; rfl) (by decide) (by decide)

end ServiceDeploymentController
